import Mathlib

/-!
Verification development for the svdsuite/svdconv comparison tool.

The repository has two core parts:
* `src/compare.py` — a structural comparator walking two peripheral forests
  in lock-step (class `Compare`);
* `src/svdconv/parser.py` — a parser turning the reference tool's indented
  free-text debug output into a peripheral forest (`SVDConvParser`), plus
  token-translation tables and the top-level `parse_svdconv_output` driver.

This file gives a shallow embedding of both parts and proves/refutes the
frozen claims about them.  Python strings are modelled as `List Char`
(`Str`) with hand-rolled structural primitives so that every definition is
kernel-executable; Python `int` values are modelled as `Int`; Python
exceptions are modelled with `Except String`; the `while` loops over a line
index are modelled with an explicit fuel argument where running out of fuel
is an error (the top-level entry points pass ample fuel, and all proved
properties are of the form "if parsing succeeded then …", so they are
independent of the fuel bound).
-/

/-! ### String primitives (Python `str` operations over `List Char`) -/

abbrev Str := List Char

/-- Python `str.strip()`: drop leading and trailing whitespace. -/
def pyStrip (l : Str) : Str :=
  ((l.dropWhile Char.isWhitespace).reverse.dropWhile Char.isWhitespace).reverse

/-- Python `str.startswith(p)`. -/
def startsWithL : Str → Str → Bool
  | [], _ => true
  | _ :: _, [] => false
  | p :: ps, c :: cs => p == c && startsWithL ps cs

/-- Python `p in s` (substring containment). -/
def containsSub (pat : Str) : Str → Bool
  | [] => startsWithL pat []
  | c :: cs => startsWithL pat (c :: cs) || containsSub pat cs

/-- Split at the first occurrence of `ch`: Python `s.split(ch, 1)`.
Returns `none` when `ch` does not occur (where Python's two-name unpacking
of the one-element list would raise). -/
def splitFirst (ch : Char) : Str → Option (Str × Str)
  | [] => none
  | c :: cs =>
    if c == ch then some ([], cs)
    else match splitFirst ch cs with
      | some (k, v) => some (c :: k, v)
      | none => none

/-- Python `s.replace("0x", "")` (left-to-right, non-overlapping). -/
def replace0x : Str → Str
  | '0' :: 'x' :: rest => replace0x rest
  | c :: rest => c :: replace0x rest
  | [] => []

/-- Python `s.replace("0b", "")`. -/
def replace0b : Str → Str
  | '0' :: 'b' :: rest => replace0b rest
  | c :: rest => c :: replace0b rest
  | [] => []

/-- Lexicographic `≤` on character lists by code point,
matching Python string comparison. -/
def strLeL : Str → Str → Bool
  | [], _ => true
  | _ :: _, [] => false
  | c :: cs, d :: ds =>
    if c.toNat < d.toNat then true
    else if d.toNat < c.toNat then false
    else strLeL cs ds

/-- Python `s1 <= s2` on the model's `String`s. -/
def strLe (s1 s2 : String) : Bool := strLeL s1.data s2.data

/-- Digit value in a given base; `none` when the character is not a valid
digit for the base (bases used: 2, 10, 16). -/
def digitValue (base : Nat) (c : Char) : Option Nat :=
  let v : Option Nat :=
    if '0' ≤ c ∧ c ≤ '9' then some (c.toNat - '0'.toNat)
    else if 'a' ≤ c ∧ c ≤ 'f' then some (c.toNat - 'a'.toNat + 10)
    else if 'A' ≤ c ∧ c ≤ 'F' then some (c.toNat - 'A'.toNat + 10)
    else none
  match v with
  | some d => if d < base then some d else none
  | none => none

/-- Digit/underscore tail of a Python integer literal: single underscores
may separate digits.  `acc` is the value accumulated so far. -/
def pyIntDigits (base : Nat) : Str → Nat → Option Nat
  | [], acc => some acc
  | '_' :: c :: rest, acc =>
    match digitValue base c with
    | some d => pyIntDigits base rest (acc * base + d)
    | none => none
  | ['_'], _ => none
  | c :: rest, acc =>
    match digitValue base c with
    | some d => pyIntDigits base rest (acc * base + d)
    | none => none

/-- The body of a Python integer literal after sign stripping: an optional
base prefix (`0b`/`0B` for base 2, `0x`/`0X` for base 16) followed by at
least one digit, with single underscores allowed between digits. -/
def pyIntBody (base : Nat) (l : Str) : Option Nat :=
  let core : Str :=
    match base, l with
    | 2, '0' :: 'b' :: rest => rest
    | 2, '0' :: 'B' :: rest => rest
    | 16, '0' :: 'x' :: rest => rest
    | 16, '0' :: 'X' :: rest => rest
    | _, _ => l
  match core with
  | [] => none
  | '_' :: _ => none
  | c :: rest =>
    match digitValue base c with
    | some d => pyIntDigits base rest d
    | none => none

/-- Python `int(s, base)`: optional surrounding whitespace, optional sign,
optional base prefix, then digits.  `none` models `ValueError`. -/
def pyInt (base : Nat) (l : Str) : Option Int :=
  match pyStrip l with
  | '-' :: rest => (pyIntBody base rest).map (fun n => -(n : Int))
  | '+' :: rest => (pyIntBody base rest).map (fun n => (n : Int))
  | rest => (pyIntBody base rest).map (fun n => (n : Int))

/-- Decimal digits of a natural number (fuelled helper). -/
def natReprAux : Nat → Nat → Str
  | 0, _ => []
  | _ + 1, n =>
    if n < 10 then [Char.ofNat (n + '0'.toNat)]
    else natReprAux n (n / 10) ++ [Char.ofNat (n % 10 + '0'.toNat)]

/-- Decimal representation of a natural number, as Python `str(n)`. -/
def natRepr (n : Nat) : Str := natReprAux (n + 1) n

/-- Decimal representation of an integer, as Python `str(i)`. -/
def intRepr (i : Int) : Str :=
  match i with
  | Int.ofNat n => natRepr n
  | Int.negSucc n => '-' :: natRepr (n + 1)

/-! ### The svdsuite process model (`svdsuite.model.process` / `types`)

Only the attributes this repository constructs and compares are modelled;
the `parsed` back-references are omitted. -/

namespace SVD

inductive AccessType where
  | READ_ONLY | WRITE_ONLY | READ_WRITE | WRITE_ONCE | READ_WRITE_ONCE
  deriving DecidableEq

inductive ProtectionStringType where
  | ANY | SECURE | NON_SECURE | PRIVILEGED
  deriving DecidableEq

inductive EnumeratedTokenType where
  | REGISTERS | BUFFER | RESERVED
  deriving DecidableEq

inductive ModifiedWriteValuesType where
  | ONE_TO_CLEAR | ONE_TO_SET | ONE_TO_TOGGLE
  | ZERO_TO_CLEAR | ZERO_TO_SET | ZERO_TO_TOGGLE
  | CLEAR | SET | MODIFY
  deriving DecidableEq

inductive ReadActionType where
  | CLEAR | SET | MODIFY | MODIFY_EXTERNAL
  deriving DecidableEq

inductive DataTypeType where
  | UINT8_T | UINT16_T | UINT32_T | UINT64_T
  | INT8_T | INT16_T | INT32_T | INT64_T
  deriving DecidableEq

inductive EnumUsageType where
  | READ | WRITE | READ_WRITE
  deriving DecidableEq

structure AddressBlock where
  offset : Int
  size : Int
  usage : EnumeratedTokenType
  protection : Option ProtectionStringType
  deriving DecidableEq

structure Interrupt where
  name : String
  description : Option String
  value : Int
  deriving DecidableEq

structure EnumeratedValue where
  name : String
  description : Option String
  value : Option Int
  is_default : Bool
  deriving DecidableEq

structure EnumeratedValueContainer where
  name : Option String
  header_enum_name : Option String
  usage : EnumUsageType
  enumerated_values : List EnumeratedValue
  deriving DecidableEq

structure Field where
  name : String
  description : Option String
  bit_offset : Int
  bit_width : Int
  lsb : Int
  msb : Int
  access : AccessType
  modified_write_values : ModifiedWriteValuesType
  write_constraint : Option String
  read_action : Option ReadActionType
  enumerated_value_containers : List EnumeratedValueContainer
  bit_range : Int × Int
  deriving DecidableEq

structure Register where
  name : String
  display_name : Option String
  description : Option String
  alternate_group : Option String
  alternate_register : Option String
  address_offset : Int
  data_type : Option DataTypeType
  modified_write_values : ModifiedWriteValuesType
  write_constraint : Option String
  read_action : Option ReadActionType
  size : Int
  access : AccessType
  protection : ProtectionStringType
  reset_value : Int
  reset_mask : Int
  base_address : Int
  fields : List Field
  deriving DecidableEq

/-- The scalar attributes of a `Cluster`; its `registers_clusters` children
live in the recursive `RegisterCluster` union below. -/
structure ClusterAttrs where
  name : String
  description : Option String
  alternate_cluster : Option String
  header_struct_name : Option String
  address_offset : Int
  size : Int
  access : AccessType
  protection : ProtectionStringType
  reset_value : Int
  reset_mask : Int
  base_address : Int
  end_address : Int
  cluster_size : Int
  deriving DecidableEq

/-- The `Register | Cluster` tagged union of the `registers_clusters`
lists. -/
inductive RegisterCluster where
  | register (r : Register)
  | cluster (c : ClusterAttrs) (registers_clusters : List RegisterCluster)

/-- `address_offset` of either variant (used by the sort key). -/
def RegisterCluster.address_offset : RegisterCluster → Int
  | .register r => r.address_offset
  | .cluster c _ => c.address_offset

/-- `name` of either variant (used by the sort key). -/
def RegisterCluster.name : RegisterCluster → String
  | .register r => r.name
  | .cluster c _ => c.name

structure Peripheral where
  name : String
  version : Option String
  description : Option String
  alternate_peripheral : Option String
  group_name : Option String
  prepend_to_name : Option String
  append_to_name : Option String
  header_struct_name : Option String
  disable_condition : Option String
  base_address : Int
  address_blocks : List AddressBlock
  interrupts : List Interrupt
  size : Int
  access : AccessType
  protection : ProtectionStringType
  reset_value : Int
  reset_mask : Int
  end_address : Int
  end_address_effective : Int
  peripheral_size : Int
  peripheral_size_effective : Int
  registers_clusters : List RegisterCluster

end SVD

/-! ### The structural comparator (`src/compare.py`, class `Compare`)

Each Python `if cond: logger.warning(msg); return False` is modelled as
`if cond then some msg else …`: the comparison functions return the constant
prefix of the first logged mismatch message, and `none` when the Python
function returns `True`.  The boolean verdict is `Option.isNone` of that
result.  The `for … in zip(…)` loops become recursion on both lists that
stops as soon as either list is exhausted, exactly like `zip`. -/

namespace SVD

/-- One Python guard `if cond: logger.warning(msg); return False`:
report `msg` when `cond` holds, otherwise continue with `rest`. -/
def check (cond : Prop) [Decidable cond] (msg : String) (rest : Option String) : Option String :=
  if cond then some msg else rest

/-- Sequencing with a sub-comparison: its mismatch (if any) is the
result, otherwise continue with `rest`. -/
def thenCompare (sub : Option String) (rest : Option String) : Option String :=
  match sub with
  | some m => some m
  | none => rest

@[simp] theorem check_eq_none {cond : Prop} [Decidable cond] {msg rest} :
    check cond msg rest = none ↔ ¬cond ∧ rest = none := by
  unfold check
  split <;> simp_all

@[simp] theorem thenCompare_eq_none {sub rest} :
    thenCompare sub rest = none ↔ sub = none ∧ rest = none := by
  unfold thenCompare
  split <;> simp_all

theorem check_pos {cond : Prop} [Decidable cond] {msg rest} (h : cond) :
    check cond msg rest = some msg := if_pos h

theorem check_neg {cond : Prop} [Decidable cond] {msg rest} (h : ¬cond) :
    check cond msg rest = rest := if_neg h

theorem thenCompare_none {sub rest} (h : sub = none) :
    thenCompare sub rest = rest := by rw [h]; rfl

namespace Compare

/-- `Compare._compare_address_blocks`. -/
def compare_address_blocks : List AddressBlock → List AddressBlock → Option String
  | ab_c :: rest_c, ab_s :: rest_s =>
    check (ab_c.offset ≠ ab_s.offset) "Address block offset mismatch" <|
    check (ab_c.size ≠ ab_s.size) "Address block size mismatch" <|
    check (ab_c.usage ≠ ab_s.usage) "Address block usage mismatch" <|
    check (ab_c.protection ≠ ab_s.protection) "Address block protection mismatch" <|
    compare_address_blocks rest_c rest_s
  | _, _ => none

/-- `Compare._compare_interrupts`. -/
def compare_interrupts : List Interrupt → List Interrupt → Option String
  | int_c :: rest_c, int_s :: rest_s =>
    check (int_c.name ≠ int_s.name) "Interrupt name mismatch" <|
    check (int_c.value ≠ int_s.value) "Interrupt value mismatch" <|
    compare_interrupts rest_c rest_s
  | _, _ => none

/-- `Compare._compare_enumerated_values`. -/
def compare_enumerated_values : List EnumeratedValue → List EnumeratedValue → Option String
  | ev_c :: rest_c, ev_s :: rest_s =>
    check (ev_c.name ≠ ev_s.name) "Enumerated value name mismatch" <|
    check (ev_c.value ≠ ev_s.value) "Enumerated value value mismatch" <|
    check (ev_c.is_default ≠ ev_s.is_default) "Enumerated value is_default mismatch" <|
    compare_enumerated_values rest_c rest_s
  | _, _ => none

/-- `Compare._compare_enumerated_value_containers`. -/
def compare_enumerated_value_containers :
    List EnumeratedValueContainer → List EnumeratedValueContainer → Option String
  | evc_c :: rest_c, evc_s :: rest_s =>
    check (evc_c.name ≠ evc_s.name) "Enumerated value container name mismatch" <|
    check (evc_c.header_enum_name ≠ evc_s.header_enum_name)
      "Enumerated value container header enum name mismatch" <|
    check (evc_c.usage ≠ evc_s.usage) "Enumerated value container usage mismatch" <|
    check (evc_c.enumerated_values.length ≠ evc_s.enumerated_values.length)
      "Enumerated values count mismatch" <|
    thenCompare (compare_enumerated_values evc_c.enumerated_values evc_s.enumerated_values) <|
    compare_enumerated_value_containers rest_c rest_s
  | _, _ => none

/-- `Compare._compare_fields`. -/
def compare_fields : List Field → List Field → Option String
  | field_c :: rest_c, field_s :: rest_s =>
    check (field_c.name ≠ field_s.name) "Field name mismatch" <|
    check (field_c.lsb ≠ field_s.lsb) "Field lsb mismatch" <|
    check (field_c.msb ≠ field_s.msb) "Field msb mismatch" <|
    check (field_c.bit_offset ≠ field_s.bit_offset) "Field bit offset mismatch" <|
    check (field_c.bit_width ≠ field_s.bit_width) "Field bit width mismatch" <|
    check (field_c.bit_range ≠ field_s.bit_range) "Field bit range mismatch" <|
    check (field_c.modified_write_values ≠ field_s.modified_write_values)
      "Field modified write values mismatch" <|
    check (field_c.read_action ≠ field_s.read_action) "Field read action mismatch" <|
    check (field_c.access ≠ field_s.access) "Field access mismatch" <|
    check (field_c.enumerated_value_containers.length ≠ field_s.enumerated_value_containers.length)
      "Enumerated value containers count mismatch" <|
    thenCompare (compare_enumerated_value_containers
      field_c.enumerated_value_containers field_s.enumerated_value_containers) <|
    compare_fields rest_c rest_s
  | _, _ => none

/-- `Compare._compare_register`.  Note that `base_address` is compared
after the fields, mirroring the source order. -/
def compare_register (register_c register_s : Register) : Option String :=
  check (register_c.name ≠ register_s.name) "Register name mismatch" <|
  check (register_c.display_name ≠ register_s.display_name) "Register display name mismatch" <|
  check (register_c.alternate_group ≠ register_s.alternate_group)
    "Register alternate group mismatch" <|
  check (register_c.alternate_register ≠ register_s.alternate_register)
    "Register alternate register mismatch" <|
  check (register_c.address_offset ≠ register_s.address_offset)
    "Register address offset mismatch" <|
  check (register_c.data_type ≠ register_s.data_type) "Register data type mismatch" <|
  check (register_c.modified_write_values ≠ register_s.modified_write_values)
    "Register modified write values mismatch" <|
  check (register_c.read_action ≠ register_s.read_action) "Register read action mismatch" <|
  check (register_c.size ≠ register_s.size) "Register size mismatch" <|
  check (register_c.access ≠ register_s.access) "Register access mismatch" <|
  check (register_c.protection ≠ register_s.protection) "Register protection mismatch" <|
  check (register_c.fields.length ≠ register_s.fields.length) "Fields count mismatch" <|
  thenCompare (compare_fields register_c.fields register_s.fields) <|
  check (register_c.base_address ≠ register_s.base_address)
    "Register base address mismatch" <|
  none

mutual

/-- The body of the `for` loop of `Compare._compare_registers_clusters`
for one positional pair: dispatch on the two tags, with
`Compare._compare_cluster` inlined as the cluster/cluster case
(`base_address` is compared after the children, mirroring the source
order). -/
def compare_rc_pair : RegisterCluster → RegisterCluster → Option String
  | .register reg_c, .register reg_s => compare_register reg_c reg_s
  | .cluster cluster_c children_c, .cluster cluster_s children_s =>
    check (cluster_c.name ≠ cluster_s.name) "Cluster name mismatch" <|
    check (cluster_c.alternate_cluster ≠ cluster_s.alternate_cluster)
      "Cluster alternate cluster mismatch" <|
    check (cluster_c.header_struct_name ≠ cluster_s.header_struct_name)
      "Cluster header struct name mismatch" <|
    check (cluster_c.address_offset ≠ cluster_s.address_offset)
      "Cluster address offset mismatch" <|
    check (cluster_c.size ≠ cluster_s.size) "Cluster size mismatch" <|
    check (cluster_c.access ≠ cluster_s.access) "Cluster access mismatch" <|
    check (cluster_c.protection ≠ cluster_s.protection) "Cluster protection mismatch" <|
    check (children_c.length ≠ children_s.length) "Registers clusters count mismatch" <|
    thenCompare (compare_registers_clusters children_c children_s) <|
    check (cluster_c.base_address ≠ cluster_s.base_address)
      "Cluster base address mismatch" <|
    none
  | _, _ => some "Register/Cluster type mismatch"

/-- `Compare._compare_registers_clusters`. -/
def compare_registers_clusters :
    List RegisterCluster → List RegisterCluster → Option String
  | reg_cluster_c :: rest_c, reg_cluster_s :: rest_s =>
    thenCompare (compare_rc_pair reg_cluster_c reg_cluster_s) <|
    compare_registers_clusters rest_c rest_s
  | _, _ => none

end

/-- `Compare._compare_peripherals` (the loop body for one pair). -/
def compare_peripheral_pair (peri_c peri_s : Peripheral) : Option String :=
  check (peri_c.name ≠ peri_s.name) "Name mismatch" <|
  check (peri_c.version ≠ peri_s.version) "Version mismatch" <|
  check (peri_c.alternate_peripheral ≠ peri_s.alternate_peripheral)
    "Alternate peripheral mismatch" <|
  check (peri_c.group_name ≠ peri_s.group_name) "Group name mismatch" <|
  check (peri_c.prepend_to_name ≠ peri_s.prepend_to_name) "Prepend to name mismatch" <|
  check (peri_c.append_to_name ≠ peri_s.append_to_name) "Append to name mismatch" <|
  check (peri_c.header_struct_name ≠ peri_s.header_struct_name)
    "Header struct name mismatch" <|
  check (peri_c.base_address ≠ peri_s.base_address) "Base address mismatch" <|
  check (peri_c.address_blocks.length ≠ peri_s.address_blocks.length)
    "Address blocks count mismatch" <|
  thenCompare (compare_address_blocks peri_c.address_blocks peri_s.address_blocks) <|
  check (peri_c.interrupts.length ≠ peri_s.interrupts.length) "Interrupts count mismatch" <|
  thenCompare (compare_interrupts peri_c.interrupts peri_s.interrupts) <|
  check (peri_c.size ≠ peri_s.size) "Size mismatch" <|
  check (peri_c.access ≠ peri_s.access) "Access mismatch" <|
  check (peri_c.protection ≠ peri_s.protection) "Protection mismatch" <|
  check (peri_c.registers_clusters.length ≠ peri_s.registers_clusters.length)
    "Registers clusters count mismatch" <|
  compare_registers_clusters peri_c.registers_clusters peri_s.registers_clusters

/-- `Compare._compare_peripherals`: iterates over
`zip(self._svdconv_peripherals, self._svdsuite_peripherals)`, so the walk
stops as soon as either list runs out — there is no length check on the
two top-level lists. -/
def compare_peripherals : List Peripheral → List Peripheral → Option String
  | peri_c :: rest_c, peri_s :: rest_s =>
    thenCompare (compare_peripheral_pair peri_c peri_s) <|
    compare_peripherals rest_c rest_s
  | _, _ => none

/-- `Compare.compare`: the boolean verdict (`True` iff no mismatch was
reported). -/
def compare (svdconv_peripherals svdsuite_peripherals : List Peripheral) : Bool :=
  (compare_peripherals svdconv_peripherals svdsuite_peripherals).isNone

end Compare

end SVD

/-! ### The reference-output parser (`src/svdconv/parser.py`)

`SVDConvParser` consumes the reference tool's `--debug-output` text, given
as a list of lines (`List Str`).  Index-advancing `while` loops become
fuelled recursive functions; running out of fuel is an `Except.error`
(for the key/value collectors, which cannot raise in Python, running out
of fuel returns the state reached so far instead).  All proved properties
below are of the form "if parsing returned `.ok` then …" and therefore do
not depend on the fuel bound. -/

namespace SVD

/-- String literal to `Str` shorthand. -/
def S (s : String) : Str := s.data

/-- Module-level constant `WHITESPACES = 4`. -/
def WHITESPACES : Nat := 4

/-- `ValueError` from Python `int(...)`, as an `Except`. -/
def pyIntE (base : Nat) (s : Str) : Except String Int :=
  match pyInt base s with
  | some v => .ok v
  | none => .error "ValueError: invalid literal for int"

/-- `_get_access_type` — raises `NotImplementedError` for `UNDEF`, `END`
and every token outside the table. -/
def get_access_type (access : Str) : Except String AccessType :=
  if access = S "UNDEF" then .error "NotImplementedError"
  else if access = S "READ_ONLY" then .ok .READ_ONLY
  else if access = S "WRITE_ONLY" then .ok .WRITE_ONLY
  else if access = S "READ_WRITE" then .ok .READ_WRITE
  else if access = S "WRITE_ONCE" then .ok .WRITE_ONCE
  else if access = S "READ_WRITE_ONCE" then .ok .READ_WRITE_ONCE
  else if access = S "END" then .error "NotImplementedError"
  else .error "NotImplementedError"

/-- `_get_protection_type`. -/
def get_protection_type (protection : Str) : Except String ProtectionStringType :=
  if protection = S "UNDEF" then .ok .ANY
  else if protection = S "SECURE" then .ok .SECURE
  else if protection = S "NONSECURE" then .ok .NON_SECURE
  else if protection = S "PRIVILEGED" then .ok .PRIVILEGED
  else .error "NotImplementedError"

/-- `_get_addr_block_usage`. -/
def get_addr_block_usage (usage : Str) : Except String EnumeratedTokenType :=
  if usage = S "UNDEF" then .error "NotImplementedError: No matching AddrBlockUsage"
  else if usage = S "REGISTERS" then .ok .REGISTERS
  else if usage = S "BUFFER" then .ok .BUFFER
  else if usage = S "RESERVED" then .ok .RESERVED
  else .error "NotImplementedError: No matching AddrBlockUsage"

/-- `_get_modified_write_value`. -/
def get_modified_write_value (mod_write_val : Str) : Except String ModifiedWriteValuesType :=
  if mod_write_val = S "undefined" then .ok .MODIFY
  else if mod_write_val = S "oneToClear" then .ok .ONE_TO_CLEAR
  else if mod_write_val = S "oneToSet" then .ok .ONE_TO_SET
  else if mod_write_val = S "oneToToggle" then .ok .ONE_TO_TOGGLE
  else if mod_write_val = S "zeroToClear" then .ok .ZERO_TO_CLEAR
  else if mod_write_val = S "zeroToSet" then .ok .ZERO_TO_SET
  else if mod_write_val = S "zeroToToggle" then .ok .ZERO_TO_TOGGLE
  else if mod_write_val = S "clear" then .ok .CLEAR
  else if mod_write_val = S "set" then .ok .SET
  else if mod_write_val = S "modify" then .ok .MODIFY
  else .error "NotImplementedError: No matching ModifiedWriteValuesType"

/-- `_get_read_action`. -/
def get_read_action (action : Str) : Except String (Option ReadActionType) :=
  if action = S "UNDEF" then .ok none
  else if action = S "CLEAR" then .ok (some .CLEAR)
  else if action = S "SET" then .ok (some .SET)
  else if action = S "MODIFY" then .ok (some .MODIFY)
  else if action = S "MODIFEXT" then .ok (some .MODIFY_EXTERNAL)
  else .error "NotImplementedError: No matching ReadActionType"

/-- `_get_data_type` — only the empty token maps (to `None`); everything
else raises. -/
def get_data_type (data_type : Str) : Except String (Option DataTypeType) :=
  if data_type = S "" then .ok none
  else .error "NotImplementedError: No matching DataTypeType"

/-- `_get_enum_usage`. -/
def get_enum_usage (usage : Str) : Except String EnumUsageType :=
  if usage = S "UNDEF" then .ok .READ_WRITE
  else if usage = S "READ" then .ok .READ
  else if usage = S "WRITE" then .ok .WRITE
  else if usage = S "READWRITE" then .ok .READ_WRITE
  else .error "NotImplementedError: No matching EnumUsageType"

/-! #### Attribute dictionaries -/

/-- A Python `dict[str, str]`; later `dictSet`s shadow earlier entries. -/
abbrev Dict := List (Str × Str)

/-- `d[k] = v` (overwrite). -/
def dictSet (d : Dict) (k v : Str) : Dict := (k, v) :: d

/-- `d.get(k)`. -/
def dictGet (d : Dict) (k : Str) : Option Str :=
  (d.find? (fun kv => kv.1 == k)).map (·.2)

/-- `d.get(k, default)`. -/
def dictGetD (d : Dict) (k : Str) (default : Str) : Str :=
  (dictGet d k).getD default

/-- `key, value = line.split(":", 1)` followed by `.strip()` on both parts
(the line itself is already stripped); `none` when there is no colon. -/
def keyVal (line : Str) : Option (Str × Str) :=
  (splitFirst ':' line).map fun kv => (pyStrip kv.1, pyStrip kv.2)

/-- `data.get(k) or None`: an absent key and an empty-string value both
become `None`. -/
def pyOrNone (o : Option Str) : Option String :=
  match o with
  | some s => if s.isEmpty then none else some ⟨s⟩
  | none => none

/-! #### Header-line regular expressions

`re.match` anchors at the start only.  For the greedy patterns
`=== <Kind> (.+) ===` the group is everything between the literal prefix
and the last occurrence of `" ==="`, and must be non-empty. -/

/-- Index of the last occurrence of `pat` (non-empty) in `l`. -/
def lastOccFrom (pat : Str) : Str → Option Nat
  | [] => none
  | c :: cs =>
    match lastOccFrom pat cs with
    | some k => some (k + 1)
    | none => if startsWithL pat (c :: cs) then some 0 else none

/-- `re.match("<pre>(.+) ===", line)` for a greedy group: returns the
group-1 text, or `none` when the pattern does not match. -/
def matchHeaderGreedy (pre : Str) (line : Str) : Option Str :=
  if startsWithL pre line then
    let rest := line.drop pre.length
    match lastOccFrom (S " ===") rest with
    | some k => if 1 ≤ k then some (rest.take k) else none
    | none => none
  else none

/-- `re.match("=== Register (.+?) \\(with prepend & append: (.+?)\\) ===", line)`:
the lazy group 1 is the shortest non-empty prefix of the rest that is
followed by the literal separator such that the remainder still matches
`(.+?)\\) ===`. -/
def matchRegisterHeader (line : Str) : Option Str :=
  if startsWithL (S "=== Register ") line then
    matchRegisterHeaderAux [] (line.drop (S "=== Register ").length)
  else none
where
  matchRegisterHeaderAux (acc : Str) : Str → Option Str
    | [] => none
    | c :: cs =>
      let acc' := acc ++ [c]
      let rem := cs
      if startsWithL (S " (with prepend & append: ") rem ∧
          containsSub (S ") ===") ((rem.drop (S " (with prepend & append: ").length).drop 1) then
        some acc'
      else
        matchRegisterHeaderAux acc' cs

/-! #### Key/value collection loops -/

/-- The lenient attribute-collection `while` loop shared by
`parse_peripheral`, `parse_register`, `parse_cluster`, `parse_field`,
`parse_enum_container` and `parse_enum`: stop when `stop` holds for the
raw line, collect `key: value` pairs, silently skip lines without a
colon.  (This loop cannot raise in Python, so running out of fuel returns
the state reached so far.) -/
def collect_kv (stop : Str → Bool) (lines : List Str) : Nat → Nat → Dict → (Dict × Nat)
  | 0, index, data => (data, index)
  | fuel + 1, index, data =>
    if h : index < lines.length then
      if stop lines[index] then (data, index)
      else
        match keyVal (pyStrip lines[index]) with
        | some kv => collect_kv stop lines fuel (index + 1) (dictSet data kv.1 kv.2)
        | none => collect_kv stop lines fuel (index + 1) data
    else (data, index)

/-- The strict collection loop of `parse_address_block` and
`parse_interrupt`: a line without a colon raises (tuple-unpacking
`ValueError`). -/
def collect_kv_strict (stop : Str → Bool) (lines : List Str) :
    Nat → Nat → Dict → Except String (Dict × Nat)
  | 0, _, _ => .error "fuel exhausted"
  | fuel + 1, index, data =>
    if h : index < lines.length then
      if stop lines[index] then .ok (data, index)
      else
        match keyVal (pyStrip lines[index]) with
        | some kv => collect_kv_strict stop lines fuel (index + 1) (dictSet data kv.1 kv.2)
        | none => .error "ValueError: not enough values to unpack"
    else .ok (data, index)

/-- Stop condition of the `parse_peripheral` attribute loop. -/
def stop_peri (line : Str) : Bool :=
  startsWithL (S "Address Block:") (pyStrip line) ||
  startsWithL (S "Interrupt:") (pyStrip line) ||
  startsWithL (S "===") (pyStrip line)

/-- Stop condition of the `parse_address_block` / `parse_interrupt` loops. -/
def stop_aii (line : Str) : Bool :=
  startsWithL (S "Interrupt:") (pyStrip line) ||
  startsWithL (S "Address Block:") (pyStrip line) ||
  startsWithL (S "===") (pyStrip line)

/-- Stop condition of the `parse_register` / `parse_cluster` attribute
loops: any `===` header. -/
def stop_marker (line : Str) : Bool :=
  startsWithL (S "===") (pyStrip line)

/-- Stop condition of the `parse_field` attribute loop: empty line or
header. -/
def stop_field (line : Str) : Bool :=
  (pyStrip line).isEmpty || startsWithL (S "===") (pyStrip line)

/-- Stop condition of the `parse_enum_container` attribute loop. -/
def stop_container (line : Str) : Bool :=
  (pyStrip line).isEmpty || startsWithL (S "===") (pyStrip line) ||
  startsWithL (S "Enum:") (pyStrip line)

/-- Stop condition of the `parse_enum` attribute loop (including the
`re.match(r"^[^ ]", line)` test on the raw line). -/
def stop_enum (line : Str) : Bool :=
  (pyStrip line).isEmpty || startsWithL (S "===") (pyStrip line) ||
  (match line with | [] => false | c :: _ => c ≠ ' ') ||
  startsWithL (S "Enum:") (pyStrip line)

end SVD

namespace SVD

/-! #### Stable sorting (Python `sorted(..., key=...)`) -/

/-- Insert `a` before the first element `b` with `le a b` (stable
insertion for a total preorder `le`). -/
def pyInsert (le : α → α → Bool) (a : α) : List α → List α
  | [] => [a]
  | b :: bs => if le a b then a :: b :: bs else b :: pyInsert le a bs

/-- Python `sorted(l)` under the boolean total preorder `le`. -/
def pySort (le : α → α → Bool) (l : List α) : List α :=
  l.foldr (pyInsert le) []

/-- Boolean `≤` on an `(Int, str)` sort key (Python tuple order). -/
def intStrLe (a b : Int × String) : Bool :=
  decide (a.1 < b.1) || (decide (a.1 = b.1) && strLe a.2 b.2)

/-- Sort key order for peripherals: `(p.base_address, p.name)`. -/
def periLe (p1 p2 : Peripheral) : Bool :=
  intStrLe (p1.base_address, p1.name) (p2.base_address, p2.name)

/-- Sort key order for address blocks: `ab.offset`. -/
def abLe (a1 a2 : AddressBlock) : Bool := decide (a1.offset ≤ a2.offset)

/-- Sort key order for interrupts: `intr.value`. -/
def intrLe (i1 i2 : Interrupt) : Bool := decide (i1.value ≤ i2.value)

/-- Sort key order for register/cluster children:
`(rc.address_offset, rc.name)`. -/
def rcLe (r1 r2 : RegisterCluster) : Bool :=
  intStrLe (r1.address_offset, r1.name) (r2.address_offset, r2.name)

/-- Sort key order for fields: `(f.lsb, f.name)`. -/
def fieldLe (f1 f2 : Field) : Bool :=
  intStrLe (f1.lsb, f1.name) (f2.lsb, f2.name)

/-- Sort key order for enumerated values:
`ev.value if ev.value is not None else 0`. -/
def evLe (e1 e2 : EnumeratedValue) : Bool :=
  decide (e1.value.getD 0 ≤ e2.value.getD 0)

namespace SVDConvParser

/-- `SVDConvParser.get_current_depth`. -/
def get_current_depth (line : Str) : Except String Nat :=
  if ¬ startsWithL (S "===") (pyStrip line) then
    .error "ValueError: Expected a new section to begin with that marker"
  else
    let whitespace_count := line.length - (line.dropWhile Char.isWhitespace).length
    if whitespace_count % WHITESPACES ≠ 0 then .error "ValueError: Unexpected indentation"
    else .ok (whitespace_count / WHITESPACES)

/-- The `EnumeratedValue` construction at the end of
`SVDConvParser.parse_enum`: decode the binary literal with the
`try/except ValueError` fallback to `0`, decide the `isDefault` flag, and
null out the value of a default-flagged entry. -/
def enum_from_data (data : Dict) : EnumeratedValue :=
  let bin_value := dictGetD data (S "value") (S "0")
  let int_value : Int := (pyInt 2 (replace0b bin_value)).getD 0
  let is_default :=
    (dictGetD data (S "isDefault") (S "false")).map Char.toLower == S "true" ||
    (dictGetD data (S "isDefault") (S "false")).map Char.toLower == S "yes" ||
    (dictGetD data (S "isDefault") (S "false")).map Char.toLower == S "1"
  { name := ⟨dictGetD data (S "name") (S "")⟩
    description := none
    value := if is_default then none else some int_value
    is_default := is_default }

/-- `SVDConvParser.parse_enum`: collects the `Enum:` block's key/value
pairs and builds the `EnumeratedValue`.  This function is total (it
cannot raise): an unparsable binary literal is swallowed by the
`try/except ValueError` and replaced by `0`, and a default-flagged entry
gets `value = None` afterwards. -/
def parse_enum (lines : List Str) (fuel index : Nat) : Option EnumeratedValue × Nat :=
  if h : index < lines.length then
    if ¬ startsWithL (S "Enum:") (pyStrip lines[index]) then (none, index)
    else
      let (data, index') := collect_kv stop_enum lines fuel (index + 1) []
      (some (enum_from_data data), index')
  else (none, index)

/-- `SVDConvParser._extend_enumerated_values_with_default`.  The Python
set difference `all_possible_values - covered_values` is realized as a
filter over the ascending enumeration of `range(2 ** (msb - lsb + 1))`
(the claims about this function are order-independent). -/
def extend_enumerated_values_with_default (enumerated_values : List EnumeratedValue)
    (dflt : EnumeratedValue) (lsb msb : Int) : List EnumeratedValue :=
  let covered_values : List Int := enumerated_values.filterMap (·.value)
  let all_possible_values : List Int :=
    (List.range (2 ^ (msb - lsb + 1).toNat)).map Int.ofNat
  let uncovered_values := all_possible_values.filter (fun v => !(covered_values.contains v))
  let extended := enumerated_values ++ uncovered_values.map (fun v =>
    { name := ⟨dflt.name.data ++ '_' :: intRepr v⟩
      description := none
      value := some v
      is_default := false })
  extended.filter (fun ev => !ev.is_default)

/-- The `while` loop of `parse_enum_container` that gathers consecutive
`Enum:` blocks. -/
def enum_values_loop (lines : List Str) :
    Nat → Nat → List EnumeratedValue → Except String (List EnumeratedValue × Nat)
  | 0, _, _ => .error "fuel exhausted"
  | fuel + 1, index, acc =>
    if h : index < lines.length then
      if startsWithL (S "Enum:") (pyStrip lines[index]) then
        match parse_enum lines fuel index with
        | (some enum_obj, index') => enum_values_loop lines fuel index' (acc ++ [enum_obj])
        | (none, index') => enum_values_loop lines fuel index' acc
      else .ok (acc, index)
    else .ok (acc, index)

/-- `SVDConvParser.parse_enum_container`. -/
def parse_enum_container (lines : List Str) (fuel index : Nat) (lsb msb : Int) :
    Except String (EnumeratedValueContainer × Nat) :=
  if h : index < lines.length then do
    let container_name : Option Str :=
      (matchHeaderGreedy (S "=== Enum Container: ") (pyStrip lines[index])).map pyStrip
    let (data, i1) := collect_kv stop_container lines fuel (index + 1) []
    let usage ← get_enum_usage (dictGetD data (S "usage") (S ""))
    let (enumerated_values, i2) ← enum_values_loop lines fuel i1 []
    let default_enum := enumerated_values.find? (·.is_default)
    let enumerated_values :=
      match default_enum with
      | some dflt => extend_enumerated_values_with_default enumerated_values dflt lsb msb
      | none => enumerated_values
    let container : EnumeratedValueContainer :=
      { name :=
          match dictGet data (S "name") with
          | some s => some ⟨s⟩
          | none => container_name.map (fun l => ⟨l⟩)
        header_enum_name := pyOrNone (dictGet data (S "headerEnumName"))
        usage := usage
        enumerated_values := pySort evLe enumerated_values }
    .ok (container, i2)
  else .error "IndexError: list index out of range"

/-- The `while` loop of `parse_field` that gathers consecutive
`=== Enum Container:` sections. -/
def field_containers_loop (lines : List Str) (lsb msb : Int) :
    Nat → Nat → List EnumeratedValueContainer →
    Except String (List EnumeratedValueContainer × Nat)
  | 0, _, _ => .error "fuel exhausted"
  | fuel + 1, index, acc =>
    if h : index < lines.length then
      if startsWithL (S "=== Enum Container:") (pyStrip lines[index]) then do
        let (enum_container, index') ← parse_enum_container lines fuel index lsb msb
        field_containers_loop lines lsb msb fuel index' (acc ++ [enum_container])
      else .ok (acc, index)
    else .ok (acc, index)

/-- `SVDConvParser.parse_field`. -/
def parse_field (lines : List Str) (fuel index : Nat) :
    Except String (Field × Nat) :=
  if h : index < lines.length then do
    let field_name : Str :=
      ((matchHeaderGreedy (S "=== Field ") (pyStrip lines[index])).map pyStrip).getD
        (S "UnknownField")
    let (data, i1) := collect_kv stop_field lines fuel (index + 1) []
    let bit_offset ← pyIntE 10 (dictGetD data (S "bitOffset") (S "0"))
    let bit_width ← pyIntE 10 (dictGetD data (S "bitWidth") (S "0"))
    let access ← get_access_type (dictGetD data (S "access") (S ""))
    let modified_write_values ← get_modified_write_value
      (dictGetD data (S "modifiedWriteValues") (S ""))
    let read_action ← get_read_action (dictGetD data (S "readAction") (S ""))
    let (containers, i2) ←
      field_containers_loop lines bit_offset (bit_offset + bit_width - 1) fuel i1 []
    let field_obj : Field :=
      { name := ⟨dictGetD data (S "name") field_name⟩
        description := none
        bit_offset := bit_offset
        bit_width := bit_width
        lsb := bit_offset
        msb := bit_offset + bit_width - 1
        access := access
        modified_write_values := modified_write_values
        write_constraint := none
        read_action := read_action
        enumerated_value_containers := containers
        bit_range := (bit_offset + bit_width - 1, bit_offset) }
    .ok (field_obj, i2)
  else .error "IndexError: list index out of range"

end SVDConvParser

end SVD

namespace SVD

namespace SVDConvParser

/-- The `while` loop of `parse_register` that gathers consecutive
`=== Field` sections. -/
def register_fields_loop (lines : List Str) :
    Nat → Nat → List Field → Except String (List Field × Nat)
  | 0, _, _ => .error "fuel exhausted"
  | fuel + 1, index, acc =>
    if h : index < lines.length then
      if startsWithL (S "=== Field") (pyStrip lines[index]) then do
        let (field_obj, index') ← parse_field lines fuel index
        register_fields_loop lines fuel index' (acc ++ [field_obj])
      else .ok (acc, index)
    else .ok (acc, index)

/-- The attribute dictionary a `parse_register` call collects (the
`while` loop before the `Register(...)` construction). -/
def register_data (lines : List Str) (fuel index : Nat) : Dict × Nat :=
  collect_kv stop_marker lines fuel (index + 1) []

/-- `int(data.get(k, "0").replace("0x", ""), 16) if k in data else 0`. -/
def hexAttr (data : Dict) (k : Str) : Except String Int :=
  match dictGet data k with
  | some s => pyIntE 16 (replace0x s)
  | none => .ok 0

/-- `SVDConvParser.parse_register`.  Note that `base_address` is taken
verbatim from the block's own `Absolute Address:` attribute line (0 when
absent); it is not derived from any enclosing cluster. -/
def parse_register (lines : List Str) (fuel index : Nat) :
    Except String (Register × Nat) :=
  if h : index < lines.length then do
    let name : Str :=
      ((matchRegisterHeader (pyStrip lines[index])).map pyStrip).getD (S "UnknownRegister")
    let (data, i1) := register_data lines fuel index
    let address_offset ← hexAttr data (S "addressOffset")
    let data_type ← get_data_type (dictGetD data (S "dataType") (S ""))
    let modified_write_values ← get_modified_write_value
      (dictGetD data (S "modifiedWriteValues") (S ""))
    let read_action ← get_read_action (dictGetD data (S "readAction") (S ""))
    let size ← pyIntE 10 (dictGetD data (S "size effective") (S "0"))
    let access ← get_access_type (dictGetD data (S "access") (S ""))
    let protection ← get_protection_type (dictGetD data (S "protection") (S ""))
    let reset_value ← hexAttr data (S "resetValue")
    let reset_mask ← hexAttr data (S "resetMask")
    let base_address ← hexAttr data (S "Absolute Address")
    let (fields, i2) ← register_fields_loop lines fuel i1 []
    let reg : Register :=
      { name := ⟨dictGetD data (S "name") name⟩
        display_name := pyOrNone (dictGet data (S "displayName"))
        description := none
        alternate_group := pyOrNone (dictGet data (S "alternateGroup"))
        alternate_register := pyOrNone (dictGet data (S "alternateRegister"))
        address_offset := address_offset
        data_type := data_type
        modified_write_values := modified_write_values
        write_constraint := none
        read_action := read_action
        size := size
        access := access
        protection := protection
        reset_value := reset_value
        reset_mask := reset_mask
        base_address := base_address
        fields := pySort fieldLe fields }
    .ok (reg, i2)
  else .error "IndexError: list index out of range"

/-- `SVDConvParser.parse_address_block`. -/
def parse_address_block (lines : List Str) (fuel index : Nat) :
    Except String (AddressBlock × Nat) := do
  let (block_data, index') ← collect_kv_strict stop_aii lines fuel (index + 1) []
  let offset ← hexAttr block_data (S "Offset")
  let size ← pyIntE 10 (dictGetD block_data (S "Size") (S "0"))
  let usage ← get_addr_block_usage (dictGetD block_data (S "Usage") (S ""))
  let protection ← get_protection_type (dictGetD block_data (S "Protection") (S ""))
  let block : AddressBlock :=
    { offset := offset
      size := size
      usage := usage
      protection := some protection }
  .ok (block, index')

/-- `SVDConvParser.parse_interrupt`. -/
def parse_interrupt (lines : List Str) (fuel index : Nat) :
    Except String (Interrupt × Nat) := do
  let (intr_data, index') ← collect_kv_strict stop_aii lines fuel (index + 1) []
  let value ← pyIntE 10 (dictGetD intr_data (S "Value") (S "0"))
  let intr : Interrupt :=
    { name := ⟨dictGetD intr_data (S "Name") (S "")⟩
      description := none
      value := value }
  .ok (intr, index')

/-- The attribute dictionary a `parse_cluster` call collects. -/
def cluster_data (lines : List Str) (fuel index : Nat) : Dict × Nat :=
  collect_kv stop_marker lines fuel (index + 1) []

mutual

/-- `SVDConvParser.parse_register_or_cluster`. -/
def parse_register_or_cluster (lines : List Str) :
    Nat → Nat → Except String (Option RegisterCluster × Nat)
  | 0, _ => .error "fuel exhausted"
  | fuel + 1, index =>
    if h : index < lines.length then
      if startsWithL (S "=== Register") (pyStrip lines[index]) then do
        let (reg, index') ← parse_register lines fuel index
        .ok (some (.register reg), index')
      else if startsWithL (S "=== Cluster") (pyStrip lines[index]) then do
        let (cluster, index') ← parse_cluster lines fuel index
        .ok (some cluster, index')
      else .ok (none, index + 1)
    else .error "IndexError: list index out of range"
termination_by structural fuel => fuel

/-- `SVDConvParser.parse_cluster`: the initial `get_current_depth` call,
the attribute loop (stopping at any `===` header), then the child loop
below. -/
def parse_cluster (lines : List Str) :
    Nat → Nat → Except String (RegisterCluster × Nat)
  | 0, _ => .error "fuel exhausted"
  | fuel + 1, index =>
    if h : index < lines.length then do
      let cluster_depth ← get_current_depth lines[index]
      let name : Str :=
        ((matchHeaderGreedy (S "=== Cluster ") (pyStrip lines[index])).map pyStrip).getD
          (S "UnknownCluster")
      let (data, i1) := cluster_data lines fuel index
      let (registers_clusters, i2) ← cluster_children_loop lines fuel i1 cluster_depth []
      let address_offset ← hexAttr data (S "addressOffset")
      let size ← pyIntE 10 (dictGetD data (S "size effective") (S "0"))
      let access ← get_access_type (dictGetD data (S "access") (S ""))
      let protection ← get_protection_type (dictGetD data (S "protection") (S ""))
      let reset_value ← hexAttr data (S "resetValue")
      let reset_mask ← hexAttr data (S "resetMask")
      let base_address ← hexAttr data (S "Absolute Address")
      let attrs : ClusterAttrs :=
        { name := ⟨dictGetD data (S "name") name⟩
          description := none
          alternate_cluster := pyOrNone (dictGet data (S "alternateCluster"))
          header_struct_name := pyOrNone (dictGet data (S "headerStructName"))
          address_offset := address_offset
          size := size
          access := access
          protection := protection
          reset_value := reset_value
          reset_mask := reset_mask
          base_address := base_address
          end_address := 0
          cluster_size := 0 }
      .ok (.cluster attrs (pySort rcLe registers_clusters), i2)
    else .error "IndexError: list index out of range"
termination_by structural fuel => fuel

/-- The child `while` loop of `parse_cluster`: a `===` header at the
cluster's own depth breaks the loop (and is left unconsumed); any other
`===` header is handed to `parse_register_or_cluster`; non-header lines
are skipped. -/
def cluster_children_loop (lines : List Str) :
    Nat → Nat → Nat → List RegisterCluster →
    Except String (List RegisterCluster × Nat)
  | 0, _, _, _ => .error "fuel exhausted"
  | fuel + 1, index, cluster_depth, acc =>
    if h : index < lines.length then
      if startsWithL (S "===") (pyStrip lines[index]) then do
        let d ← get_current_depth lines[index]
        if d = cluster_depth then .ok (acc, index)
        else do
          let (element, index') ← parse_register_or_cluster lines fuel index
          match element with
          | some e => cluster_children_loop lines fuel index' cluster_depth (acc ++ [e])
          | none => cluster_children_loop lines fuel index' cluster_depth acc
      else cluster_children_loop lines fuel (index + 1) cluster_depth acc
    else .ok (acc, index)
termination_by structural fuel => fuel

end

/-- The second `while` loop of `parse_peripheral`, gathering address
blocks, interrupts and register/cluster children. -/
def peripheral_children_loop (lines : List Str) :
    Nat → Nat → List AddressBlock → List Interrupt → List RegisterCluster →
    Except String ((List AddressBlock × List Interrupt × List RegisterCluster) × Nat)
  | 0, _, _, _, _ => .error "fuel exhausted"
  | fuel + 1, index, abs_acc, intr_acc, rc_acc =>
    if h : index < lines.length then
      if startsWithL (S "Address Block:") (pyStrip lines[index]) then do
        let (block, index') ← parse_address_block lines fuel index
        peripheral_children_loop lines fuel index' (abs_acc ++ [block]) intr_acc rc_acc
      else if startsWithL (S "Interrupt:") (pyStrip lines[index]) then do
        let (intr, index') ← parse_interrupt lines fuel index
        peripheral_children_loop lines fuel index' abs_acc (intr_acc ++ [intr]) rc_acc
      else if startsWithL (S "===") (pyStrip lines[index]) then do
        let (element, index') ← parse_register_or_cluster lines fuel index
        match element with
        | some e =>
          peripheral_children_loop lines fuel index' abs_acc intr_acc (rc_acc ++ [e])
        | none => peripheral_children_loop lines fuel index' abs_acc intr_acc rc_acc
      else peripheral_children_loop lines fuel (index + 1) abs_acc intr_acc rc_acc
    else .ok ((abs_acc, intr_acc, rc_acc), index)

/-- `SVDConvParser.parse_peripheral` on one peripheral block. -/
def parse_peripheral (lines : List Str) (fuel : Nat) : Except String Peripheral :=
  if h : 0 < lines.length then do
    let name : Str :=
      ((matchHeaderGreedy (S "=== Peripheral ") (pyStrip lines[0])).map pyStrip).getD
        (S "UnknownPeripheral")
    let (data, i1) := collect_kv stop_peri lines fuel 1 []
    let (children, _) ← peripheral_children_loop lines fuel i1 [] [] []
    let base_address ← hexAttr data (S "baseAddress")
    let size ← pyIntE 10 (dictGetD data (S "size effective") (S "0"))
    let access ← get_access_type (dictGetD data (S "access") (S ""))
    let protection ← get_protection_type (dictGetD data (S "protection") (S ""))
    let reset_value ← hexAttr data (S "resetValue")
    let reset_mask ← hexAttr data (S "resetMask")
    let peripheral : Peripheral :=
      { name := ⟨dictGetD data (S "name") name⟩
        version := pyOrNone (dictGet data (S "version"))
        description := none
        alternate_peripheral := pyOrNone (dictGet data (S "alternatePeripheral"))
        group_name := pyOrNone (dictGet data (S "groupName"))
        prepend_to_name := pyOrNone (dictGet data (S "prependToName"))
        append_to_name := pyOrNone (dictGet data (S "appendToName"))
        header_struct_name := pyOrNone (dictGet data (S "headerStructName"))
        disable_condition :=
          if dictGet data (S "disableCondition") == some (S "NULL") then none
          else (dictGet data (S "disableCondition")).map (fun l => ⟨l⟩)
        base_address := base_address
        address_blocks := pySort abLe children.1
        interrupts := pySort intrLe children.2.1
        size := size
        access := access
        protection := protection
        reset_value := reset_value
        reset_mask := reset_mask
        end_address := 0
        end_address_effective := 0
        peripheral_size := 0
        peripheral_size_effective := 0
        registers_clusters := pySort rcLe children.2.2 }
    .ok peripheral
  else .error "IndexError: list index out of range"

/-- The peripheral-block separator line (37 carets), as in `parse`. -/
def caretSeparator : Str := S "^^^^^^^^^^^^^^^^^^^^^^^^^^^^^^^^^^^^^"

/-- The block-splitting loop at the top of `SVDConvParser.parse`:
separator lines flush the current block, whitespace-only lines are
skipped, every other line joins the current block. -/
def split_blocks : List Str → List Str → List (List Str)
  | [], current_block => if current_block.isEmpty then [] else [current_block]
  | line :: rest, current_block =>
    if containsSub caretSeparator line then
      if current_block.isEmpty then split_blocks rest []
      else current_block :: split_blocks rest []
    else if (pyStrip line).isEmpty then split_blocks rest current_block
    else split_blocks rest (current_block ++ [line])

/-- Fuel budget used for one peripheral block: ample for the block's
nested loops, whose combined path length is below this bound. -/
def blockFuel (lines : List Str) : Nat := (lines.length + 2) * (lines.length + 2)

/-- `SVDConvParser.parse`. -/
def parse (lines : List Str) : Except String (List Peripheral) := do
  let peripheral_blocks := split_blocks lines []
  let peripherals ← peripheral_blocks.mapM (fun block => parse_peripheral block (blockFuel block))
  .ok (pySort periLe peripherals)

end SVDConvParser

/-! #### The run-summary scan and `parse_svdconv_output` -/

/-- Leading decimal-digit run of a line: `(digits, rest)`. -/
def digitSpan (l : Str) : Str × Str := (l.takeWhile Char.isDigit, l.dropWhile Char.isDigit)

/-- Numeric value of a non-empty decimal digit run. -/
def digitsToNat (l : Str) : Nat := l.foldl (fun acc c => acc * 10 + (c.toNat - '0'.toNat)) 0

/-- Match `Found (\d+) Error\(s\) and (\d+) Warning\(s\)` at the start of
`l`. -/
def found_summary_at (l : Str) : Option (Nat × Nat) :=
  if startsWithL (S "Found ") l then
    let rest := l.drop (S "Found ").length
    let (d1, rest1) := digitSpan rest
    if d1.isEmpty then none
    else if startsWithL (S " Error(s) and ") rest1 then
      let rest2 := rest1.drop (S " Error(s) and ").length
      let (d2, rest3) := digitSpan rest2
      if d2.isEmpty then none
      else if startsWithL (S " Warning(s)") rest3 then some (digitsToNat d1, digitsToNat d2)
      else none
    else none
  else none

/-- `re.search` for the summary pattern: leftmost match. -/
def search_summary : Str → Option (Nat × Nat)
  | [] => none
  | c :: cs =>
    match found_summary_at (c :: cs) with
    | some nm => some nm
    | none => search_summary cs

/-- `get_error_warning_stats`, as a function of the reference tool's
captured stdout (the subprocess invocation itself is external I/O):
raises `ValueError` when the summary line is absent. -/
def get_error_warning_stats (output : Str) : Except String (Nat × Nat) :=
  match search_summary output with
  | some nm => .ok nm
  | none => .error "ValueError: Could not find error and warning count in svdconv output"

/-- Python `str.splitlines()` on newline-separated text (a trailing
newline does not produce a final empty line). -/
def pySplitlines (s : Str) : List Str :=
  let parts := splitLinesAux s []
  match parts.getLast? with
  | some [] => parts.dropLast
  | _ => parts
where
  splitLinesAux : Str → Str → List Str
    | [], current => [current.reverse]
    | '\n' :: rest, current => current.reverse :: splitLinesAux rest []
    | c :: rest, current => splitLinesAux rest (c :: current)

/-- `parse_svdconv_output`, as a function of the reference tool's two
captured outputs (the plain run and the `--debug-output --quiet` run):
a reported error count `N > 0` yields the no-model sentinel `none`;
a missing summary line or a failing debug-output parse is an uncaught
exception (`Except.error`). -/
def parse_svdconv_output (output debug_output : Str) :
    Except String (Option (List Peripheral)) := do
  let stats ← get_error_warning_stats output
  if 0 < stats.1 then .ok none
  else do
    let peripherals ← SVDConvParser.parse (pySplitlines debug_output)
    .ok (some peripherals)

end SVD

/-! ### Reset-value/mask erasure (for the exclusion-correctness claim)

`eraseReset*` zero out `reset_value`/`reset_mask` everywhere (peripheral,
register, cluster, at any nesting depth) and leave every other attribute
untouched.  Two forests are "identical except possibly in reset values and
masks" precisely when their erasures are equal. -/

namespace SVD

/-- Zero the reset value/mask of a register. -/
def eraseResetRegister (r : Register) : Register :=
  { r with reset_value := 0, reset_mask := 0 }

/-- Zero the reset value/mask of a cluster's scalar attributes. -/
def eraseResetCluster (c : ClusterAttrs) : ClusterAttrs :=
  { c with reset_value := 0, reset_mask := 0 }

mutual

/-- Zero all reset values/masks in a register-or-cluster tree. -/
def eraseResetRC : RegisterCluster → RegisterCluster
  | .register r => .register (eraseResetRegister r)
  | .cluster c ch => .cluster (eraseResetCluster c) (eraseResetRCs ch)

/-- Zero all reset values/masks in a list of register-or-cluster trees. -/
def eraseResetRCs : List RegisterCluster → List RegisterCluster
  | [] => []
  | a :: as => eraseResetRC a :: eraseResetRCs as

end

/-- Zero all reset values/masks in a peripheral (recursively). -/
def eraseResetPeripheral (p : Peripheral) : Peripheral :=
  { p with reset_value := 0, reset_mask := 0,
           registers_clusters := eraseResetRCs p.registers_clusters }

theorem eraseResetRCs_length : ∀ l : List RegisterCluster,
    (eraseResetRCs l).length = l.length
  | [] => rfl
  | _ :: as => by simp [eraseResetRCs, eraseResetRCs_length as]

/-- `compare_register` never reads the reset value/mask. -/
theorem compare_register_erase (r s : Register) :
    Compare.compare_register (eraseResetRegister r) (eraseResetRegister s) =
      Compare.compare_register r s := rfl

mutual

/-- The register/cluster comparison never reads reset values/masks. -/
theorem compare_rc_pair_erase : ∀ a b,
    Compare.compare_rc_pair (eraseResetRC a) (eraseResetRC b) =
      Compare.compare_rc_pair a b
  | .register _, .register _ => rfl
  | .register _, .cluster _ _ => rfl
  | .cluster _ _, .register _ => rfl
  | .cluster c ch, .cluster d dh => by
    simp only [eraseResetRC, Compare.compare_rc_pair, eraseResetCluster,
      eraseResetRCs_length, compare_rcs_erase ch dh]

/-- List version of `compare_rc_pair_erase`. -/
theorem compare_rcs_erase : ∀ l1 l2,
    Compare.compare_registers_clusters (eraseResetRCs l1) (eraseResetRCs l2) =
      Compare.compare_registers_clusters l1 l2
  | [], l2 => by cases l2 <;> rfl
  | _ :: _, [] => rfl
  | a :: as, b :: bs => by
    simp only [eraseResetRCs, Compare.compare_registers_clusters, compare_rc_pair_erase a b]
    cases Compare.compare_rc_pair a b <;> simp [compare_rcs_erase as bs]

end

/-- One peripheral pair: the comparison never reads reset values/masks. -/
theorem compare_peripheral_pair_erase (p q : Peripheral) :
    Compare.compare_peripheral_pair (eraseResetPeripheral p) (eraseResetPeripheral q) =
      Compare.compare_peripheral_pair p q := by
  simp only [Compare.compare_peripheral_pair, eraseResetPeripheral,
    eraseResetRCs_length, compare_rcs_erase]

/-- Forest version: erasing reset values/masks on both sides leaves the
comparator's result unchanged. -/
theorem compare_peripherals_erase : ∀ l1 l2,
    Compare.compare_peripherals (l1.map eraseResetPeripheral) (l2.map eraseResetPeripheral) =
      Compare.compare_peripherals l1 l2
  | [], l2 => by cases l2 <;> rfl
  | _ :: _, [] => rfl
  | p :: ps, q :: qs => by
    simp only [List.map, Compare.compare_peripherals, compare_peripheral_pair_erase p q]
    cases Compare.compare_peripheral_pair p q <;> simp [compare_peripherals_erase ps qs]

end SVD

namespace SVD

theorem compare_enumerated_values_refl : ∀ l,
    Compare.compare_enumerated_values l l = none
  | [] => rfl
  | _ :: as => by
    simp [Compare.compare_enumerated_values, compare_enumerated_values_refl as]

theorem compare_enumerated_value_containers_refl : ∀ l,
    Compare.compare_enumerated_value_containers l l = none
  | [] => rfl
  | a :: as => by
    simp [Compare.compare_enumerated_value_containers, compare_enumerated_values_refl,
      compare_enumerated_value_containers_refl as]

theorem compare_fields_refl : ∀ l, Compare.compare_fields l l = none
  | [] => rfl
  | a :: as => by
    simp [Compare.compare_fields, compare_enumerated_value_containers_refl,
      compare_fields_refl as]

theorem compare_register_refl (r : Register) : Compare.compare_register r r = none := by
  simp [Compare.compare_register, compare_fields_refl]

mutual

theorem compare_rc_pair_refl : ∀ a, Compare.compare_rc_pair a a = none
  | .register r => compare_register_refl r
  | .cluster c ch => by
    simp [Compare.compare_rc_pair, compare_registers_clusters_refl ch]

theorem compare_registers_clusters_refl : ∀ l,
    Compare.compare_registers_clusters l l = none
  | [] => rfl
  | a :: as => by
    simp [Compare.compare_registers_clusters, compare_rc_pair_refl a,
      compare_registers_clusters_refl as]

end

theorem compare_address_blocks_refl : ∀ l, Compare.compare_address_blocks l l = none
  | [] => rfl
  | _ :: as => by simp [Compare.compare_address_blocks, compare_address_blocks_refl as]

theorem compare_interrupts_refl : ∀ l, Compare.compare_interrupts l l = none
  | [] => rfl
  | _ :: as => by simp [Compare.compare_interrupts, compare_interrupts_refl as]

theorem compare_peripheral_pair_refl (p : Peripheral) :
    Compare.compare_peripheral_pair p p = none := by
  simp [Compare.compare_peripheral_pair, compare_address_blocks_refl,
    compare_interrupts_refl, compare_registers_clusters_refl]

theorem compare_peripherals_refl : ∀ l, Compare.compare_peripherals l l = none
  | [] => rfl
  | p :: ps => by
    simp [Compare.compare_peripherals, compare_peripheral_pair_refl p,
      compare_peripherals_refl ps]

end SVD



namespace SVD

/-- A no-mismatch peripheral-pair comparison forces every scalar
attribute pair (except reset value/mask) and every child count to agree,
and the child comparisons to succeed. -/
theorem compare_peripheral_pair_eq_none {p q : Peripheral}
    (h : Compare.compare_peripheral_pair p q = none) :
    p.name = q.name ∧ p.version = q.version ∧
    p.alternate_peripheral = q.alternate_peripheral ∧ p.group_name = q.group_name ∧
    p.prepend_to_name = q.prepend_to_name ∧ p.append_to_name = q.append_to_name ∧
    p.header_struct_name = q.header_struct_name ∧ p.base_address = q.base_address ∧
    p.address_blocks.length = q.address_blocks.length ∧
    Compare.compare_address_blocks p.address_blocks q.address_blocks = none ∧
    p.interrupts.length = q.interrupts.length ∧
    Compare.compare_interrupts p.interrupts q.interrupts = none ∧
    p.size = q.size ∧ p.access = q.access ∧ p.protection = q.protection ∧
    p.registers_clusters.length = q.registers_clusters.length ∧
    Compare.compare_registers_clusters p.registers_clusters q.registers_clusters = none := by
  unfold Compare.compare_peripheral_pair at h
  simp only [check_eq_none, thenCompare_eq_none, not_not] at h
  tauto

/-- A no-mismatch register comparison forces every scalar attribute pair
(except reset value/mask) and the field lists to agree. -/
theorem compare_register_eq_none {r s : Register}
    (h : Compare.compare_register r s = none) :
    r.name = s.name ∧ r.display_name = s.display_name ∧
    r.alternate_group = s.alternate_group ∧ r.alternate_register = s.alternate_register ∧
    r.address_offset = s.address_offset ∧ r.data_type = s.data_type ∧
    r.modified_write_values = s.modified_write_values ∧ r.read_action = s.read_action ∧
    r.size = s.size ∧ r.access = s.access ∧ r.protection = s.protection ∧
    r.fields.length = s.fields.length ∧
    Compare.compare_fields r.fields s.fields = none ∧
    r.base_address = s.base_address := by
  unfold Compare.compare_register at h
  simp only [check_eq_none, thenCompare_eq_none, not_not] at h
  tauto

/-- A no-mismatch cluster comparison forces the child counts to agree. -/
theorem compare_rc_pair_cluster_eq_none {c d : ClusterAttrs}
    {ch_c ch_s : List RegisterCluster}
    (h : Compare.compare_rc_pair (.cluster c ch_c) (.cluster d ch_s) = none) :
    ch_c.length = ch_s.length ∧
    Compare.compare_registers_clusters ch_c ch_s = none := by
  unfold Compare.compare_rc_pair at h
  simp only [check_eq_none, thenCompare_eq_none, not_not] at h
  tauto

/-- A no-mismatch field-list comparison forces the container counts of
the head pair to agree. -/
theorem compare_fields_cons_eq_none {f g : Field} {fs gs : List Field}
    (h : Compare.compare_fields (f :: fs) (g :: gs) = none) :
    f.enumerated_value_containers.length = g.enumerated_value_containers.length := by
  unfold Compare.compare_fields at h
  simp only [check_eq_none, thenCompare_eq_none, not_not] at h
  tauto

/-- A no-mismatch container-list comparison forces the enumerated-value
counts of the head pair to agree. -/
theorem compare_evcs_cons_eq_none {c d : EnumeratedValueContainer}
    {cs ds : List EnumeratedValueContainer}
    (h : Compare.compare_enumerated_value_containers (c :: cs) (d :: ds) = none) :
    c.enumerated_values.length = d.enumerated_values.length := by
  unfold Compare.compare_enumerated_value_containers at h
  simp only [check_eq_none, thenCompare_eq_none, not_not] at h
  tauto

/-- A diverging head pair makes the whole forest comparison false. -/
theorem compare_head_pair_false (p q : Peripheral) (ps qs : List Peripheral)
    (h : Compare.compare_peripheral_pair p q ≠ none) :
    Compare.compare (p :: ps) (q :: qs) = false := by
  cases hp : Compare.compare_peripheral_pair p q with
  | none => exact absurd hp h
  | some m => simp [Compare.compare, Compare.compare_peripherals, thenCompare, hp]

end SVD

namespace SVD

/-! ### Sample model values (used by witnesses and counterexamples) -/

def sample_address_block : AddressBlock :=
  { offset := 0
    size := 1024
    usage := .REGISTERS
    protection := some .ANY }

def sample_interrupt : Interrupt :=
  { name := "IRQ0"
    description := none
    value := 0 }

def sample_enumerated_value : EnumeratedValue :=
  { name := "EV0"
    description := none
    value := some 0
    is_default := false }

def sample_container : EnumeratedValueContainer :=
  { name := some "EVC"
    header_enum_name := none
    usage := .READ_WRITE
    enumerated_values := [sample_enumerated_value] }

def sample_field : Field :=
  { name := "F"
    description := none
    bit_offset := 0
    bit_width := 1
    lsb := 0
    msb := 0
    access := .READ_WRITE
    modified_write_values := .MODIFY
    write_constraint := none
    read_action := none
    enumerated_value_containers := []
    bit_range := (0, 0) }

def sample_register : Register :=
  { name := "R"
    display_name := none
    description := none
    alternate_group := none
    alternate_register := none
    address_offset := 0
    data_type := none
    modified_write_values := .MODIFY
    write_constraint := none
    read_action := none
    size := 32
    access := .READ_WRITE
    protection := .ANY
    reset_value := 0
    reset_mask := 0
    base_address := 0
    fields := [] }

def sample_cluster_attrs : ClusterAttrs :=
  { name := "C"
    description := none
    alternate_cluster := none
    header_struct_name := none
    address_offset := 0
    size := 32
    access := .READ_WRITE
    protection := .ANY
    reset_value := 0
    reset_mask := 0
    base_address := 0
    end_address := 0
    cluster_size := 0 }

def sample_peripheral : Peripheral :=
  { name := "P"
    version := none
    description := none
    alternate_peripheral := none
    group_name := none
    prepend_to_name := none
    append_to_name := none
    header_struct_name := none
    disable_condition := none
    base_address := 4096
    address_blocks := []
    interrupts := []
    size := 32
    access := .READ_WRITE
    protection := .ANY
    reset_value := 0
    reset_mask := 0
    end_address := 0
    end_address_effective := 0
    peripheral_size := 0
    peripheral_size_effective := 0
    registers_clusters := [] }

/-! ### Claim C1 -/

/-- C1 counterexample: the claim asserts that two forests with different
numbers of top-level peripherals never compare as equivalent, but
`Compare._compare_peripherals` zips the two lists without a length check,
so the empty forest compares as equivalent to a one-peripheral forest. -/
theorem claim_C1_counterexample :
    List.length ([] : List Peripheral) ≠ [sample_peripheral].length ∧
    Compare.compare [] [sample_peripheral] = true :=
  ⟨by simp, rfl⟩

/-- C1 (amended): a length mismatch at any level below the top-level
peripheral lists (address blocks, interrupts, register/cluster children
of a peripheral, register/cluster children of a cluster, fields of a
register, enum containers of a field, enum values of a container) makes
the comparator report a divergence without descending at that level; the
two top-level peripheral lists, however, are paired by `zip` with no
length check, so surplus peripherals on either side are ignored and
forests with different numbers of top-level peripherals can compare as
equivalent. -/
theorem claim_C1 :
    (∀ (p q : Peripheral) (ps qs : List Peripheral),
      p.address_blocks.length ≠ q.address_blocks.length →
      Compare.compare (p :: ps) (q :: qs) = false) ∧
    (∀ (p q : Peripheral) (ps qs : List Peripheral),
      p.interrupts.length ≠ q.interrupts.length →
      Compare.compare (p :: ps) (q :: qs) = false) ∧
    (∀ (p q : Peripheral) (ps qs : List Peripheral),
      p.registers_clusters.length ≠ q.registers_clusters.length →
      Compare.compare (p :: ps) (q :: qs) = false) ∧
    (∀ (c d : ClusterAttrs) (ch_c ch_s : List RegisterCluster),
      ch_c.length ≠ ch_s.length →
      Compare.compare_rc_pair (.cluster c ch_c) (.cluster d ch_s) ≠ none) ∧
    (∀ r s : Register, r.fields.length ≠ s.fields.length →
      Compare.compare_register r s ≠ none) ∧
    (∀ (f g : Field) (fs gs : List Field),
      f.enumerated_value_containers.length ≠ g.enumerated_value_containers.length →
      Compare.compare_fields (f :: fs) (g :: gs) ≠ none) ∧
    (∀ (c d : EnumeratedValueContainer) (cs ds : List EnumeratedValueContainer),
      c.enumerated_values.length ≠ d.enumerated_values.length →
      Compare.compare_enumerated_value_containers (c :: cs) (d :: ds) ≠ none) ∧
    (∀ qs : List Peripheral, Compare.compare [] qs = true) ∧
    (∀ ps : List Peripheral, Compare.compare ps [] = true) := by
  refine ⟨?_, ?_, ?_, ?_, ?_, ?_, ?_, ?_, ?_⟩
  · intro p q ps qs hne
    refine compare_head_pair_false p q ps qs (fun h => ?_)
    obtain ⟨-, -, -, -, -, -, -, -, hab, -⟩ := compare_peripheral_pair_eq_none h
    exact hne hab
  · intro p q ps qs hne
    refine compare_head_pair_false p q ps qs (fun h => ?_)
    obtain ⟨-, -, -, -, -, -, -, -, -, -, hintr, -⟩ := compare_peripheral_pair_eq_none h
    exact hne hintr
  · intro p q ps qs hne
    refine compare_head_pair_false p q ps qs (fun h => ?_)
    obtain ⟨-, -, -, -, -, -, -, -, -, -, -, -, -, -, -, hrc, -⟩ :=
      compare_peripheral_pair_eq_none h
    exact hne hrc
  · intro c d ch_c ch_s hne h
    exact hne (compare_rc_pair_cluster_eq_none h).1
  · intro r s hne h
    obtain ⟨-, -, -, -, -, -, -, -, -, -, -, hf, -⟩ := compare_register_eq_none h
    exact hne hf
  · intro f g fs gs hne h
    exact hne (compare_fields_cons_eq_none h)
  · intro c d cs ds hne h
    exact hne (compare_evcs_cons_eq_none h)
  · intro qs; cases qs <;> rfl
  · intro ps; cases ps <;> rfl

/-- C1 witness: the amended claim instantiated at concrete forests. -/
theorem claim_C1_witness :
    Compare.compare [{ sample_peripheral with address_blocks := [sample_address_block] }]
      [sample_peripheral] = false ∧
    Compare.compare_register { sample_register with fields := [sample_field] }
      sample_register ≠ none ∧
    Compare.compare [] [sample_peripheral] = true :=
  ⟨claim_C1.1 _ _ [] [] (by simp [sample_peripheral]),
   claim_C1.2.2.2.2.1 _ _ (by simp [sample_register]),
   claim_C1.2.2.2.2.2.2.2.1 [sample_peripheral]⟩

end SVD

namespace SVD

/-! ### Claim C2 -/

/-- C2: two peripheral forests that are identical in every attribute at
every level except possibly `reset_value`/`reset_mask` (on peripherals,
registers and clusters, at any nesting depth — i.e. forests with equal
reset-erasures) compare as equivalent; equivalently, erasing the reset
values and masks on both sides never changes the comparator's verdict. -/
theorem claim_C2 :
    (∀ ps qs : List Peripheral,
      ps.map eraseResetPeripheral = qs.map eraseResetPeripheral →
      Compare.compare ps qs = true) ∧
    (∀ ps qs : List Peripheral,
      Compare.compare (ps.map eraseResetPeripheral) (qs.map eraseResetPeripheral) =
        Compare.compare ps qs) := by
  constructor
  · intro ps qs h
    have hnone : Compare.compare_peripherals ps qs = none := by
      rw [← compare_peripherals_erase ps qs, h, compare_peripherals_refl]
    simp [Compare.compare, hnone]
  · intro ps qs
    simp [Compare.compare, compare_peripherals_erase]

/-- C2 witness: two concrete forests that differ only in reset values and
masks — on the peripheral, on a nested cluster and on a register inside
that cluster — compare as equivalent. -/
theorem claim_C2_witness :
    ([{ sample_peripheral with
          reset_value := 5
          registers_clusters :=
            [.cluster { sample_cluster_attrs with reset_mask := 7 }
              [.register { sample_register with reset_value := 9 }]] }].map
        eraseResetPeripheral =
      [{ sample_peripheral with
          reset_mask := 3
          registers_clusters :=
            [.cluster sample_cluster_attrs [.register sample_register]] }].map
        eraseResetPeripheral) ∧
    Compare.compare
      [{ sample_peripheral with
          reset_value := 5
          registers_clusters :=
            [.cluster { sample_cluster_attrs with reset_mask := 7 }
              [.register { sample_register with reset_value := 9 }]] }]
      [{ sample_peripheral with
          reset_mask := 3
          registers_clusters :=
            [.cluster sample_cluster_attrs [.register sample_register]] }] = true :=
  ⟨rfl, claim_C2.1 _ _ rfl⟩

end SVD

namespace SVD

/-! ### Claim C5 -/

/-- The register scalar attributes compared before the fields
(everything except `base_address`, which the source compares last). -/
def register_scalars_eq (r s : Register) : Prop :=
  r.name = s.name ∧ r.display_name = s.display_name ∧
  r.alternate_group = s.alternate_group ∧ r.alternate_register = s.alternate_register ∧
  r.address_offset = s.address_offset ∧ r.data_type = s.data_type ∧
  r.modified_write_values = s.modified_write_values ∧ r.read_action = s.read_action ∧
  r.size = s.size ∧ r.access = s.access ∧ r.protection = s.protection

/-- The mismatch messages of the register scalar checks that precede the
field comparison. -/
def register_scalar_messages : List String :=
  ["Register name mismatch", "Register display name mismatch",
   "Register alternate group mismatch", "Register alternate register mismatch",
   "Register address offset mismatch", "Register data type mismatch",
   "Register modified write values mismatch", "Register read action mismatch",
   "Register size mismatch", "Register access mismatch", "Register protection mismatch"]

/-- Registers used by the C5 counterexample: they differ both in the
scalar `base_address` and in a field name. -/
def c5_register_left : Register :=
  { sample_register with base_address := 4, fields := [{ sample_field with name := "G" }] }

def c5_register_right : Register :=
  { sample_register with fields := [sample_field] }

/-- C5 counterexample: the claim asserts that within a register all
scalar attributes — including `base_address` — are compared before the
fields, so a pair differing in a scalar and in a field attribute reports
the scalar divergence.  But `_compare_register` compares `base_address`
only after the fields: this pair differs in `base_address` and in a
field name, and the reported divergence is the field-name mismatch. -/
theorem claim_C5_counterexample :
    c5_register_left.base_address ≠ c5_register_right.base_address ∧
    c5_register_left.fields.map Field.name ≠ c5_register_right.fields.map Field.name ∧
    Compare.compare_register c5_register_left c5_register_right =
      some "Field name mismatch" :=
  ⟨by decide, by decide, rfl⟩

/-- C5 (amended): the comparator's register traversal order is: all
scalar attributes except `base_address`, then the fields, then
`base_address`.  Hence (i) a pair differing in a pre-field scalar
reports that scalar divergence; (ii) a pair whose pre-field scalars and
fields all agree but whose `base_address` differs reports the
base-address divergence only after the fields; and (iii) at the
peripheral level the first eight scalars precede the address blocks
while `size`/`access`/`protection` are compared only after the address
blocks and interrupts, so a peripheral pair with equal leading scalars
but differing address-block counts reports the address-block count
divergence even when `size` differs. -/
theorem claim_C5 :
    (∀ r s : Register, ¬ register_scalars_eq r s →
      ∃ m ∈ register_scalar_messages, Compare.compare_register r s = some m) ∧
    (∀ r s : Register, register_scalars_eq r s →
      r.fields.length = s.fields.length →
      Compare.compare_fields r.fields s.fields = none →
      r.base_address ≠ s.base_address →
      Compare.compare_register r s = some "Register base address mismatch") ∧
    (∀ p q : Peripheral,
      p.name = q.name → p.version = q.version →
      p.alternate_peripheral = q.alternate_peripheral → p.group_name = q.group_name →
      p.prepend_to_name = q.prepend_to_name → p.append_to_name = q.append_to_name →
      p.header_struct_name = q.header_struct_name → p.base_address = q.base_address →
      p.address_blocks.length ≠ q.address_blocks.length →
      Compare.compare_peripheral_pair p q = some "Address blocks count mismatch") := by
  refine ⟨?_, ?_, ?_⟩
  · intro r s hne
    unfold register_scalars_eq at hne
    by_cases h1 : r.name = s.name
    case neg =>
      exact ⟨"Register name mismatch", by simp [register_scalar_messages],
        by unfold Compare.compare_register; rw [check_pos h1]⟩
    by_cases h2 : r.display_name = s.display_name
    case neg =>
      exact ⟨"Register display name mismatch", by simp [register_scalar_messages],
        by unfold Compare.compare_register
           rw [check_neg (not_not_intro h1), check_pos h2]⟩
    by_cases h3 : r.alternate_group = s.alternate_group
    case neg =>
      exact ⟨"Register alternate group mismatch", by simp [register_scalar_messages],
        by unfold Compare.compare_register
           rw [check_neg (not_not_intro h1), check_neg (not_not_intro h2), check_pos h3]⟩
    by_cases h4 : r.alternate_register = s.alternate_register
    case neg =>
      exact ⟨"Register alternate register mismatch", by simp [register_scalar_messages],
        by unfold Compare.compare_register
           rw [check_neg (not_not_intro h1), check_neg (not_not_intro h2),
             check_neg (not_not_intro h3), check_pos h4]⟩
    by_cases h5 : r.address_offset = s.address_offset
    case neg =>
      exact ⟨"Register address offset mismatch", by simp [register_scalar_messages],
        by unfold Compare.compare_register
           rw [check_neg (not_not_intro h1), check_neg (not_not_intro h2),
             check_neg (not_not_intro h3), check_neg (not_not_intro h4), check_pos h5]⟩
    by_cases h6 : r.data_type = s.data_type
    case neg =>
      exact ⟨"Register data type mismatch", by simp [register_scalar_messages],
        by unfold Compare.compare_register
           rw [check_neg (not_not_intro h1), check_neg (not_not_intro h2),
             check_neg (not_not_intro h3), check_neg (not_not_intro h4),
             check_neg (not_not_intro h5), check_pos h6]⟩
    by_cases h7 : r.modified_write_values = s.modified_write_values
    case neg =>
      exact ⟨"Register modified write values mismatch", by simp [register_scalar_messages],
        by unfold Compare.compare_register
           rw [check_neg (not_not_intro h1), check_neg (not_not_intro h2),
             check_neg (not_not_intro h3), check_neg (not_not_intro h4),
             check_neg (not_not_intro h5), check_neg (not_not_intro h6), check_pos h7]⟩
    by_cases h8 : r.read_action = s.read_action
    case neg =>
      exact ⟨"Register read action mismatch", by simp [register_scalar_messages],
        by unfold Compare.compare_register
           rw [check_neg (not_not_intro h1), check_neg (not_not_intro h2),
             check_neg (not_not_intro h3), check_neg (not_not_intro h4),
             check_neg (not_not_intro h5), check_neg (not_not_intro h6),
             check_neg (not_not_intro h7), check_pos h8]⟩
    by_cases h9 : r.size = s.size
    case neg =>
      exact ⟨"Register size mismatch", by simp [register_scalar_messages],
        by unfold Compare.compare_register
           rw [check_neg (not_not_intro h1), check_neg (not_not_intro h2),
             check_neg (not_not_intro h3), check_neg (not_not_intro h4),
             check_neg (not_not_intro h5), check_neg (not_not_intro h6),
             check_neg (not_not_intro h7), check_neg (not_not_intro h8), check_pos h9]⟩
    by_cases h10 : r.access = s.access
    case neg =>
      exact ⟨"Register access mismatch", by simp [register_scalar_messages],
        by unfold Compare.compare_register
           rw [check_neg (not_not_intro h1), check_neg (not_not_intro h2),
             check_neg (not_not_intro h3), check_neg (not_not_intro h4),
             check_neg (not_not_intro h5), check_neg (not_not_intro h6),
             check_neg (not_not_intro h7), check_neg (not_not_intro h8),
             check_neg (not_not_intro h9), check_pos h10]⟩
    by_cases h11 : r.protection = s.protection
    case neg =>
      exact ⟨"Register protection mismatch", by simp [register_scalar_messages],
        by unfold Compare.compare_register
           rw [check_neg (not_not_intro h1), check_neg (not_not_intro h2),
             check_neg (not_not_intro h3), check_neg (not_not_intro h4),
             check_neg (not_not_intro h5), check_neg (not_not_intro h6),
             check_neg (not_not_intro h7), check_neg (not_not_intro h8),
             check_neg (not_not_intro h9), check_neg (not_not_intro h10), check_pos h11]⟩
    exact absurd ⟨h1, h2, h3, h4, h5, h6, h7, h8, h9, h10, h11⟩ hne
  · intro r s hsc hlen hfields hbase
    obtain ⟨h1, h2, h3, h4, h5, h6, h7, h8, h9, h10, h11⟩ := hsc
    unfold Compare.compare_register
    rw [check_neg (not_not_intro h1), check_neg (not_not_intro h2),
      check_neg (not_not_intro h3), check_neg (not_not_intro h4),
      check_neg (not_not_intro h5), check_neg (not_not_intro h6),
      check_neg (not_not_intro h7), check_neg (not_not_intro h8),
      check_neg (not_not_intro h9), check_neg (not_not_intro h10),
      check_neg (not_not_intro h11), check_neg (not_not_intro hlen),
      thenCompare_none hfields, check_pos hbase]
  · intro p q h1 h2 h3 h4 h5 h6 h7 h8 hab
    unfold Compare.compare_peripheral_pair
    rw [check_neg (not_not_intro h1), check_neg (not_not_intro h2),
      check_neg (not_not_intro h3), check_neg (not_not_intro h4),
      check_neg (not_not_intro h5), check_neg (not_not_intro h6),
      check_neg (not_not_intro h7), check_neg (not_not_intro h8), check_pos hab]

/-- C5 witness: the amended claim instantiated concretely — a size-only
scalar divergence is reported from the scalar message set; an otherwise
identical pair differing only in `base_address` reports the base-address
divergence; and a peripheral pair with equal leading scalars but one
extra address block (and a differing `size`) reports the address-block
count divergence. -/
theorem claim_C5_witness :
    (∃ m ∈ register_scalar_messages,
      Compare.compare_register { sample_register with size := 8 } sample_register = some m) ∧
    Compare.compare_register { sample_register with base_address := 4 } sample_register =
      some "Register base address mismatch" ∧
    Compare.compare_peripheral_pair
      { sample_peripheral with size := 8, address_blocks := [sample_address_block] }
      sample_peripheral = some "Address blocks count mismatch" :=
  ⟨claim_C5.1 _ _ (by simp [register_scalars_eq, sample_register]),
   claim_C5.2.1 _ _ (by simp [register_scalars_eq, sample_register]) rfl rfl (by decide),
   claim_C5.2.2 _ _ rfl rfl rfl rfl rfl rfl rfl rfl (by simp [sample_peripheral])⟩

end SVD

namespace SVD

/-! ### Claim C9 -/

/-- C9: each of the seven token-translation tables is closed — for every
token outside its vocabulary the function raises (`Except.error`) instead
of returning a model value. -/
theorem claim_C9 :
    (∀ s : Str, s ∉ [S "UNDEF", S "READ_ONLY", S "WRITE_ONLY", S "READ_WRITE",
        S "WRITE_ONCE", S "READ_WRITE_ONCE", S "END"] →
      ∃ e, get_access_type s = .error e) ∧
    (∀ s : Str, s ∉ [S "UNDEF", S "SECURE", S "NONSECURE", S "PRIVILEGED"] →
      ∃ e, get_protection_type s = .error e) ∧
    (∀ s : Str, s ∉ [S "UNDEF", S "REGISTERS", S "BUFFER", S "RESERVED"] →
      ∃ e, get_addr_block_usage s = .error e) ∧
    (∀ s : Str, s ∉ [S "undefined", S "oneToClear", S "oneToSet", S "oneToToggle",
        S "zeroToClear", S "zeroToSet", S "zeroToToggle", S "clear", S "set", S "modify"] →
      ∃ e, get_modified_write_value s = .error e) ∧
    (∀ s : Str, s ∉ [S "UNDEF", S "CLEAR", S "SET", S "MODIFY", S "MODIFEXT"] →
      ∃ e, get_read_action s = .error e) ∧
    (∀ s : Str, s ∉ [S ""] → ∃ e, get_data_type s = .error e) ∧
    (∀ s : Str, s ∉ [S "UNDEF", S "READ", S "WRITE", S "READWRITE"] →
      ∃ e, get_enum_usage s = .error e) := by
  refine ⟨?_, ?_, ?_, ?_, ?_, ?_, ?_⟩ <;>
    · intro s hs
      simp only [List.mem_cons, List.not_mem_nil, or_false, not_or] at hs
      first
        | (unfold get_access_type
           rw [if_neg hs.1, if_neg hs.2.1, if_neg hs.2.2.1, if_neg hs.2.2.2.1,
             if_neg hs.2.2.2.2.1, if_neg hs.2.2.2.2.2.1, if_neg hs.2.2.2.2.2.2])
        | (unfold get_protection_type
           rw [if_neg hs.1, if_neg hs.2.1, if_neg hs.2.2.1, if_neg hs.2.2.2])
        | (unfold get_addr_block_usage
           rw [if_neg hs.1, if_neg hs.2.1, if_neg hs.2.2.1, if_neg hs.2.2.2])
        | (unfold get_modified_write_value
           rw [if_neg hs.1, if_neg hs.2.1, if_neg hs.2.2.1, if_neg hs.2.2.2.1,
             if_neg hs.2.2.2.2.1, if_neg hs.2.2.2.2.2.1, if_neg hs.2.2.2.2.2.2.1,
             if_neg hs.2.2.2.2.2.2.2.1, if_neg hs.2.2.2.2.2.2.2.2.1,
             if_neg hs.2.2.2.2.2.2.2.2.2])
        | (unfold get_read_action
           rw [if_neg hs.1, if_neg hs.2.1, if_neg hs.2.2.1, if_neg hs.2.2.2.1,
             if_neg hs.2.2.2.2])
        | (unfold get_data_type
           rw [if_neg hs])
        | (unfold get_enum_usage
           rw [if_neg hs.1, if_neg hs.2.1, if_neg hs.2.2.1, if_neg hs.2.2.2])
      exact ⟨_, rfl⟩

/-- C9 witness: the out-of-vocabulary token `"bogus"` is rejected by all
seven translation tables. -/
theorem claim_C9_witness :
    (∃ e, get_access_type (S "bogus") = .error e) ∧
    (∃ e, get_protection_type (S "bogus") = .error e) ∧
    (∃ e, get_addr_block_usage (S "bogus") = .error e) ∧
    (∃ e, get_modified_write_value (S "bogus") = .error e) ∧
    (∃ e, get_read_action (S "bogus") = .error e) ∧
    (∃ e, get_data_type (S "bogus") = .error e) ∧
    (∃ e, get_enum_usage (S "bogus") = .error e) :=
  ⟨claim_C9.1 _ (by decide), claim_C9.2.1 _ (by decide), claim_C9.2.2.1 _ (by decide),
   claim_C9.2.2.2.1 _ (by decide), claim_C9.2.2.2.2.1 _ (by decide),
   claim_C9.2.2.2.2.2.1 _ (by decide), claim_C9.2.2.2.2.2.2 _ (by decide)⟩

end SVD

namespace SVD

/-! ### Claim C10 -/

/-- C10: on an `Enum:` block whose collected `value` string is not a
valid binary literal after stripping `0b`, `parse_enum` does not raise
(in the model it is a total function): it produces an `EnumeratedValue`
whose value is `0` for a non-default entry — indistinguishable from an
explicit `value: 0b0` — and `None` for a default-flagged entry
(a default entry's value is `None` regardless of the value string). -/
theorem claim_C10 (lines : List Str) (fuel index : Nat) (h : index < lines.length)
    (hstart : startsWithL (S "Enum:") (pyStrip (lines.get ⟨index, h⟩)) = true) :
    ∃ ev, (SVDConvParser.parse_enum lines fuel index).1 = some ev ∧
      (ev.is_default = true → ev.value = none) ∧
      (pyInt 2 (replace0b (dictGetD
          (collect_kv stop_enum lines fuel (index + 1) []).1 (S "value") (S "0"))) = none →
        ev.is_default = false → ev.value = some 0) := by
  have hstart' : startsWithL (S "Enum:") (pyStrip lines[index]) = true := hstart
  refine ⟨SVDConvParser.enum_from_data (collect_kv stop_enum lines fuel (index + 1) []).1,
    ?_, ?_, ?_⟩
  · unfold SVDConvParser.parse_enum
    rw [dif_pos h, if_neg (not_not_intro hstart')]
  · intro hd
    unfold SVDConvParser.enum_from_data at hd ⊢
    dsimp only at hd ⊢
    rw [hd]
    simp
  · intro hbad hd
    unfold SVDConvParser.enum_from_data at hd ⊢
    dsimp only at hd ⊢
    rw [hd, hbad]
    simp

/-- C10 witness: a concrete `Enum:` block with the malformed binary
literal `value: xyz`. -/
theorem claim_C10_witness :
    ∃ ev, (SVDConvParser.parse_enum
        [S "Enum:", S "    name: A", S "    value: xyz"] 10 0).1 = some ev ∧
      (ev.is_default = true → ev.value = none) ∧
      (pyInt 2 (replace0b (dictGetD
          (collect_kv stop_enum [S "Enum:", S "    name: A", S "    value: xyz"] 10 1 []).1
          (S "value") (S "0"))) = none →
        ev.is_default = false → ev.value = some 0) :=
  claim_C10 [S "Enum:", S "    name: A", S "    value: xyz"] 10 0 (by decide) (by decide)

end SVD

namespace SVD

/-! ### Claim C3 -/

/-- Dropping the default-flagged entries does not change the multiset of
present values, because a default entry's value is `None`. -/
theorem filterMap_value_filter_nondefault (l : List EnumeratedValue)
    (hdef : ∀ ev ∈ l, ev.is_default = true → ev.value = none) :
    (l.filter (fun ev => !ev.is_default)).filterMap EnumeratedValue.value =
      l.filterMap EnumeratedValue.value := by
  induction l with
  | nil => rfl
  | cons a as ih =>
    have has : ∀ ev ∈ as, ev.is_default = true → ev.value = none :=
      fun ev hm => hdef ev (List.mem_cons_of_mem a hm)
    by_cases hd : a.is_default = true
    · have hv : a.value = none := hdef a (List.mem_cons_self a as) hd
      simp [List.filter_cons, List.filterMap_cons, hd, hv, ih has]
    · cases hv : a.value <;>
        simp [List.filter_cons, List.filterMap_cons, hd, hv, ih has]

/-- `filterMap` keeps the length when every element maps to `some`. -/
theorem length_filterMap_of_isSome {α β : Type} (f : α → Option β) :
    ∀ L : List α, (∀ a ∈ L, (f a).isSome = true) → (L.filterMap f).length = L.length
  | [], _ => rfl
  | a :: as, h => by
    cases hv : f a with
    | none =>
      have := h a (List.mem_cons_self a as)
      rw [hv] at this
      simp at this
    | some b =>
      simp [List.filterMap_cons, hv,
        length_filterMap_of_isSome f as (fun x hx => h x (List.mem_cons_of_mem a hx))]

end SVD

namespace SVD

/-- C3: for an enum container whose entries are one default-flagged value
(value `None`) plus explicit non-default values with distinct values in
`[0, 2^W)` (where `W = msb - lsb + 1` is the field's bit width), default
expansion produces exactly `2^W` non-default entries whose values cover
`{0, …, 2^W − 1}` exactly once each; every produced entry is either one
of the explicit input entries or a synthetic entry named after the
default entry's name suffixed with an underscore and the numeric value;
and the default entry itself does not appear in the final list. -/
theorem not_contains_iff (L : List Int) (a : Int) : (!(L.contains a)) = true ↔ a ∉ L := by
  simp

theorem claim_C3 (l : List EnumeratedValue) (dflt : EnumeratedValue) (lsb msb : Int)
    (hdflt : dflt.is_default = true)
    (hdef : ∀ ev ∈ l, ev.is_default = true → ev.value = none)
    (hexp : ∀ ev ∈ l, ev.is_default = false →
      ∃ v : Int, ev.value = some v ∧ 0 ≤ v ∧ v < 2 ^ (msb - lsb + 1).toNat)
    (hnodup : (l.filterMap EnumeratedValue.value).Nodup) :
    (∀ ev ∈ SVDConvParser.extend_enumerated_values_with_default l dflt lsb msb,
        ev.is_default = false) ∧
    dflt ∉ SVDConvParser.extend_enumerated_values_with_default l dflt lsb msb ∧
    (SVDConvParser.extend_enumerated_values_with_default l dflt lsb msb).length =
      2 ^ (msb - lsb + 1).toNat ∧
    ((SVDConvParser.extend_enumerated_values_with_default l dflt lsb msb).filterMap
        EnumeratedValue.value).Perm
      ((List.range (2 ^ (msb - lsb + 1).toNat)).map Int.ofNat) ∧
    (∀ ev ∈ SVDConvParser.extend_enumerated_values_with_default l dflt lsb msb,
      ev ∈ l ∨ ∃ n : Nat, n < 2 ^ (msb - lsb + 1).toNat ∧
        ev = { name := ⟨dflt.name.data ++ '_' :: intRepr (Int.ofNat n)⟩
               description := none
               value := some (Int.ofNat n)
               is_default := false }) := by
  have hres : SVDConvParser.extend_enumerated_values_with_default l dflt lsb msb
      = l.filter (fun ev => !ev.is_default) ++
        (((List.range (2 ^ (msb - lsb + 1).toNat)).map Int.ofNat).filter
            (fun v => !((l.filterMap EnumeratedValue.value).contains v))).map
          (fun v => { name := ⟨dflt.name.data ++ '_' :: intRepr v⟩
                      description := none
                      value := some v
                      is_default := false }) := by
    unfold SVDConvParser.extend_enumerated_values_with_default
    rw [List.filter_append, List.filter_map]
    congr 1
    rw [show ((fun ev : EnumeratedValue => !ev.is_default) ∘
        (fun v : Int => ({ name := ⟨dflt.name.data ++ '_' :: intRepr v⟩
                           description := none
                           value := some v
                           is_default := false } : EnumeratedValue))) = fun _ => true from rfl]
    rw [List.filter_true]
  have hvals : (SVDConvParser.extend_enumerated_values_with_default l dflt lsb msb).filterMap
        EnumeratedValue.value
      = l.filterMap EnumeratedValue.value ++
        ((List.range (2 ^ (msb - lsb + 1).toNat)).map Int.ofNat).filter
          (fun v => !((l.filterMap EnumeratedValue.value).contains v)) := by
    rw [hres, List.filterMap_append, filterMap_value_filter_nondefault l hdef]
    congr 1
    rw [List.filterMap_map]
    rw [show (EnumeratedValue.value ∘
        (fun v : Int => ({ name := ⟨dflt.name.data ++ '_' :: intRepr v⟩
                           description := none
                           value := some v
                           is_default := false } : EnumeratedValue))) = some from rfl]
    exact List.filterMap_some _
  have hcov_sub : ∀ x ∈ l.filterMap EnumeratedValue.value,
      x ∈ (List.range (2 ^ (msb - lsb + 1).toNat)).map Int.ofNat := by
    intro x hx
    obtain ⟨ev, hev, hevv⟩ := List.mem_filterMap.mp hx
    by_cases hd : ev.is_default = true
    · rw [hdef ev hev hd] at hevv
      exact absurd hevv (by simp)
    · obtain ⟨v, hv, h0, hlt⟩ := hexp ev hev (by simpa using hd)
      rw [hv] at hevv
      have hxv : x = v := by
        have := hevv
        simp at this
        exact this.symm
      rw [hxv]
      have hltn : v < ((2 ^ (msb - lsb + 1).toNat : Nat) : Int) := by exact_mod_cast hlt
      exact List.mem_map.mpr ⟨v.toNat, List.mem_range.mpr (by omega), Int.toNat_of_nonneg h0⟩
  have hallP_nodup : ((List.range (2 ^ (msb - lsb + 1).toNat)).map Int.ofNat).Nodup :=
    (List.nodup_range _).map (fun a b h => Int.ofNat.inj h)
  have hunc_nodup : (((List.range (2 ^ (msb - lsb + 1).toNat)).map Int.ofNat).filter
      (fun v => !((l.filterMap EnumeratedValue.value).contains v))).Nodup :=
    hallP_nodup.filter _
  have hdisj : (l.filterMap EnumeratedValue.value).Disjoint
      (((List.range (2 ^ (msb - lsb + 1).toNat)).map Int.ofNat).filter
        (fun v => !((l.filterMap EnumeratedValue.value).contains v))) := by
    intro a ha hunc
    exact (not_contains_iff _ _).mp (List.mem_filter.mp hunc).2 ha
  have hlhs_nodup := hnodup.append hunc_nodup hdisj
  have hperm : ((SVDConvParser.extend_enumerated_values_with_default l dflt lsb msb).filterMap
        EnumeratedValue.value).Perm
      ((List.range (2 ^ (msb - lsb + 1).toNat)).map Int.ofNat) := by
    rw [hvals]
    refine (List.perm_ext_iff_of_nodup (hvals ▸ hlhs_nodup) hallP_nodup).mpr ?_
    intro x
    constructor
    · intro hx
      rcases List.mem_append.mp hx with hx | hx
      · exact hcov_sub x hx
      · exact (List.mem_filter.mp hx).1
    · intro hx
      by_cases hc : x ∈ l.filterMap EnumeratedValue.value
      · exact List.mem_append.mpr (Or.inl hc)
      · exact List.mem_append.mpr (Or.inr (List.mem_filter.mpr
          ⟨hx, (not_contains_iff _ _).mpr hc⟩))
  have hnondef : ∀ ev ∈ SVDConvParser.extend_enumerated_values_with_default l dflt lsb msb,
      ev.is_default = false := by
    intro ev hm
    rw [hres] at hm
    rcases List.mem_append.mp hm with hm | hm
    · have := (List.mem_filter.mp hm).2
      simpa using this
    · obtain ⟨v, -, rfl⟩ := List.mem_map.mp hm
      rfl
  have hsomev : ∀ ev ∈ SVDConvParser.extend_enumerated_values_with_default l dflt lsb msb,
      ev.value.isSome = true := by
    intro ev hm
    rw [hres] at hm
    rcases List.mem_append.mp hm with hm | hm
    · obtain ⟨hin, hnd⟩ := List.mem_filter.mp hm
      obtain ⟨v, hv, -, -⟩ := hexp ev hin (by simpa using hnd)
      rw [hv]; rfl
    · obtain ⟨v, -, rfl⟩ := List.mem_map.mp hm
      rfl
  refine ⟨hnondef, ?_, ?_, hperm, ?_⟩
  · intro hmem
    have := hnondef dflt hmem
    rw [hdflt] at this
    exact Bool.noConfusion this
  · have hlen := length_filterMap_of_isSome EnumeratedValue.value _ hsomev
    rw [← hlen, hperm.length_eq]
    simp
  · intro ev hm
    rw [hres] at hm
    rcases List.mem_append.mp hm with hm | hm
    · exact Or.inl (List.mem_of_mem_filter hm)
    · obtain ⟨v, hvunc, rfl⟩ := List.mem_map.mp hm
      have hvall : v ∈ (List.range (2 ^ (msb - lsb + 1).toNat)).map Int.ofNat :=
        (List.mem_filter.mp hvunc).1
      obtain ⟨n, hn, rfl⟩ := List.mem_map.mp hvall
      exact Or.inr ⟨n, List.mem_range.mp hn, rfl⟩

end SVD

namespace SVD

/-- C3 witness inputs: the spec's own example — a width-2 field with
explicit values `{0: "A", 1: "B"}` and a default entry `"X"`. -/
def c3_value_A : EnumeratedValue :=
  { name := "A", description := none, value := some 0, is_default := false }

def c3_value_B : EnumeratedValue :=
  { name := "B", description := none, value := some 1, is_default := false }

def c3_default : EnumeratedValue :=
  { name := "X", description := none, value := none, is_default := true }

def c3_entries : List EnumeratedValue := [c3_value_A, c3_value_B, c3_default]

/-- C3 witness: the claim instantiated on the spec's width-2 example. -/
theorem claim_C3_witness :
    (∀ ev ∈ SVDConvParser.extend_enumerated_values_with_default c3_entries c3_default 0 1,
        ev.is_default = false) ∧
    c3_default ∉ SVDConvParser.extend_enumerated_values_with_default c3_entries c3_default 0 1 ∧
    (SVDConvParser.extend_enumerated_values_with_default c3_entries c3_default 0 1).length =
      2 ^ ((1 : Int) - 0 + 1).toNat ∧
    ((SVDConvParser.extend_enumerated_values_with_default c3_entries c3_default 0 1).filterMap
        EnumeratedValue.value).Perm
      ((List.range (2 ^ ((1 : Int) - 0 + 1).toNat)).map Int.ofNat) ∧
    (∀ ev ∈ SVDConvParser.extend_enumerated_values_with_default c3_entries c3_default 0 1,
      ev ∈ c3_entries ∨ ∃ n : Nat, n < 2 ^ ((1 : Int) - 0 + 1).toNat ∧
        ev = { name := ⟨c3_default.name.data ++ '_' :: intRepr (Int.ofNat n)⟩
               description := none
               value := some (Int.ofNat n)
               is_default := false }) :=
  claim_C3 c3_entries c3_default 0 1 rfl
    (by
      intro ev hm hd
      fin_cases hm <;> simp_all [c3_value_A, c3_value_B, c3_default])
    (by
      intro ev hm hnd
      fin_cases hm
      · exact ⟨0, rfl, by decide, by decide⟩
      · exact ⟨1, rfl, by decide, by decide⟩
      · simp [c3_default] at hnd)
    (by decide)

end SVD

namespace SVD

/-! ### Claim C8 -/

/-- C8 counterexample: the claim asserts that reference-tool output that
fails to deserialize — including output lacking the
`Found <N> Error(s) and <M> Warning(s)` summary line — yields the
no-model sentinel rather than an exception; but `get_error_warning_stats`
raises `ValueError` when the summary line is absent, and
`parse_svdconv_output` does not catch it. -/
theorem claim_C8_counterexample :
    parse_svdconv_output (S "no summary line here") (S "") =
      .error "ValueError: Could not find error and warning count in svdconv output" := rfl

/-- C8 (amended): when the run summary is present and reports `N > 0`
errors, the whole file is treated as unparseable and the explicit
no-model sentinel (`none`) is returned without raising; but output whose
summary line is missing makes `get_error_warning_stats` raise
`ValueError`, which propagates out of `parse_svdconv_output` (and a
debug output that fails to parse likewise raises) — only the `N > 0`
case is converted into the sentinel. -/
theorem claim_C8 :
    (∀ (output debug : Str) (n m : Nat), search_summary output = some (n, m) → 0 < n →
      parse_svdconv_output output debug = .ok none) ∧
    (∀ output debug : Str, search_summary output = none →
      ∃ e, parse_svdconv_output output debug = .error e) := by
  constructor
  · intro output debug n m hs hn
    unfold parse_svdconv_output get_error_warning_stats
    rw [hs]
    exact if_pos hn
  · intro output debug hs
    refine ⟨"ValueError: Could not find error and warning count in svdconv output", ?_⟩
    unfold parse_svdconv_output get_error_warning_stats
    rw [hs]
    rfl

/-- C8 witness: a summary line reporting two errors yields the no-model
sentinel, and output with no summary line yields an error. -/
theorem claim_C8_witness :
    (search_summary (S "Found 2 Error(s) and 0 Warning(s)") = some (2, 0) ∧
      parse_svdconv_output (S "Found 2 Error(s) and 0 Warning(s)") (S "junk") = .ok none) ∧
    ∃ e, parse_svdconv_output (S "nothing") (S "") = .error e :=
  ⟨⟨rfl, claim_C8.1 _ _ 2 0 rfl (by decide)⟩, claim_C8.2 _ _ rfl⟩

end SVD

namespace SVD

/-- Reducing a successful `Except` bind. -/
theorem except_bind_ok {ε α β : Type} (a : α) (f : α → Except ε β) :
    ((Except.ok a : Except ε α) >>= f) = f a := rfl

/-- C4 (amended): a `Register` produced by `parse_register` takes its
`base_address` verbatim from the `Absolute Address:` attribute line of
its own block (`0` when the attribute is absent) — it is not computed
from an enclosing cluster's base address plus the local offset, so the
accumulation invariant holds only when the reference tool's own output
is consistent. -/
theorem claim_C4 (lines : List Str) (fuel index : Nat) (reg : Register) (j : Nat)
    (h : SVDConvParser.parse_register lines fuel index = .ok (reg, j)) :
    SVDConvParser.hexAttr (SVDConvParser.register_data lines fuel index).1
      (S "Absolute Address") = .ok reg.base_address := by
  unfold SVDConvParser.parse_register at h
  by_cases hlt : index < lines.length
  case neg =>
    rw [dif_neg hlt] at h
    exact Except.noConfusion h
  rw [dif_pos hlt] at h
  cases hrd : SVDConvParser.register_data lines fuel index with
  | mk data i1 =>
  rw [hrd] at h
  dsimp only at h
  cases h1 : SVDConvParser.hexAttr data (S "addressOffset") with
  | error e => rw [h1] at h; exact Except.noConfusion h
  | ok address_offset =>
  rw [h1, except_bind_ok] at h
  cases h2 : get_data_type (dictGetD data (S "dataType") (S "")) with
  | error e => rw [h2] at h; exact Except.noConfusion h
  | ok data_type =>
  rw [h2, except_bind_ok] at h
  cases h3 : get_modified_write_value (dictGetD data (S "modifiedWriteValues") (S "")) with
  | error e => rw [h3] at h; exact Except.noConfusion h
  | ok modified_write_values =>
  rw [h3, except_bind_ok] at h
  cases h4 : get_read_action (dictGetD data (S "readAction") (S "")) with
  | error e => rw [h4] at h; exact Except.noConfusion h
  | ok read_action =>
  rw [h4, except_bind_ok] at h
  cases h5 : pyIntE 10 (dictGetD data (S "size effective") (S "0")) with
  | error e => rw [h5] at h; exact Except.noConfusion h
  | ok size =>
  rw [h5, except_bind_ok] at h
  cases h6 : get_access_type (dictGetD data (S "access") (S "")) with
  | error e => rw [h6] at h; exact Except.noConfusion h
  | ok access =>
  rw [h6, except_bind_ok] at h
  cases h7 : get_protection_type (dictGetD data (S "protection") (S "")) with
  | error e => rw [h7] at h; exact Except.noConfusion h
  | ok protection =>
  rw [h7, except_bind_ok] at h
  cases h8 : SVDConvParser.hexAttr data (S "resetValue") with
  | error e => rw [h8] at h; exact Except.noConfusion h
  | ok reset_value =>
  rw [h8, except_bind_ok] at h
  cases h9 : SVDConvParser.hexAttr data (S "resetMask") with
  | error e => rw [h9] at h; exact Except.noConfusion h
  | ok reset_mask =>
  rw [h9, except_bind_ok] at h
  cases h10 : SVDConvParser.hexAttr data (S "Absolute Address") with
  | error e => rw [h10] at h; exact Except.noConfusion h
  | ok base_address =>
  rw [h10, except_bind_ok] at h
  cases h11 : SVDConvParser.register_fields_loop lines fuel i1 [] with
  | error e => rw [h11] at h; exact Except.noConfusion h
  | ok fields_i2 =>
  rw [h11] at h
  cases fields_i2 with
  | mk fields i2 =>
  dsimp only [except_bind_ok] at h
  obtain ⟨hreg, -⟩ := Prod.mk.inj (Except.ok.inj h)
  subst hreg
  rfl

/-- The nested input of the C4 counterexample: a cluster at absolute
address 0x110 (offset 0x10) containing a register at local offset 0x4
whose `Absolute Address` line says 0x999 — not 0x110 + 0x4. -/
def c4_lines : List Str :=
  [S "=== Peripheral P ===",
   S "baseAddress: 0x100",
   S "access: READ_WRITE",
   S "protection: UNDEF",
   S "=== Cluster C ===",
   S "    addressOffset: 0x10",
   S "    Absolute Address: 0x110",
   S "    access: READ_WRITE",
   S "    protection: UNDEF",
   S "    === Register R (with prepend & append: R) ===",
   S "        addressOffset: 0x4",
   S "        Absolute Address: 0x999",
   S "        access: READ_WRITE",
   S "        protection: UNDEF",
   S "        modifiedWriteValues: undefined",
   S "        readAction: UNDEF"]

/-- C4 counterexample: the parser returns this forest unchanged, so the
register's `base_address` (0x999) is not the cluster's base address
(0x110) plus the register's offset (0x4). -/
theorem claim_C4_counterexample :
    ∃ (p : Peripheral) (c : ClusterAttrs) (r : Register),
      SVDConvParser.parse c4_lines = .ok [p] ∧
      p.registers_clusters = [.cluster c [.register r]] ∧
      c.base_address = 272 ∧ r.address_offset = 4 ∧ r.base_address = 2457 ∧
      r.base_address ≠ c.base_address + r.address_offset :=
  ⟨_, _, _, rfl, rfl, rfl, rfl, rfl, by decide⟩

/-- A lone register block whose `Absolute Address` is 0x999. -/
def c4_register_block : List Str :=
  [S "=== Register R (with prepend & append: R) ===",
   S "    addressOffset: 0x4",
   S "    Absolute Address: 0x999",
   S "    access: READ_WRITE",
   S "    protection: UNDEF",
   S "    modifiedWriteValues: undefined",
   S "    readAction: UNDEF"]

/-- C4 witness: the amended claim applied to a concrete register block. -/
theorem claim_C4_witness :
    ∃ (reg : Register) (j : Nat),
      SVDConvParser.parse_register c4_register_block 30 0 = .ok (reg, j) ∧
      SVDConvParser.hexAttr (SVDConvParser.register_data c4_register_block 30 0).1
        (S "Absolute Address") = .ok reg.base_address ∧
      reg.base_address = 2457 :=
  ⟨_, _, rfl, claim_C4 c4_register_block 30 0 _ _ rfl, rfl⟩

end SVD

namespace SVD

/-! ### Claim C7 — sortedness infrastructure -/

/-- Adjacent non-decreasing order under a boolean `≤`. -/
def isSortedBy (le : α → α → Bool) : List α → Bool
  | [] => true
  | [_] => true
  | a :: b :: rest => le a b && isSortedBy le (b :: rest)

/-- Inserting into a sorted list keeps it sorted, for a total boolean
preorder. -/
theorem isSortedBy_pyInsert (le : α → α → Bool)
    (htot : ∀ a b, le a b = false → le b a = true) :
    ∀ (l : List α) (a : α), isSortedBy le l = true →
      isSortedBy le (pyInsert le a l) = true
  | [], a, _ => rfl
  | b :: bs, a, h => by
    unfold pyInsert
    by_cases hab : le a b = true
    · rw [if_pos hab]
      simp only [isSortedBy, hab, Bool.true_and]
      exact h
    · rw [if_neg hab]
      have hba := htot a b (by simpa using hab)
      cases bs with
      | nil => simp [pyInsert, isSortedBy, hba]
      | cons c cs =>
        have hbc : le b c = true := by
          have := h
          simp only [isSortedBy, Bool.and_eq_true] at this
          exact this.1
        have hsorted : isSortedBy le (c :: cs) = true := by
          have := h
          simp only [isSortedBy, Bool.and_eq_true] at this
          exact this.2
        have ih := isSortedBy_pyInsert le htot (c :: cs) a hsorted
        unfold pyInsert at ih ⊢
        by_cases hac : le a c = true
        · rw [if_pos hac] at ih ⊢
          simp only [isSortedBy, Bool.and_eq_true] at ih ⊢
          exact ⟨hba, ih⟩
        · rw [if_neg hac] at ih ⊢
          simp only [isSortedBy, Bool.and_eq_true] at ih ⊢
          exact ⟨hbc, ih⟩

/-- `pySort` sorts, for a total boolean preorder. -/
theorem isSortedBy_pySort (le : α → α → Bool)
    (htot : ∀ a b, le a b = false → le b a = true) :
    ∀ l : List α, isSortedBy le (pySort le l) = true
  | [] => rfl
  | a :: as => by
    show isSortedBy le (pyInsert le a (pySort le as)) = true
    exact isSortedBy_pyInsert le htot (pySort le as) a (isSortedBy_pySort le htot as)

/-- Membership through `pyInsert`. -/
theorem mem_pyInsert (le : α → α → Bool) (x a : α) :
    ∀ l : List α, x ∈ pyInsert le a l ↔ x = a ∨ x ∈ l
  | [] => by simp [pyInsert]
  | b :: bs => by
    unfold pyInsert
    by_cases hab : le a b = true
    · rw [if_pos hab]
      simp
    · rw [if_neg hab]
      simp [mem_pyInsert le x a bs]
      tauto

/-- Membership through `pySort`. -/
theorem mem_pySort (le : α → α → Bool) (x : α) :
    ∀ l : List α, x ∈ pySort le l ↔ x ∈ l
  | [] => Iff.rfl
  | a :: as => by
    show x ∈ pyInsert le a (pySort le as) ↔ _
    rw [mem_pyInsert, mem_pySort le x as]
    simp

/-- `strLeL` is total. -/
theorem strLeL_total : ∀ u v : Str, strLeL u v = false → strLeL v u = true
  | [], _, h => by simp [strLeL] at h
  | _ :: _, [], _ => rfl
  | c :: cs, d :: ds, h => by
    unfold strLeL at h ⊢
    by_cases hcd : c.toNat < d.toNat
    · rw [if_pos hcd] at h
      exact absurd h (by simp)
    · rw [if_neg hcd] at h
      by_cases hdc : d.toNat < c.toNat
      · rw [if_pos hdc]
      · rw [if_neg hdc] at h
        rw [if_neg hdc, if_neg hcd]
        exact strLeL_total cs ds h

/-- `intStrLe` is total. -/
theorem intStrLe_total (a b : Int × String) :
    intStrLe a b = false → intStrLe b a = true := by
  intro h
  unfold intStrLe at h ⊢
  simp only [Bool.or_eq_false_iff, Bool.and_eq_false_iff, decide_eq_false_iff_not] at h
  obtain ⟨hlt, hor⟩ := h
  rcases hor with heq | hstr
  · simp only [Bool.or_eq_true, decide_eq_true_eq]
    omega
  · by_cases heq : a.1 = b.1
    · simp only [Bool.or_eq_true, Bool.and_eq_true, decide_eq_true_eq]
      exact Or.inr ⟨heq.symm, strLeL_total _ _ hstr⟩
    · simp only [Bool.or_eq_true, decide_eq_true_eq]
      left
      omega

end SVD

namespace SVD

theorem evLe_total : ∀ a b, evLe a b = false → evLe b a = true := by
  intro a b h
  simp only [evLe, decide_eq_false_iff_not, decide_eq_true_eq] at *
  omega

theorem abLe_total : ∀ a b, abLe a b = false → abLe b a = true := by
  intro a b h
  simp only [abLe, decide_eq_false_iff_not, decide_eq_true_eq] at *
  omega

theorem intrLe_total : ∀ a b, intrLe a b = false → intrLe b a = true := by
  intro a b h
  simp only [intrLe, decide_eq_false_iff_not, decide_eq_true_eq] at *
  omega

theorem fieldLe_total : ∀ a b, fieldLe a b = false → fieldLe b a = true :=
  fun _ _ h => intStrLe_total _ _ h

theorem rcLe_total : ∀ a b, rcLe a b = false → rcLe b a = true :=
  fun _ _ h => intStrLe_total _ _ h

theorem periLe_total : ∀ a b, periLe a b = false → periLe b a = true :=
  fun _ _ h => intStrLe_total _ _ h

/-! ### Claim C7 — the sort invariants -/

/-- The enumerated values of one container are non-decreasing by value
(`None` counting as 0, as in the sort key of the source). -/
def container_values_sorted (c : EnumeratedValueContainer) : Prop :=
  isSortedBy evLe c.enumerated_values = true

/-- All enum containers of a field satisfy the value sort invariant. -/
def FieldInv (f : Field) : Prop :=
  ∀ c ∈ f.enumerated_value_containers, container_values_sorted c

/-- A register's fields are non-decreasing by `(lsb, name)` and satisfy
the container invariant. -/
def RegisterInv (r : Register) : Prop :=
  isSortedBy fieldLe r.fields = true ∧ ∀ f ∈ r.fields, FieldInv f

/-- The register invariant, recursively through cluster nesting. -/
def RCInv : RegisterCluster → Prop
  | .register r => RegisterInv r
  | .cluster _ ch => ∀ rc ∈ ch, RCInv rc
decreasing_by
  rename_i hmem
  have := List.sizeOf_lt_of_mem hmem
  simp only [RegisterCluster.cluster.sizeOf_spec]
  omega

/-- The register/cluster invariant for every child of a peripheral. -/
def PeripheralInv (p : Peripheral) : Prop :=
  ∀ rc ∈ p.registers_clusters, RCInv rc

end SVD

namespace SVD

/-- Every container built by `parse_enum_container` has its enumerated
values sorted by value (they pass through the final `sorted(...)`). -/
theorem parse_enum_container_sorted (lines : List Str) (fuel index : Nat) (lsb msb : Int)
    (c : EnumeratedValueContainer) (j : Nat)
    (h : SVDConvParser.parse_enum_container lines fuel index lsb msb = .ok (c, j)) :
    container_values_sorted c := by
  unfold SVDConvParser.parse_enum_container at h
  by_cases hlt : index < lines.length
  case neg => rw [dif_neg hlt] at h; exact Except.noConfusion h
  rw [dif_pos hlt] at h
  cases hckv : collect_kv stop_container lines fuel (index + 1) [] with
  | mk data i1 =>
  rw [hckv] at h
  dsimp only at h
  cases h1 : get_enum_usage (dictGetD data (S "usage") (S "")) with
  | error e => rw [h1] at h; exact Except.noConfusion h
  | ok usage =>
  rw [h1, except_bind_ok] at h
  cases h2 : SVDConvParser.enum_values_loop lines fuel i1 [] with
  | error e => rw [h2] at h; exact Except.noConfusion h
  | ok evs_i2 =>
  rw [h2] at h
  cases evs_i2 with
  | mk evs i2 =>
  dsimp only [except_bind_ok] at h
  obtain ⟨hc, -⟩ := Prod.mk.inj (Except.ok.inj h)
  subst hc
  exact isSortedBy_pySort evLe evLe_total _

/-- The container loop of `parse_field` preserves the container sort
invariant. -/
theorem field_containers_loop_inv (lines : List Str) (lsb msb : Int) :
    ∀ (fuel index : Nat) (acc cs : List EnumeratedValueContainer) (j : Nat),
      SVDConvParser.field_containers_loop lines lsb msb fuel index acc = .ok (cs, j) →
      (∀ c ∈ acc, container_values_sorted c) → ∀ c ∈ cs, container_values_sorted c
  | 0, index, acc, cs, j, h, hacc => Except.noConfusion h
  | fuel + 1, index, acc, cs, j, h, hacc => by
    unfold SVDConvParser.field_containers_loop at h
    by_cases hlt : index < lines.length
    case neg =>
      rw [dif_neg hlt] at h
      obtain ⟨hcs, -⟩ := Prod.mk.inj (Except.ok.inj h)
      exact hcs ▸ hacc
    rw [dif_pos hlt] at h
    by_cases hstart : startsWithL (S "=== Enum Container:") (pyStrip lines[index]) = true
    case neg =>
      rw [if_neg hstart] at h
      obtain ⟨hcs, -⟩ := Prod.mk.inj (Except.ok.inj h)
      exact hcs ▸ hacc
    rw [if_pos hstart] at h
    cases hec : SVDConvParser.parse_enum_container lines fuel index lsb msb with
    | error e => rw [hec] at h; exact Except.noConfusion h
    | ok ec_i =>
    rw [hec] at h
    cases ec_i with
    | mk ec i2 =>
    dsimp only [except_bind_ok] at h
    refine field_containers_loop_inv lines lsb msb fuel i2 (acc ++ [ec]) cs j h ?_
    intro c hc
    rcases List.mem_append.mp hc with hc | hc
    · exact hacc c hc
    · obtain rfl : c = ec := by simpa using hc
      exact parse_enum_container_sorted lines fuel index lsb msb c i2 hec

/-- Every field built by `parse_field` satisfies the container
invariant. -/
theorem parse_field_inv (lines : List Str) (fuel index : Nat) (f : Field) (j : Nat)
    (h : SVDConvParser.parse_field lines fuel index = .ok (f, j)) : FieldInv f := by
  unfold SVDConvParser.parse_field at h
  by_cases hlt : index < lines.length
  case neg => rw [dif_neg hlt] at h; exact Except.noConfusion h
  rw [dif_pos hlt] at h
  cases hckv : collect_kv stop_field lines fuel (index + 1) [] with
  | mk data i1 =>
  rw [hckv] at h
  dsimp only at h
  cases h1 : pyIntE 10 (dictGetD data (S "bitOffset") (S "0")) with
  | error e => rw [h1] at h; exact Except.noConfusion h
  | ok bit_offset =>
  rw [h1, except_bind_ok] at h
  cases h2 : pyIntE 10 (dictGetD data (S "bitWidth") (S "0")) with
  | error e => rw [h2] at h; exact Except.noConfusion h
  | ok bit_width =>
  rw [h2, except_bind_ok] at h
  cases h3 : get_access_type (dictGetD data (S "access") (S "")) with
  | error e => rw [h3] at h; exact Except.noConfusion h
  | ok access =>
  rw [h3, except_bind_ok] at h
  cases h4 : get_modified_write_value (dictGetD data (S "modifiedWriteValues") (S "")) with
  | error e => rw [h4] at h; exact Except.noConfusion h
  | ok mwv =>
  rw [h4, except_bind_ok] at h
  cases h5 : get_read_action (dictGetD data (S "readAction") (S "")) with
  | error e => rw [h5] at h; exact Except.noConfusion h
  | ok ra =>
  rw [h5, except_bind_ok] at h
  cases h6 : SVDConvParser.field_containers_loop lines bit_offset (bit_offset + bit_width - 1)
      fuel i1 [] with
  | error e => rw [h6] at h; exact Except.noConfusion h
  | ok cs_i2 =>
  rw [h6] at h
  cases cs_i2 with
  | mk containers i2 =>
  dsimp only [except_bind_ok] at h
  obtain ⟨hf, -⟩ := Prod.mk.inj (Except.ok.inj h)
  subst hf
  intro c hc
  exact field_containers_loop_inv lines bit_offset (bit_offset + bit_width - 1)
    fuel i1 [] containers i2 h6 (by simp) c hc

end SVD

namespace SVD

/-- The field loop of `parse_register` preserves the field invariant. -/
theorem register_fields_loop_inv (lines : List Str) :
    ∀ (fuel index : Nat) (acc fs : List Field) (j : Nat),
      SVDConvParser.register_fields_loop lines fuel index acc = .ok (fs, j) →
      (∀ f ∈ acc, FieldInv f) → ∀ f ∈ fs, FieldInv f
  | 0, index, acc, fs, j, h, hacc => Except.noConfusion h
  | fuel + 1, index, acc, fs, j, h, hacc => by
    unfold SVDConvParser.register_fields_loop at h
    by_cases hlt : index < lines.length
    case neg =>
      rw [dif_neg hlt] at h
      obtain ⟨hfs, -⟩ := Prod.mk.inj (Except.ok.inj h)
      exact hfs ▸ hacc
    rw [dif_pos hlt] at h
    by_cases hstart : startsWithL (S "=== Field") (pyStrip lines[index]) = true
    case neg =>
      rw [if_neg hstart] at h
      obtain ⟨hfs, -⟩ := Prod.mk.inj (Except.ok.inj h)
      exact hfs ▸ hacc
    rw [if_pos hstart] at h
    cases hpf : SVDConvParser.parse_field lines fuel index with
    | error e => rw [hpf] at h; exact Except.noConfusion h
    | ok f_i =>
    rw [hpf] at h
    cases f_i with
    | mk f i2 =>
    dsimp only [except_bind_ok] at h
    refine register_fields_loop_inv lines fuel i2 (acc ++ [f]) fs j h ?_
    intro g hg
    rcases List.mem_append.mp hg with hg | hg
    · exact hacc g hg
    · obtain rfl : g = f := by simpa using hg
      exact parse_field_inv lines fuel index g i2 hpf

/-- Every register built by `parse_register` satisfies the register
invariant: the fields are sorted by `(lsb, name)` and their containers
are sorted by value. -/
theorem parse_register_inv (lines : List Str) (fuel index : Nat) (reg : Register) (j : Nat)
    (h : SVDConvParser.parse_register lines fuel index = .ok (reg, j)) : RegisterInv reg := by
  unfold SVDConvParser.parse_register at h
  by_cases hlt : index < lines.length
  case neg => rw [dif_neg hlt] at h; exact Except.noConfusion h
  rw [dif_pos hlt] at h
  cases hrd : SVDConvParser.register_data lines fuel index with
  | mk data i1 =>
  rw [hrd] at h
  dsimp only at h
  cases h1 : SVDConvParser.hexAttr data (S "addressOffset") with
  | error e => rw [h1] at h; exact Except.noConfusion h
  | ok address_offset =>
  rw [h1, except_bind_ok] at h
  cases h2 : get_data_type (dictGetD data (S "dataType") (S "")) with
  | error e => rw [h2] at h; exact Except.noConfusion h
  | ok data_type =>
  rw [h2, except_bind_ok] at h
  cases h3 : get_modified_write_value (dictGetD data (S "modifiedWriteValues") (S "")) with
  | error e => rw [h3] at h; exact Except.noConfusion h
  | ok mwv =>
  rw [h3, except_bind_ok] at h
  cases h4 : get_read_action (dictGetD data (S "readAction") (S "")) with
  | error e => rw [h4] at h; exact Except.noConfusion h
  | ok ra =>
  rw [h4, except_bind_ok] at h
  cases h5 : pyIntE 10 (dictGetD data (S "size effective") (S "0")) with
  | error e => rw [h5] at h; exact Except.noConfusion h
  | ok size =>
  rw [h5, except_bind_ok] at h
  cases h6 : get_access_type (dictGetD data (S "access") (S "")) with
  | error e => rw [h6] at h; exact Except.noConfusion h
  | ok access =>
  rw [h6, except_bind_ok] at h
  cases h7 : get_protection_type (dictGetD data (S "protection") (S "")) with
  | error e => rw [h7] at h; exact Except.noConfusion h
  | ok protection =>
  rw [h7, except_bind_ok] at h
  cases h8 : SVDConvParser.hexAttr data (S "resetValue") with
  | error e => rw [h8] at h; exact Except.noConfusion h
  | ok reset_value =>
  rw [h8, except_bind_ok] at h
  cases h9 : SVDConvParser.hexAttr data (S "resetMask") with
  | error e => rw [h9] at h; exact Except.noConfusion h
  | ok reset_mask =>
  rw [h9, except_bind_ok] at h
  cases h10 : SVDConvParser.hexAttr data (S "Absolute Address") with
  | error e => rw [h10] at h; exact Except.noConfusion h
  | ok base_address =>
  rw [h10, except_bind_ok] at h
  cases h11 : SVDConvParser.register_fields_loop lines fuel i1 [] with
  | error e => rw [h11] at h; exact Except.noConfusion h
  | ok fields_i2 =>
  rw [h11] at h
  cases fields_i2 with
  | mk fields i2 =>
  dsimp only [except_bind_ok] at h
  obtain ⟨hreg, -⟩ := Prod.mk.inj (Except.ok.inj h)
  subst hreg
  constructor
  · exact isSortedBy_pySort fieldLe fieldLe_total _
  · intro f hf
    have hmem : f ∈ fields := (mem_pySort fieldLe f fields).mp hf
    exact register_fields_loop_inv lines fuel i1 [] fields i2 h11 (by simp) f hmem

end SVD

namespace SVD

mutual

/-- Every register-or-cluster produced by `parse_register_or_cluster`
satisfies the recursive sort invariant. -/
theorem parse_rc_inv (lines : List Str) :
    ∀ (fuel index : Nat) (res : Option RegisterCluster) (j : Nat),
      SVDConvParser.parse_register_or_cluster lines fuel index = .ok (res, j) →
      ∀ rc, res = some rc → RCInv rc
  | 0, _, _, _, h => fun _ _ => Except.noConfusion h
  | fuel + 1, index, res, j, h => by
    intro rc hres
    unfold SVDConvParser.parse_register_or_cluster at h
    by_cases hlt : index < lines.length
    case neg => rw [dif_neg hlt] at h; exact Except.noConfusion h
    rw [dif_pos hlt] at h
    by_cases hreg : startsWithL (S "=== Register") (pyStrip lines[index]) = true
    · rw [if_pos hreg] at h
      cases hpr : SVDConvParser.parse_register lines fuel index with
      | error e => rw [hpr] at h; exact Except.noConfusion h
      | ok reg_i =>
      rw [hpr] at h
      cases reg_i with
      | mk reg i2 =>
      dsimp only [except_bind_ok] at h
      obtain ⟨hres2, -⟩ := Prod.mk.inj (Except.ok.inj h)
      rw [← hres2] at hres
      obtain rfl : RegisterCluster.register reg = rc := by simpa using hres
      simp only [RCInv]
      exact parse_register_inv lines fuel index reg i2 hpr
    · rw [if_neg hreg] at h
      by_cases hcl : startsWithL (S "=== Cluster") (pyStrip lines[index]) = true
      · rw [if_pos hcl] at h
        cases hpc : SVDConvParser.parse_cluster lines fuel index with
        | error e => rw [hpc] at h; exact Except.noConfusion h
        | ok c_i =>
        rw [hpc] at h
        cases c_i with
        | mk c i2 =>
        dsimp only [except_bind_ok] at h
        obtain ⟨hres2, -⟩ := Prod.mk.inj (Except.ok.inj h)
        rw [← hres2] at hres
        obtain rfl : c = rc := by simpa using hres
        exact parse_cluster_inv lines fuel index c i2 hpc
      · rw [if_neg hcl] at h
        obtain ⟨hres2, -⟩ := Prod.mk.inj (Except.ok.inj h)
        rw [← hres2] at hres
        exact Option.noConfusion hres
termination_by structural fuel => fuel

/-- Every cluster produced by `parse_cluster` satisfies the recursive
sort invariant. -/
theorem parse_cluster_inv (lines : List Str) :
    ∀ (fuel index : Nat) (rc : RegisterCluster) (j : Nat),
      SVDConvParser.parse_cluster lines fuel index = .ok (rc, j) → RCInv rc
  | 0, _, _, _, h => Except.noConfusion h
  | fuel + 1, index, rc, j, h => by
    unfold SVDConvParser.parse_cluster at h
    by_cases hlt : index < lines.length
    case neg => rw [dif_neg hlt] at h; exact Except.noConfusion h
    rw [dif_pos hlt] at h
    cases hd : SVDConvParser.get_current_depth lines[index] with
    | error e => rw [hd] at h; exact Except.noConfusion h
    | ok cluster_depth =>
    rw [hd, except_bind_ok] at h
    cases hcd : SVDConvParser.cluster_data lines fuel index with
    | mk data i1 =>
    rw [hcd] at h
    dsimp only at h
    cases hch : SVDConvParser.cluster_children_loop lines fuel i1 cluster_depth [] with
    | error e => rw [hch] at h; exact Except.noConfusion h
    | ok ch_i =>
    rw [hch] at h
    cases ch_i with
    | mk children i2 =>
    dsimp only [except_bind_ok] at h
    cases h1 : SVDConvParser.hexAttr data (S "addressOffset") with
    | error e => rw [h1] at h; exact Except.noConfusion h
    | ok address_offset =>
    rw [h1, except_bind_ok] at h
    cases h2 : pyIntE 10 (dictGetD data (S "size effective") (S "0")) with
    | error e => rw [h2] at h; exact Except.noConfusion h
    | ok size =>
    rw [h2, except_bind_ok] at h
    cases h3 : get_access_type (dictGetD data (S "access") (S "")) with
    | error e => rw [h3] at h; exact Except.noConfusion h
    | ok access =>
    rw [h3, except_bind_ok] at h
    cases h4 : get_protection_type (dictGetD data (S "protection") (S "")) with
    | error e => rw [h4] at h; exact Except.noConfusion h
    | ok protection =>
    rw [h4, except_bind_ok] at h
    cases h5 : SVDConvParser.hexAttr data (S "resetValue") with
    | error e => rw [h5] at h; exact Except.noConfusion h
    | ok reset_value =>
    rw [h5, except_bind_ok] at h
    cases h6 : SVDConvParser.hexAttr data (S "resetMask") with
    | error e => rw [h6] at h; exact Except.noConfusion h
    | ok reset_mask =>
    rw [h6, except_bind_ok] at h
    cases h7 : SVDConvParser.hexAttr data (S "Absolute Address") with
    | error e => rw [h7] at h; exact Except.noConfusion h
    | ok base_address =>
    rw [h7, except_bind_ok] at h
    obtain ⟨hrc, -⟩ := Prod.mk.inj (Except.ok.inj h)
    subst hrc
    simp only [RCInv]
    intro x hx
    have hmem : x ∈ children := (mem_pySort rcLe x children).mp hx
    exact cluster_children_loop_inv lines fuel i1 cluster_depth [] children i2 hch
      (by simp) x hmem
termination_by structural fuel => fuel

/-- The child loop of `parse_cluster` preserves the recursive sort
invariant. -/
theorem cluster_children_loop_inv (lines : List Str) :
    ∀ (fuel index cluster_depth : Nat) (acc res : List RegisterCluster) (j : Nat),
      SVDConvParser.cluster_children_loop lines fuel index cluster_depth acc = .ok (res, j) →
      (∀ rc ∈ acc, RCInv rc) → ∀ rc ∈ res, RCInv rc
  | 0, _, _, _, _, _, h => fun _ _ _ => Except.noConfusion h
  | fuel + 1, index, cluster_depth, acc, res, j, h => by
    intro hacc rc hrc
    unfold SVDConvParser.cluster_children_loop at h
    by_cases hlt : index < lines.length
    case neg =>
      rw [dif_neg hlt] at h
      obtain ⟨hres, -⟩ := Prod.mk.inj (Except.ok.inj h)
      exact hacc rc (hres ▸ hrc)
    rw [dif_pos hlt] at h
    by_cases hmark : startsWithL (S "===") (pyStrip lines[index]) = true
    case neg =>
      rw [if_neg hmark] at h
      exact cluster_children_loop_inv lines fuel (index + 1) cluster_depth acc res j h
        hacc rc hrc
    rw [if_pos hmark] at h
    cases hd : SVDConvParser.get_current_depth lines[index] with
    | error e => rw [hd] at h; exact Except.noConfusion h
    | ok d =>
    rw [hd, except_bind_ok] at h
    by_cases hdepth : d = cluster_depth
    · rw [if_pos hdepth] at h
      obtain ⟨hres, -⟩ := Prod.mk.inj (Except.ok.inj h)
      exact hacc rc (hres ▸ hrc)
    · rw [if_neg hdepth] at h
      cases hprc : SVDConvParser.parse_register_or_cluster lines fuel index with
      | error e => rw [hprc] at h; exact Except.noConfusion h
      | ok el_i =>
      rw [hprc] at h
      cases el_i with
      | mk element i2 =>
      dsimp only [except_bind_ok] at h
      cases element with
      | none =>
        exact cluster_children_loop_inv lines fuel i2 cluster_depth acc res j h hacc rc hrc
      | some e =>
        refine cluster_children_loop_inv lines fuel i2 cluster_depth (acc ++ [e]) res j h
          ?_ rc hrc
        intro x hx
        rcases List.mem_append.mp hx with hx | hx
        · exact hacc x hx
        · obtain rfl : x = e := by simpa using hx
          exact parse_rc_inv lines fuel index (some x) i2 hprc x rfl
termination_by structural fuel => fuel

end

end SVD

namespace SVD

/-- The child loop of `parse_peripheral` preserves the recursive sort
invariant of the collected register/cluster children. -/
theorem peripheral_children_loop_inv (lines : List Str) :
    ∀ (fuel index : Nat) (abs_acc : List AddressBlock) (intr_acc : List Interrupt)
      (rc_acc : List RegisterCluster)
      (res : List AddressBlock × List Interrupt × List RegisterCluster) (j : Nat),
      SVDConvParser.peripheral_children_loop lines fuel index abs_acc intr_acc rc_acc =
        .ok (res, j) →
      (∀ rc ∈ rc_acc, RCInv rc) → ∀ rc ∈ res.2.2, RCInv rc
  | 0, _, _, _, _, _, _, h => fun _ _ _ => Except.noConfusion h
  | fuel + 1, index, abs_acc, intr_acc, rc_acc, res, j, h => by
    intro hacc rc hrc
    unfold SVDConvParser.peripheral_children_loop at h
    by_cases hlt : index < lines.length
    case neg =>
      rw [dif_neg hlt] at h
      obtain ⟨hres, -⟩ := Prod.mk.inj (Except.ok.inj h)
      rw [← hres] at hrc
      exact hacc rc hrc
    rw [dif_pos hlt] at h
    by_cases hab : startsWithL (S "Address Block:") (pyStrip lines[index]) = true
    · rw [if_pos hab] at h
      cases hpab : SVDConvParser.parse_address_block lines fuel index with
      | error e => rw [hpab] at h; exact Except.noConfusion h
      | ok ab_i =>
      rw [hpab] at h
      cases ab_i with
      | mk block i2 =>
      dsimp only [except_bind_ok] at h
      exact peripheral_children_loop_inv lines fuel i2 (abs_acc ++ [block]) intr_acc rc_acc
        res j h hacc rc hrc
    rw [if_neg hab] at h
    by_cases hint : startsWithL (S "Interrupt:") (pyStrip lines[index]) = true
    · rw [if_pos hint] at h
      cases hpint : SVDConvParser.parse_interrupt lines fuel index with
      | error e => rw [hpint] at h; exact Except.noConfusion h
      | ok int_i =>
      rw [hpint] at h
      cases int_i with
      | mk intr i2 =>
      dsimp only [except_bind_ok] at h
      exact peripheral_children_loop_inv lines fuel i2 abs_acc (intr_acc ++ [intr]) rc_acc
        res j h hacc rc hrc
    rw [if_neg hint] at h
    by_cases hmark : startsWithL (S "===") (pyStrip lines[index]) = true
    case neg =>
      rw [if_neg hmark] at h
      exact peripheral_children_loop_inv lines fuel (index + 1) abs_acc intr_acc rc_acc
        res j h hacc rc hrc
    rw [if_pos hmark] at h
    cases hprc : SVDConvParser.parse_register_or_cluster lines fuel index with
    | error e => rw [hprc] at h; exact Except.noConfusion h
    | ok el_i =>
    rw [hprc] at h
    cases el_i with
    | mk element i2 =>
    dsimp only [except_bind_ok] at h
    cases element with
    | none =>
      exact peripheral_children_loop_inv lines fuel i2 abs_acc intr_acc rc_acc res j h
        hacc rc hrc
    | some e =>
      refine peripheral_children_loop_inv lines fuel i2 abs_acc intr_acc (rc_acc ++ [e])
        res j h ?_ rc hrc
      intro x hx
      rcases List.mem_append.mp hx with hx | hx
      · exact hacc x hx
      · obtain rfl : x = e := by simpa using hx
        exact parse_rc_inv lines fuel index (some x) i2 hprc x rfl

/-- Every peripheral built by `parse_peripheral` satisfies the
recursive sort invariant of its children. -/
theorem parse_peripheral_inv (lines : List Str) (fuel : Nat) (p : Peripheral)
    (h : SVDConvParser.parse_peripheral lines fuel = .ok p) : PeripheralInv p := by
  unfold SVDConvParser.parse_peripheral at h
  by_cases hlt : 0 < lines.length
  case neg => rw [dif_neg hlt] at h; exact Except.noConfusion h
  rw [dif_pos hlt] at h
  cases hckv : collect_kv stop_peri lines fuel 1 [] with
  | mk data i1 =>
  rw [hckv] at h
  dsimp only at h
  cases hch : SVDConvParser.peripheral_children_loop lines fuel i1 [] [] [] with
  | error e => rw [hch] at h; exact Except.noConfusion h
  | ok ch_i =>
  rw [hch] at h
  cases ch_i with
  | mk children i2 =>
  dsimp only [except_bind_ok] at h
  cases h1 : SVDConvParser.hexAttr data (S "baseAddress") with
  | error e => rw [h1] at h; exact Except.noConfusion h
  | ok base_address =>
  rw [h1, except_bind_ok] at h
  cases h2 : pyIntE 10 (dictGetD data (S "size effective") (S "0")) with
  | error e => rw [h2] at h; exact Except.noConfusion h
  | ok size =>
  rw [h2, except_bind_ok] at h
  cases h3 : get_access_type (dictGetD data (S "access") (S "")) with
  | error e => rw [h3] at h; exact Except.noConfusion h
  | ok access =>
  rw [h3, except_bind_ok] at h
  cases h4 : get_protection_type (dictGetD data (S "protection") (S "")) with
  | error e => rw [h4] at h; exact Except.noConfusion h
  | ok protection =>
  rw [h4, except_bind_ok] at h
  cases h5 : SVDConvParser.hexAttr data (S "resetValue") with
  | error e => rw [h5] at h; exact Except.noConfusion h
  | ok reset_value =>
  rw [h5, except_bind_ok] at h
  cases h6 : SVDConvParser.hexAttr data (S "resetMask") with
  | error e => rw [h6] at h; exact Except.noConfusion h
  | ok reset_mask =>
  rw [h6, except_bind_ok] at h
  have hp := Except.ok.inj h
  subst hp
  intro rc hrc
  have hmem : rc ∈ children.2.2 := (mem_pySort rcLe rc children.2.2).mp hrc
  exact peripheral_children_loop_inv lines fuel i1 [] [] [] children i2 hch (by simp)
    rc hmem

/-- A successful `mapM` over `Except` maps members back to sources. -/
theorem mapM_ok_mem {α β : Type} (f : α → Except String β) :
    ∀ (l : List α) (ys : List β), l.mapM f = .ok ys → ∀ y ∈ ys, ∃ x ∈ l, f x = .ok y
  | [], ys, h => by
    rw [List.mapM_nil] at h
    obtain rfl : ([] : List β) = ys := Except.ok.inj h
    intro y hy
    simp at hy
  | x :: xs, ys, h => by
    rw [List.mapM_cons] at h
    cases hfx : f x with
    | error e => rw [hfx] at h; exact Except.noConfusion h
    | ok b =>
    rw [hfx, except_bind_ok] at h
    cases hxs : xs.mapM f with
    | error e => rw [hxs] at h; exact Except.noConfusion h
    | ok bs =>
    rw [hxs, except_bind_ok] at h
    obtain rfl : b :: bs = ys := Except.ok.inj h
    intro y hy
    rcases List.mem_cons.mp hy with rfl | hy
    · exact ⟨x, List.mem_cons_self x xs, hfx⟩
    · obtain ⟨x', hx', hfx'⟩ := mapM_ok_mem f xs bs hxs y hy
      exact ⟨x', List.mem_cons_of_mem x hx', hfx'⟩

/-- C7: every forest returned by `SVDConvParser.parse` satisfies the
sort invariants — the peripheral list is non-decreasing by
`(base_address, name)`, within every register (at any cluster depth) the
field list is non-decreasing by `(lsb, name)`, and within every enum
container the enumerated-value list is non-decreasing by value. -/
theorem claim_C7 (lines : List Str) (forest : List Peripheral)
    (h : SVDConvParser.parse lines = .ok forest) :
    isSortedBy periLe forest = true ∧ ∀ p ∈ forest, PeripheralInv p := by
  unfold SVDConvParser.parse at h
  dsimp only at h
  cases hm : (SVDConvParser.split_blocks lines []).mapM
      (fun block => SVDConvParser.parse_peripheral block (SVDConvParser.blockFuel block)) with
  | error e => rw [hm] at h; exact Except.noConfusion h
  | ok peripherals =>
  rw [hm, except_bind_ok] at h
  obtain rfl : pySort periLe peripherals = forest := Except.ok.inj h
  constructor
  · exact isSortedBy_pySort periLe periLe_total _
  · intro p hp
    have hmem : p ∈ peripherals := (mem_pySort periLe p peripherals).mp hp
    obtain ⟨block, -, hblk⟩ := mapM_ok_mem _ _ peripherals hm p hmem
    exact parse_peripheral_inv block _ p hblk

/-- C7 witness: the invariants instantiated on the concrete parse of
`c4_lines` (one peripheral containing a cluster with one register). -/
theorem claim_C7_witness :
    ∃ forest, SVDConvParser.parse c4_lines = .ok forest ∧
      isSortedBy periLe forest = true ∧ ∀ p ∈ forest, PeripheralInv p :=
  ⟨_, rfl, claim_C7 c4_lines _ rfl⟩

end SVD

namespace SVD

/-! ### Claim C6 — consumption and termination of `parse_cluster`

`lineAt` gives the line at a position (the empty line out of range), so
that positions can appear in theorem statements without bounds proofs. -/

def lineAt (lines : List Str) (k : Nat) : Str := lines.getD k []

/-- The position holds a section marker (`===` after stripping). -/
def isMarkerAt (lines : List Str) (k : Nat) : Bool :=
  startsWithL (S "===") (pyStrip (lineAt lines k))

theorem lineAt_eq_getElem (lines : List Str) (k : Nat) (h : k < lines.length) :
    lineAt lines k = lines[k] := List.getD_eq_getElem lines [] h

/-! #### Index progress: every loop returns an index at or beyond its
start. -/

theorem collect_kv_ge (stop : Str → Bool) (lines : List Str) :
    ∀ (fuel index : Nat) (data : Dict),
      index ≤ (collect_kv stop lines fuel index data).2
  | 0, index, data => Nat.le_refl _
  | fuel + 1, index, data => by
    unfold collect_kv
    by_cases hlt : index < lines.length
    case neg => rw [dif_neg hlt]
    rw [dif_pos hlt]
    by_cases hstop : stop lines[index] = true
    · rw [if_pos hstop]
    · rw [if_neg hstop]
      cases hkv : keyVal (pyStrip lines[index]) with
      | none =>
        exact Nat.le_trans (Nat.le_succ index) (collect_kv_ge stop lines fuel (index + 1) data)
      | some kv =>
        exact Nat.le_trans (Nat.le_succ index)
          (collect_kv_ge stop lines fuel (index + 1) (dictSet data kv.1 kv.2))

theorem parse_enum_ge (lines : List Str) (fuel index : Nat) :
    index ≤ (SVDConvParser.parse_enum lines fuel index).2 := by
  unfold SVDConvParser.parse_enum
  by_cases hlt : index < lines.length
  case neg => rw [dif_neg hlt]
  rw [dif_pos hlt]
  by_cases hstart : startsWithL (S "Enum:") (pyStrip lines[index]) = true
  · rw [if_neg (not_not_intro hstart)]
    dsimp only
    exact Nat.le_trans (Nat.le_succ index) (collect_kv_ge stop_enum lines fuel (index + 1) [])
  · rw [if_pos (by simpa using hstart)]

theorem enum_values_loop_ge (lines : List Str) :
    ∀ (fuel index : Nat) (acc evs : List EnumeratedValue) (j : Nat),
      SVDConvParser.enum_values_loop lines fuel index acc = .ok (evs, j) → index ≤ j
  | 0, _, _, _, _, h => Except.noConfusion h
  | fuel + 1, index, acc, evs, j, h => by
    unfold SVDConvParser.enum_values_loop at h
    by_cases hlt : index < lines.length
    case neg =>
      rw [dif_neg hlt] at h
      obtain ⟨-, hj⟩ := Prod.mk.inj (Except.ok.inj h)
      omega
    rw [dif_pos hlt] at h
    by_cases hstart : startsWithL (S "Enum:") (pyStrip lines[index]) = true
    case neg =>
      rw [if_neg hstart] at h
      obtain ⟨-, hj⟩ := Prod.mk.inj (Except.ok.inj h)
      omega
    rw [if_pos hstart] at h
    have hge := parse_enum_ge lines fuel index
    cases hpe : SVDConvParser.parse_enum lines fuel index with
    | mk ev i2 =>
    rw [hpe] at h
    rw [hpe] at hge
    cases ev with
    | none => exact Nat.le_trans hge (enum_values_loop_ge lines fuel i2 acc evs j h)
    | some e => exact Nat.le_trans hge (enum_values_loop_ge lines fuel i2 (acc ++ [e]) evs j h)

theorem parse_enum_container_ge (lines : List Str) (fuel index : Nat) (lsb msb : Int)
    (c : EnumeratedValueContainer) (j : Nat)
    (h : SVDConvParser.parse_enum_container lines fuel index lsb msb = .ok (c, j)) :
    index ≤ j := by
  unfold SVDConvParser.parse_enum_container at h
  by_cases hlt : index < lines.length
  case neg => rw [dif_neg hlt] at h; exact Except.noConfusion h
  rw [dif_pos hlt] at h
  cases hckv : collect_kv stop_container lines fuel (index + 1) [] with
  | mk data i1 =>
  rw [hckv] at h
  dsimp only at h
  cases h1 : get_enum_usage (dictGetD data (S "usage") (S "")) with
  | error e => rw [h1] at h; exact Except.noConfusion h
  | ok usage =>
  rw [h1, except_bind_ok] at h
  cases h2 : SVDConvParser.enum_values_loop lines fuel i1 [] with
  | error e => rw [h2] at h; exact Except.noConfusion h
  | ok evs_i2 =>
  rw [h2] at h
  cases evs_i2 with
  | mk evs i2 =>
  dsimp only [except_bind_ok] at h
  obtain ⟨-, hj⟩ := Prod.mk.inj (Except.ok.inj h)
  have hg1 : index + 1 ≤ i1 := by
    have := collect_kv_ge stop_container lines fuel (index + 1) []
    rw [hckv] at this
    exact this
  have hg2 := enum_values_loop_ge lines fuel i1 [] evs i2 h2
  omega

end SVD

namespace SVD

theorem field_containers_loop_ge (lines : List Str) (lsb msb : Int) :
    ∀ (fuel index : Nat) (acc cs : List EnumeratedValueContainer) (j : Nat),
      SVDConvParser.field_containers_loop lines lsb msb fuel index acc = .ok (cs, j) →
      index ≤ j
  | 0, _, _, _, _, h => Except.noConfusion h
  | fuel + 1, index, acc, cs, j, h => by
    unfold SVDConvParser.field_containers_loop at h
    by_cases hlt : index < lines.length
    case neg =>
      rw [dif_neg hlt] at h
      obtain ⟨-, hj⟩ := Prod.mk.inj (Except.ok.inj h)
      omega
    rw [dif_pos hlt] at h
    by_cases hstart : startsWithL (S "=== Enum Container:") (pyStrip lines[index]) = true
    case neg =>
      rw [if_neg hstart] at h
      obtain ⟨-, hj⟩ := Prod.mk.inj (Except.ok.inj h)
      omega
    rw [if_pos hstart] at h
    cases hec : SVDConvParser.parse_enum_container lines fuel index lsb msb with
    | error e => rw [hec] at h; exact Except.noConfusion h
    | ok ec_i =>
    rw [hec] at h
    cases ec_i with
    | mk ec i2 =>
    dsimp only [except_bind_ok] at h
    exact Nat.le_trans (parse_enum_container_ge lines fuel index lsb msb ec i2 hec)
      (field_containers_loop_ge lines lsb msb fuel i2 (acc ++ [ec]) cs j h)

theorem parse_field_ge (lines : List Str) (fuel index : Nat) (f : Field) (j : Nat)
    (h : SVDConvParser.parse_field lines fuel index = .ok (f, j)) : index + 1 ≤ j := by
  unfold SVDConvParser.parse_field at h
  by_cases hlt : index < lines.length
  case neg => rw [dif_neg hlt] at h; exact Except.noConfusion h
  rw [dif_pos hlt] at h
  cases hckv : collect_kv stop_field lines fuel (index + 1) [] with
  | mk data i1 =>
  rw [hckv] at h
  dsimp only at h
  cases h1 : pyIntE 10 (dictGetD data (S "bitOffset") (S "0")) with
  | error e => rw [h1] at h; exact Except.noConfusion h
  | ok bit_offset =>
  rw [h1, except_bind_ok] at h
  cases h2 : pyIntE 10 (dictGetD data (S "bitWidth") (S "0")) with
  | error e => rw [h2] at h; exact Except.noConfusion h
  | ok bit_width =>
  rw [h2, except_bind_ok] at h
  cases h3 : get_access_type (dictGetD data (S "access") (S "")) with
  | error e => rw [h3] at h; exact Except.noConfusion h
  | ok access =>
  rw [h3, except_bind_ok] at h
  cases h4 : get_modified_write_value (dictGetD data (S "modifiedWriteValues") (S "")) with
  | error e => rw [h4] at h; exact Except.noConfusion h
  | ok mwv =>
  rw [h4, except_bind_ok] at h
  cases h5 : get_read_action (dictGetD data (S "readAction") (S "")) with
  | error e => rw [h5] at h; exact Except.noConfusion h
  | ok ra =>
  rw [h5, except_bind_ok] at h
  cases h6 : SVDConvParser.field_containers_loop lines bit_offset (bit_offset + bit_width - 1)
      fuel i1 [] with
  | error e => rw [h6] at h; exact Except.noConfusion h
  | ok cs_i2 =>
  rw [h6] at h
  cases cs_i2 with
  | mk containers i2 =>
  dsimp only [except_bind_ok] at h
  obtain ⟨-, hj⟩ := Prod.mk.inj (Except.ok.inj h)
  have hg1 : index + 1 ≤ i1 := by
    have := collect_kv_ge stop_field lines fuel (index + 1) []
    rw [hckv] at this
    exact this
  have hg2 := field_containers_loop_ge lines bit_offset (bit_offset + bit_width - 1)
    fuel i1 [] containers i2 h6
  omega

theorem register_fields_loop_ge (lines : List Str) :
    ∀ (fuel index : Nat) (acc fs : List Field) (j : Nat),
      SVDConvParser.register_fields_loop lines fuel index acc = .ok (fs, j) → index ≤ j
  | 0, _, _, _, _, h => Except.noConfusion h
  | fuel + 1, index, acc, fs, j, h => by
    unfold SVDConvParser.register_fields_loop at h
    by_cases hlt : index < lines.length
    case neg =>
      rw [dif_neg hlt] at h
      obtain ⟨-, hj⟩ := Prod.mk.inj (Except.ok.inj h)
      omega
    rw [dif_pos hlt] at h
    by_cases hstart : startsWithL (S "=== Field") (pyStrip lines[index]) = true
    case neg =>
      rw [if_neg hstart] at h
      obtain ⟨-, hj⟩ := Prod.mk.inj (Except.ok.inj h)
      omega
    rw [if_pos hstart] at h
    cases hpf : SVDConvParser.parse_field lines fuel index with
    | error e => rw [hpf] at h; exact Except.noConfusion h
    | ok f_i =>
    rw [hpf] at h
    cases f_i with
    | mk f i2 =>
    dsimp only [except_bind_ok] at h
    have := parse_field_ge lines fuel index f i2 hpf
    have := register_fields_loop_ge lines fuel i2 (acc ++ [f]) fs j h
    omega

theorem parse_register_ge (lines : List Str) (fuel index : Nat) (reg : Register) (j : Nat)
    (h : SVDConvParser.parse_register lines fuel index = .ok (reg, j)) : index + 1 ≤ j := by
  unfold SVDConvParser.parse_register at h
  by_cases hlt : index < lines.length
  case neg => rw [dif_neg hlt] at h; exact Except.noConfusion h
  rw [dif_pos hlt] at h
  cases hrd : SVDConvParser.register_data lines fuel index with
  | mk data i1 =>
  rw [hrd] at h
  dsimp only at h
  cases h1 : SVDConvParser.hexAttr data (S "addressOffset") with
  | error e => rw [h1] at h; exact Except.noConfusion h
  | ok address_offset =>
  rw [h1, except_bind_ok] at h
  cases h2 : get_data_type (dictGetD data (S "dataType") (S "")) with
  | error e => rw [h2] at h; exact Except.noConfusion h
  | ok data_type =>
  rw [h2, except_bind_ok] at h
  cases h3 : get_modified_write_value (dictGetD data (S "modifiedWriteValues") (S "")) with
  | error e => rw [h3] at h; exact Except.noConfusion h
  | ok mwv =>
  rw [h3, except_bind_ok] at h
  cases h4 : get_read_action (dictGetD data (S "readAction") (S "")) with
  | error e => rw [h4] at h; exact Except.noConfusion h
  | ok ra =>
  rw [h4, except_bind_ok] at h
  cases h5 : pyIntE 10 (dictGetD data (S "size effective") (S "0")) with
  | error e => rw [h5] at h; exact Except.noConfusion h
  | ok size =>
  rw [h5, except_bind_ok] at h
  cases h6 : get_access_type (dictGetD data (S "access") (S "")) with
  | error e => rw [h6] at h; exact Except.noConfusion h
  | ok access =>
  rw [h6, except_bind_ok] at h
  cases h7 : get_protection_type (dictGetD data (S "protection") (S "")) with
  | error e => rw [h7] at h; exact Except.noConfusion h
  | ok protection =>
  rw [h7, except_bind_ok] at h
  cases h8 : SVDConvParser.hexAttr data (S "resetValue") with
  | error e => rw [h8] at h; exact Except.noConfusion h
  | ok reset_value =>
  rw [h8, except_bind_ok] at h
  cases h9 : SVDConvParser.hexAttr data (S "resetMask") with
  | error e => rw [h9] at h; exact Except.noConfusion h
  | ok reset_mask =>
  rw [h9, except_bind_ok] at h
  cases h10 : SVDConvParser.hexAttr data (S "Absolute Address") with
  | error e => rw [h10] at h; exact Except.noConfusion h
  | ok base_address =>
  rw [h10, except_bind_ok] at h
  cases h11 : SVDConvParser.register_fields_loop lines fuel i1 [] with
  | error e => rw [h11] at h; exact Except.noConfusion h
  | ok fields_i2 =>
  rw [h11] at h
  cases fields_i2 with
  | mk fields i2 =>
  dsimp only [except_bind_ok] at h
  obtain ⟨-, hj⟩ := Prod.mk.inj (Except.ok.inj h)
  have hg1 : index + 1 ≤ i1 := by
    have := collect_kv_ge stop_marker lines fuel (index + 1) []
    have heq : SVDConvParser.register_data lines fuel index =
        collect_kv stop_marker lines fuel (index + 1) [] := rfl
    rw [← heq, hrd] at this
    exact this
  have hg2 := register_fields_loop_ge lines fuel i1 [] fields i2 h11
  omega

end SVD

namespace SVD

/-! #### Depth bookkeeping for the cluster-termination claim

`depthAt?` is the indentation depth `get_current_depth` assigns to a line
(`none` when it would raise); the boolean helpers below package the
well-nestedness side conditions so that they are decidable on concrete
inputs. -/

/-- The depth of line `k`, `none` when `get_current_depth` raises. -/
def depthAt? (lines : List Str) (k : Nat) : Option Nat :=
  match SVDConvParser.get_current_depth (lineAt lines k) with
  | .ok e => some e
  | .error _ => none

/-- Line `k` is a marker of depth strictly greater than `d`. -/
def markerDeeper (lines : List Str) (d k : Nat) : Bool :=
  match depthAt? lines k with
  | some e => decide (d < e)
  | none => false

/-- Lines `k1` and `k2` both have a well-formed depth and it is equal. -/
def sameDepth (lines : List Str) (k1 k2 : Nat) : Bool :=
  match depthAt? lines k1, depthAt? lines k2 with
  | some a, some b => a == b
  | _, _ => false

/-- Marker `k2` lies strictly deeper than line `k`. -/
def deeperThanAt (lines : List Str) (k k2 : Nat) : Bool :=
  match depthAt? lines k, depthAt? lines k2 with
  | some a, some b => decide (a < b)
  | _, _ => false

/-- Line `k` starts (after stripping) with a `=== Cluster` header. -/
def isClusterHeaderAt (lines : List Str) (k : Nat) : Bool :=
  startsWithL (S "=== Cluster") (pyStrip (lineAt lines k))

/-- Line `k` is neither a `=== Field` nor a `=== Enum Container:` header
(the two marker forms that the field/enum-container loops would consume
regardless of depth). -/
def formOK (lines : List Str) (k : Nat) : Bool :=
  !(startsWithL (S "=== Field") (pyStrip (lineAt lines k))) &&
  !(startsWithL (S "=== Enum Container:") (pyStrip (lineAt lines k)))

/-- All markers strictly between `lo` and `j0` are well indented at depth
strictly greater than `d`. -/
def markersDeeper (lines : List Str) (lo j0 d : Nat) : Prop :=
  ∀ k, k < j0 → lo < k → isMarkerAt lines k = true → markerDeeper lines d k = true

/-- Every `=== Cluster` header strictly between `lo` and `j0` has a
matching terminator before `j0`: a marker at the header's own depth, of a
form no inner loop consumes, with every marker in between strictly
deeper. -/
def clusterTerminated (lines : List Str) (lo j0 : Nat) : Prop :=
  ∀ k, k < j0 → lo < k → isClusterHeaderAt lines k = true →
    ∃ m, m < j0 ∧ k < m ∧ isMarkerAt lines m = true ∧ sameDepth lines k m = true ∧
      formOK lines m = true ∧
      ∀ k2, k2 < m → k < k2 → isMarkerAt lines k2 = true → deeperThanAt lines k k2 = true

/-! #### Prefix facts about marker lines -/

theorem startsWithL_append (p q s : Str) (h : startsWithL (p ++ q) s = true) :
    startsWithL p s = true := by
  induction p generalizing s with
  | nil => rfl
  | cons a ps ih =>
    cases s with
    | nil => exact absurd h (by simp [startsWithL])
    | cons c cs =>
      have h' : (a == c && startsWithL (ps ++ q) cs) = true := h
      rw [Bool.and_eq_true] at h'
      obtain ⟨h1, h2⟩ := h'
      show (a == c && startsWithL ps cs) = true
      rw [h1, ih cs h2, Bool.and_self]

/-- A `===` marker line does not start with `Enum:`. -/
theorem marker_not_enum (s : Str) (h : startsWithL (S "===") s = true) :
    startsWithL (S "Enum:") s = false := by
  cases s with
  | nil => exact absurd h (by decide)
  | cons c cs =>
    have h1 : (('=' == c) && startsWithL (S "==") cs) = true := h
    rw [Bool.and_eq_true] at h1
    obtain ⟨hc, -⟩ := h1
    have hc' : c = '=' := (beq_iff_eq.mp hc).symm
    subst hc'
    show (('E' == '=') && startsWithL (S "num:") cs) = false
    rw [show (('E' == '=') : Bool) = false from rfl, Bool.false_and]

end SVD

namespace SVD

/-! #### Upper bounds: no inner loop consumes a designated marker line -/

theorem stop_field_of_marker (line : Str)
    (h : startsWithL (S "===") (pyStrip line) = true) : stop_field line = true := by
  unfold stop_field; rw [h, Bool.or_true]

theorem stop_container_of_marker (line : Str)
    (h : startsWithL (S "===") (pyStrip line) = true) : stop_container line = true := by
  unfold stop_container; rw [h]; simp

theorem stop_enum_of_marker (line : Str)
    (h : startsWithL (S "===") (pyStrip line) = true) : stop_enum line = true := by
  unfold stop_enum; rw [h]; simp

theorem collect_kv_le (stop : Str → Bool) (lines : List Str) (j0 : Nat)
    (hj : j0 < lines.length) (hstop : stop lines[j0] = true) :
    ∀ (fuel index : Nat) (data : Dict), index ≤ j0 →
      (collect_kv stop lines fuel index data).2 ≤ j0
  | 0, _, _, hle => hle
  | fuel + 1, index, data, hle => by
    unfold collect_kv
    by_cases hlt : index < lines.length
    case neg => rw [dif_neg hlt]; exact hle
    rw [dif_pos hlt]
    by_cases hs : stop lines[index] = true
    case pos => rw [if_pos hs]; exact hle
    rw [if_neg hs]
    have hle' : index + 1 ≤ j0 := by
      by_contra hcon
      have hx : index = j0 := by omega
      subst hx
      exact hs hstop
    cases hkv : keyVal (pyStrip lines[index]) with
    | some kv =>
      exact collect_kv_le stop lines j0 hj hstop fuel (index + 1) (dictSet data kv.1 kv.2) hle'
    | none => exact collect_kv_le stop lines j0 hj hstop fuel (index + 1) data hle'

theorem parse_enum_le (lines : List Str) (j0 : Nat)
    (hj : j0 < lines.length) (hmark : startsWithL (S "===") (pyStrip lines[j0]) = true)
    (fuel index : Nat) (hle : index ≤ j0) :
    (SVDConvParser.parse_enum lines fuel index).2 ≤ j0 := by
  unfold SVDConvParser.parse_enum
  by_cases hlt : index < lines.length
  case neg => rw [dif_neg hlt]; exact hle
  rw [dif_pos hlt]
  by_cases he : startsWithL (S "Enum:") (pyStrip lines[index]) = true
  case neg => rw [if_pos he]; exact hle
  rw [if_neg (not_not_intro he)]
  have hne : index ≠ j0 := by
    intro hx
    subst hx
    rw [marker_not_enum _ hmark] at he
    exact Bool.noConfusion he
  cases hckv : collect_kv stop_enum lines fuel (index + 1) [] with
  | mk data i1 =>
  dsimp only
  have := collect_kv_le stop_enum lines j0 hj (stop_enum_of_marker _ hmark) fuel (index + 1) []
    (by omega)
  rw [hckv] at this
  exact this

theorem enum_values_loop_le (lines : List Str) (j0 : Nat)
    (hj : j0 < lines.length) (hmark : startsWithL (S "===") (pyStrip lines[j0]) = true) :
    ∀ (fuel index : Nat) (acc evs : List EnumeratedValue) (j : Nat), index ≤ j0 →
      SVDConvParser.enum_values_loop lines fuel index acc = .ok (evs, j) → j ≤ j0
  | 0, _, _, _, _, _, h => Except.noConfusion h
  | fuel + 1, index, acc, evs, j, hle, h => by
    unfold SVDConvParser.enum_values_loop at h
    by_cases hlt : index < lines.length
    case neg =>
      rw [dif_neg hlt] at h
      obtain ⟨-, hj'⟩ := Prod.mk.inj (Except.ok.inj h)
      omega
    rw [dif_pos hlt] at h
    by_cases he : startsWithL (S "Enum:") (pyStrip lines[index]) = true
    case neg =>
      rw [if_neg he] at h
      obtain ⟨-, hj'⟩ := Prod.mk.inj (Except.ok.inj h)
      omega
    rw [if_pos he] at h
    have hle2 : (SVDConvParser.parse_enum lines fuel index).2 ≤ j0 :=
      parse_enum_le lines j0 hj hmark fuel index hle
    cases hpe : SVDConvParser.parse_enum lines fuel index with
    | mk eo i1 =>
    rw [hpe] at h hle2
    cases eo with
    | some e => exact enum_values_loop_le lines j0 hj hmark fuel i1 (acc ++ [e]) evs j hle2 h
    | none => exact enum_values_loop_le lines j0 hj hmark fuel i1 acc evs j hle2 h

theorem parse_enum_container_le (lines : List Str) (j0 : Nat)
    (hj : j0 < lines.length) (hmark : startsWithL (S "===") (pyStrip lines[j0]) = true)
    (fuel index : Nat) (lsb msb : Int) (ec : EnumeratedValueContainer) (j : Nat)
    (hlt0 : index < j0)
    (h : SVDConvParser.parse_enum_container lines fuel index lsb msb = .ok (ec, j)) :
    j ≤ j0 := by
  unfold SVDConvParser.parse_enum_container at h
  by_cases hlt : index < lines.length
  case neg => rw [dif_neg hlt] at h; exact Except.noConfusion h
  rw [dif_pos hlt] at h
  cases hckv : collect_kv stop_container lines fuel (index + 1) [] with
  | mk data i1 =>
  rw [hckv] at h
  dsimp only at h
  cases h1 : get_enum_usage (dictGetD data (S "usage") (S "")) with
  | error e => rw [h1] at h; exact Except.noConfusion h
  | ok usage =>
  rw [h1, except_bind_ok] at h
  cases h2 : SVDConvParser.enum_values_loop lines fuel i1 [] with
  | error e => rw [h2] at h; exact Except.noConfusion h
  | ok evs_i2 =>
  rw [h2] at h
  cases evs_i2 with
  | mk evs i2 =>
  dsimp only [except_bind_ok] at h
  obtain ⟨-, hj'⟩ := Prod.mk.inj (Except.ok.inj h)
  have hb1 : i1 ≤ j0 := by
    have := collect_kv_le stop_container lines j0 hj (stop_container_of_marker _ hmark)
      fuel (index + 1) [] (by omega)
    rw [hckv] at this
    exact this
  have hb2 := enum_values_loop_le lines j0 hj hmark fuel i1 [] evs i2 hb1 h2
  omega

end SVD

namespace SVD

theorem field_containers_loop_le (lines : List Str) (j0 : Nat) (lsb msb : Int)
    (hj : j0 < lines.length) (hmark : startsWithL (S "===") (pyStrip lines[j0]) = true)
    (hnc : startsWithL (S "=== Enum Container:") (pyStrip lines[j0]) = false) :
    ∀ (fuel index : Nat) (acc cs : List EnumeratedValueContainer) (j : Nat), index ≤ j0 →
      SVDConvParser.field_containers_loop lines lsb msb fuel index acc = .ok (cs, j) →
      j ≤ j0
  | 0, _, _, _, _, _, h => Except.noConfusion h
  | fuel + 1, index, acc, cs, j, hle, h => by
    unfold SVDConvParser.field_containers_loop at h
    by_cases hlt : index < lines.length
    case neg =>
      rw [dif_neg hlt] at h
      obtain ⟨-, hj'⟩ := Prod.mk.inj (Except.ok.inj h)
      omega
    rw [dif_pos hlt] at h
    by_cases hstart : startsWithL (S "=== Enum Container:") (pyStrip lines[index]) = true
    case neg =>
      rw [if_neg hstart] at h
      obtain ⟨-, hj'⟩ := Prod.mk.inj (Except.ok.inj h)
      omega
    rw [if_pos hstart] at h
    have hlt0 : index < j0 := by
      rcases Nat.lt_or_ge index j0 with h1 | h1
      · exact h1
      · have hx : index = j0 := by omega
        subst hx
        rw [hnc] at hstart
        exact Bool.noConfusion hstart
    cases hec : SVDConvParser.parse_enum_container lines fuel index lsb msb with
    | error e => rw [hec] at h; exact Except.noConfusion h
    | ok ec_i =>
    rw [hec] at h
    cases ec_i with
    | mk ec i2 =>
    dsimp only [except_bind_ok] at h
    have hb := parse_enum_container_le lines j0 hj hmark fuel index lsb msb ec i2 hlt0 hec
    exact field_containers_loop_le lines j0 lsb msb hj hmark hnc fuel i2 (acc ++ [ec]) cs j hb h

theorem parse_field_le (lines : List Str) (j0 : Nat)
    (hj : j0 < lines.length) (hmark : startsWithL (S "===") (pyStrip lines[j0]) = true)
    (hnc : startsWithL (S "=== Enum Container:") (pyStrip lines[j0]) = false)
    (fuel index : Nat) (f : Field) (j : Nat) (hlt0 : index < j0)
    (h : SVDConvParser.parse_field lines fuel index = .ok (f, j)) : j ≤ j0 := by
  unfold SVDConvParser.parse_field at h
  by_cases hlt : index < lines.length
  case neg => rw [dif_neg hlt] at h; exact Except.noConfusion h
  rw [dif_pos hlt] at h
  cases hckv : collect_kv stop_field lines fuel (index + 1) [] with
  | mk data i1 =>
  rw [hckv] at h
  dsimp only at h
  cases h1 : pyIntE 10 (dictGetD data (S "bitOffset") (S "0")) with
  | error e => rw [h1] at h; exact Except.noConfusion h
  | ok bit_offset =>
  rw [h1, except_bind_ok] at h
  cases h2 : pyIntE 10 (dictGetD data (S "bitWidth") (S "0")) with
  | error e => rw [h2] at h; exact Except.noConfusion h
  | ok bit_width =>
  rw [h2, except_bind_ok] at h
  cases h3 : get_access_type (dictGetD data (S "access") (S "")) with
  | error e => rw [h3] at h; exact Except.noConfusion h
  | ok access =>
  rw [h3, except_bind_ok] at h
  cases h4 : get_modified_write_value (dictGetD data (S "modifiedWriteValues") (S "")) with
  | error e => rw [h4] at h; exact Except.noConfusion h
  | ok mwv =>
  rw [h4, except_bind_ok] at h
  cases h5 : get_read_action (dictGetD data (S "readAction") (S "")) with
  | error e => rw [h5] at h; exact Except.noConfusion h
  | ok ra =>
  rw [h5, except_bind_ok] at h
  cases h6 : SVDConvParser.field_containers_loop lines bit_offset (bit_offset + bit_width - 1)
      fuel i1 [] with
  | error e => rw [h6] at h; exact Except.noConfusion h
  | ok cs_i2 =>
  rw [h6] at h
  cases cs_i2 with
  | mk containers i2 =>
  dsimp only [except_bind_ok] at h
  obtain ⟨-, hj'⟩ := Prod.mk.inj (Except.ok.inj h)
  have hb1 : i1 ≤ j0 := by
    have := collect_kv_le stop_field lines j0 hj (stop_field_of_marker _ hmark)
      fuel (index + 1) [] (by omega)
    rw [hckv] at this
    exact this
  have hb2 := field_containers_loop_le lines j0 bit_offset (bit_offset + bit_width - 1)
    hj hmark hnc fuel i1 [] containers i2 hb1 h6
  omega

theorem register_fields_loop_le (lines : List Str) (j0 : Nat)
    (hj : j0 < lines.length) (hmark : startsWithL (S "===") (pyStrip lines[j0]) = true)
    (hnf : startsWithL (S "=== Field") (pyStrip lines[j0]) = false)
    (hnc : startsWithL (S "=== Enum Container:") (pyStrip lines[j0]) = false) :
    ∀ (fuel index : Nat) (acc fs : List Field) (j : Nat), index ≤ j0 →
      SVDConvParser.register_fields_loop lines fuel index acc = .ok (fs, j) → j ≤ j0
  | 0, _, _, _, _, _, h => Except.noConfusion h
  | fuel + 1, index, acc, fs, j, hle, h => by
    unfold SVDConvParser.register_fields_loop at h
    by_cases hlt : index < lines.length
    case neg =>
      rw [dif_neg hlt] at h
      obtain ⟨-, hj'⟩ := Prod.mk.inj (Except.ok.inj h)
      omega
    rw [dif_pos hlt] at h
    by_cases hstart : startsWithL (S "=== Field") (pyStrip lines[index]) = true
    case neg =>
      rw [if_neg hstart] at h
      obtain ⟨-, hj'⟩ := Prod.mk.inj (Except.ok.inj h)
      omega
    rw [if_pos hstart] at h
    have hlt0 : index < j0 := by
      rcases Nat.lt_or_ge index j0 with h1 | h1
      · exact h1
      · have hx : index = j0 := by omega
        subst hx
        rw [hnf] at hstart
        exact Bool.noConfusion hstart
    cases hpf : SVDConvParser.parse_field lines fuel index with
    | error e => rw [hpf] at h; exact Except.noConfusion h
    | ok f_i =>
    rw [hpf] at h
    cases f_i with
    | mk f i2 =>
    dsimp only [except_bind_ok] at h
    have hb := parse_field_le lines j0 hj hmark hnc fuel index f i2 hlt0 hpf
    exact register_fields_loop_le lines j0 hj hmark hnf hnc fuel i2 (acc ++ [f]) fs j hb h

theorem parse_register_le (lines : List Str) (j0 : Nat)
    (hj : j0 < lines.length) (hmark : startsWithL (S "===") (pyStrip lines[j0]) = true)
    (hnf : startsWithL (S "=== Field") (pyStrip lines[j0]) = false)
    (hnc : startsWithL (S "=== Enum Container:") (pyStrip lines[j0]) = false)
    (fuel index : Nat) (reg : Register) (j : Nat) (hlt0 : index < j0)
    (h : SVDConvParser.parse_register lines fuel index = .ok (reg, j)) : j ≤ j0 := by
  unfold SVDConvParser.parse_register at h
  by_cases hlt : index < lines.length
  case neg => rw [dif_neg hlt] at h; exact Except.noConfusion h
  rw [dif_pos hlt] at h
  cases hrd : SVDConvParser.register_data lines fuel index with
  | mk data i1 =>
  rw [hrd] at h
  dsimp only at h
  cases h1 : SVDConvParser.hexAttr data (S "addressOffset") with
  | error e => rw [h1] at h; exact Except.noConfusion h
  | ok address_offset =>
  rw [h1, except_bind_ok] at h
  cases h2 : get_data_type (dictGetD data (S "dataType") (S "")) with
  | error e => rw [h2] at h; exact Except.noConfusion h
  | ok data_type =>
  rw [h2, except_bind_ok] at h
  cases h3 : get_modified_write_value (dictGetD data (S "modifiedWriteValues") (S "")) with
  | error e => rw [h3] at h; exact Except.noConfusion h
  | ok mwv =>
  rw [h3, except_bind_ok] at h
  cases h4 : get_read_action (dictGetD data (S "readAction") (S "")) with
  | error e => rw [h4] at h; exact Except.noConfusion h
  | ok ra =>
  rw [h4, except_bind_ok] at h
  cases h5 : pyIntE 10 (dictGetD data (S "size effective") (S "0")) with
  | error e => rw [h5] at h; exact Except.noConfusion h
  | ok size =>
  rw [h5, except_bind_ok] at h
  cases h6 : get_access_type (dictGetD data (S "access") (S "")) with
  | error e => rw [h6] at h; exact Except.noConfusion h
  | ok access =>
  rw [h6, except_bind_ok] at h
  cases h7 : get_protection_type (dictGetD data (S "protection") (S "")) with
  | error e => rw [h7] at h; exact Except.noConfusion h
  | ok protection =>
  rw [h7, except_bind_ok] at h
  cases h8 : SVDConvParser.hexAttr data (S "resetValue") with
  | error e => rw [h8] at h; exact Except.noConfusion h
  | ok reset_value =>
  rw [h8, except_bind_ok] at h
  cases h9 : SVDConvParser.hexAttr data (S "resetMask") with
  | error e => rw [h9] at h; exact Except.noConfusion h
  | ok reset_mask =>
  rw [h9, except_bind_ok] at h
  cases h10 : SVDConvParser.hexAttr data (S "Absolute Address") with
  | error e => rw [h10] at h; exact Except.noConfusion h
  | ok base_address =>
  rw [h10, except_bind_ok] at h
  cases h11 : SVDConvParser.register_fields_loop lines fuel i1 [] with
  | error e => rw [h11] at h; exact Except.noConfusion h
  | ok fields_i2 =>
  rw [h11] at h
  cases fields_i2 with
  | mk fields i2 =>
  dsimp only [except_bind_ok] at h
  obtain ⟨-, hj'⟩ := Prod.mk.inj (Except.ok.inj h)
  have hb1 : i1 ≤ j0 := by
    have := collect_kv_le stop_marker lines j0 hj hmark fuel (index + 1) [] (by omega)
    have heq : SVDConvParser.register_data lines fuel index =
        collect_kv stop_marker lines fuel (index + 1) [] := rfl
    rw [← heq, hrd] at this
    exact this
  have hb2 := register_fields_loop_le lines j0 hj hmark hnf hnc fuel i1 [] fields i2 hb1 h11
  omega

end SVD

namespace SVD

/-! #### Exit characterization of the cluster child loop -/

theorem cluster_children_loop_exit (lines : List Str) :
    ∀ (fuel index d : Nat) (acc rcs : List RegisterCluster) (j : Nat),
      SVDConvParser.cluster_children_loop lines fuel index d acc = .ok (rcs, j) →
      lines.length ≤ j ∨
        (j < lines.length ∧ isMarkerAt lines j = true ∧
          SVDConvParser.get_current_depth (lineAt lines j) = .ok d)
  | 0, _, _, _, _, _, h => Except.noConfusion h
  | fuel + 1, index, d, acc, rcs, j, h => by
    unfold SVDConvParser.cluster_children_loop at h
    by_cases hlt : index < lines.length
    case neg =>
      rw [dif_neg hlt] at h
      obtain ⟨-, hj⟩ := Prod.mk.inj (Except.ok.inj h)
      left
      omega
    rw [dif_pos hlt] at h
    by_cases hm : startsWithL (S "===") (pyStrip lines[index]) = true
    case neg =>
      rw [if_neg hm] at h
      exact cluster_children_loop_exit lines fuel (index + 1) d acc rcs j h
    rw [if_pos hm] at h
    cases hd : SVDConvParser.get_current_depth lines[index] with
    | error e => rw [hd] at h; exact Except.noConfusion h
    | ok e =>
    rw [hd, except_bind_ok] at h
    by_cases hed : e = d
    case pos =>
      rw [if_pos hed] at h
      obtain ⟨-, hj⟩ := Prod.mk.inj (Except.ok.inj h)
      subst hj
      refine Or.inr ⟨hlt, ?_, ?_⟩
      · unfold isMarkerAt
        rw [lineAt_eq_getElem lines index hlt]
        exact hm
      · rw [lineAt_eq_getElem lines index hlt]
        exact hed ▸ hd
    rw [if_neg hed] at h
    cases hrc : SVDConvParser.parse_register_or_cluster lines fuel index with
    | error e2 => rw [hrc] at h; exact Except.noConfusion h
    | ok el_i =>
    rw [hrc] at h
    cases el_i with
    | mk el i1 =>
    dsimp only [except_bind_ok] at h
    cases el with
    | some e2 => exact cluster_children_loop_exit lines fuel i1 d (acc ++ [e2]) rcs j h
    | none => exact cluster_children_loop_exit lines fuel i1 d acc rcs j h

/-- Decomposition of a successful `parse_cluster` run: the header depth it
computed, the attribute scan it performed, and the child loop whose final
index is the returned index. -/
theorem parse_cluster_shape (lines : List Str) (fuel i : Nat) (rc : RegisterCluster)
    (j : Nat)
    (h : SVDConvParser.parse_cluster lines (fuel + 1) i = .ok (rc, j)) :
    i < lines.length ∧
      ∃ d i1 rcs, SVDConvParser.get_current_depth (lineAt lines i) = .ok d ∧
        (SVDConvParser.cluster_data lines fuel i).2 = i1 ∧
        SVDConvParser.cluster_children_loop lines fuel i1 d [] = .ok (rcs, j) := by
  unfold SVDConvParser.parse_cluster at h
  by_cases hlt : i < lines.length
  case neg => rw [dif_neg hlt] at h; exact Except.noConfusion h
  rw [dif_pos hlt] at h
  refine ⟨hlt, ?_⟩
  rw [← lineAt_eq_getElem lines i hlt] at h
  cases hd : SVDConvParser.get_current_depth (lineAt lines i) with
  | error e => rw [hd] at h; exact Except.noConfusion h
  | ok d =>
  rw [hd, except_bind_ok] at h
  cases hcd : SVDConvParser.cluster_data lines fuel i with
  | mk data i1 =>
  rw [hcd] at h
  dsimp only at h
  cases hcl : SVDConvParser.cluster_children_loop lines fuel i1 d [] with
  | error e => rw [hcl] at h; exact Except.noConfusion h
  | ok rcs_i2 =>
  rw [hcl] at h
  cases rcs_i2 with
  | mk rcs i2 =>
  dsimp only [except_bind_ok] at h
  cases h1 : SVDConvParser.hexAttr data (S "addressOffset") with
  | error e => rw [h1] at h; exact Except.noConfusion h
  | ok address_offset =>
  rw [h1, except_bind_ok] at h
  cases h2 : pyIntE 10 (dictGetD data (S "size effective") (S "0")) with
  | error e => rw [h2] at h; exact Except.noConfusion h
  | ok size =>
  rw [h2, except_bind_ok] at h
  cases h3 : get_access_type (dictGetD data (S "access") (S "")) with
  | error e => rw [h3] at h; exact Except.noConfusion h
  | ok access =>
  rw [h3, except_bind_ok] at h
  cases h4 : get_protection_type (dictGetD data (S "protection") (S "")) with
  | error e => rw [h4] at h; exact Except.noConfusion h
  | ok protection =>
  rw [h4, except_bind_ok] at h
  cases h5 : SVDConvParser.hexAttr data (S "resetValue") with
  | error e => rw [h5] at h; exact Except.noConfusion h
  | ok reset_value =>
  rw [h5, except_bind_ok] at h
  cases h6 : SVDConvParser.hexAttr data (S "resetMask") with
  | error e => rw [h6] at h; exact Except.noConfusion h
  | ok reset_mask =>
  rw [h6, except_bind_ok] at h
  cases h7 : SVDConvParser.hexAttr data (S "Absolute Address") with
  | error e => rw [h7] at h; exact Except.noConfusion h
  | ok base_address =>
  rw [h7, except_bind_ok] at h
  obtain ⟨-, hj⟩ := Prod.mk.inj (Except.ok.inj h)
  subst hj
  exact ⟨d, i1, rcs, rfl, rfl, hcl⟩

/-- Exit characterization of `parse_cluster`: a successful parse returns
either the end of the input or the position of an unconsumed `===` marker
whose indentation depth equals the cluster's own header depth. -/
theorem parse_cluster_exit (lines : List Str) (fuel i : Nat) (rc : RegisterCluster)
    (j : Nat)
    (h : SVDConvParser.parse_cluster lines fuel i = .ok (rc, j)) :
    ∃ d, i < lines.length ∧
      SVDConvParser.get_current_depth (lineAt lines i) = .ok d ∧
      (lines.length ≤ j ∨
        (j < lines.length ∧ isMarkerAt lines j = true ∧
          SVDConvParser.get_current_depth (lineAt lines j) = .ok d)) := by
  cases fuel with
  | zero => exact Except.noConfusion h
  | succ fuel =>
  obtain ⟨hlt, d, i1, rcs, hd, hi1, hcl⟩ := parse_cluster_shape lines fuel i rc j h
  exact ⟨d, hlt, hd, cluster_children_loop_exit lines fuel i1 d [] rcs j hcl⟩

end SVD

namespace SVD

/-! #### Unpacking the decidable well-nestedness side conditions -/

theorem get_depth_of_depthAt? (lines : List Str) (k e : Nat)
    (h : depthAt? lines k = some e) :
    SVDConvParser.get_current_depth (lineAt lines k) = .ok e := by
  unfold depthAt? at h
  cases hg : SVDConvParser.get_current_depth (lineAt lines k) with
  | ok e2 =>
    rw [hg] at h
    have h' : some e2 = some e := h
    rw [Option.some.inj h']
  | error s => rw [hg] at h; exact Option.noConfusion h

theorem depthAt?_of_get_depth (lines : List Str) (k e : Nat)
    (h : SVDConvParser.get_current_depth (lineAt lines k) = .ok e) :
    depthAt? lines k = some e := by
  unfold depthAt?
  rw [h]

theorem markerDeeper_spec (lines : List Str) (d k : Nat)
    (h : markerDeeper lines d k = true) :
    ∃ e, depthAt? lines k = some e ∧ d < e := by
  unfold markerDeeper at h
  cases hg : depthAt? lines k with
  | some e => rw [hg] at h; exact ⟨e, rfl, of_decide_eq_true h⟩
  | none => rw [hg] at h; exact Bool.noConfusion h

theorem sameDepth_spec (lines : List Str) (k m : Nat)
    (h : sameDepth lines k m = true) :
    ∃ e, depthAt? lines k = some e ∧ depthAt? lines m = some e := by
  unfold sameDepth at h
  cases hg1 : depthAt? lines k with
  | none => rw [hg1] at h; exact Bool.noConfusion h
  | some a =>
  cases hg2 : depthAt? lines m with
  | none => rw [hg1, hg2] at h; exact Bool.noConfusion h
  | some b =>
    rw [hg1, hg2] at h
    have h' : (a == b) = true := h
    obtain rfl : a = b := beq_iff_eq.mp h'
    exact ⟨a, rfl, rfl⟩

theorem markerDeeper_of_deeperThanAt (lines : List Str) (k k2 e : Nat)
    (hk : depthAt? lines k = some e)
    (h : deeperThanAt lines k k2 = true) :
    markerDeeper lines e k2 = true := by
  unfold deeperThanAt at h
  rw [hk] at h
  unfold markerDeeper
  cases hg : depthAt? lines k2 with
  | some b => rw [hg] at h; exact h
  | none => rw [hg] at h; exact Bool.noConfusion h

theorem isMarkerAt_of_cluster_header (lines : List Str) (k : Nat)
    (h : isClusterHeaderAt lines k = true) : isMarkerAt lines k = true := by
  unfold isClusterHeaderAt at h
  unfold isMarkerAt
  have he : S "=== Cluster" = S "===" ++ S " Cluster" := rfl
  rw [he] at h
  exact startsWithL_append _ _ _ h

theorem formOK_spec (lines : List Str) (k : Nat) (h : formOK lines k = true) :
    startsWithL (S "=== Field") (pyStrip (lineAt lines k)) = false ∧
    startsWithL (S "=== Enum Container:") (pyStrip (lineAt lines k)) = false := by
  unfold formOK at h
  rw [Bool.and_eq_true] at h
  exact ⟨by simpa using h.1, by simpa using h.2⟩

/-- The terminator hypothesis is self-propagating: the terminators that
`clusterTerminated lines lo j0` provides for the cluster headers inside an
inner cluster block `(k, m)` stay strictly inside that block. -/
theorem clusterTerminated_inner (lines : List Str) (lo j0 k m e : Nat)
    (H2 : clusterTerminated lines lo j0)
    (hk : lo < k) (hkm : k < m) (hmj : m < j0)
    (hdk : depthAt? lines k = some e)
    (hdm : depthAt? lines m = some e)
    (hmmark : isMarkerAt lines m = true)
    (hdeep : ∀ k2, k2 < m → k < k2 → isMarkerAt lines k2 = true →
      deeperThanAt lines k k2 = true) :
    clusterTerminated lines k m := by
  intro k' hk'm hkk' hch
  obtain ⟨m', hm'j0, hk'm', hm'mark, hsame', hform', hdeep'⟩ :=
    H2 k' (by omega) (by omega) hch
  obtain ⟨e', hdk', hdm'⟩ := sameDepth_spec lines k' m' hsame'
  have hmark' : isMarkerAt lines k' = true := isMarkerAt_of_cluster_header lines k' hch
  have hdeepk' : markerDeeper lines e k' = true :=
    markerDeeper_of_deeperThanAt lines k k' e hdk (hdeep k' hk'm hkk' hmark')
  obtain ⟨e2, hd2, hlt2⟩ := markerDeeper_spec lines e k' hdeepk'
  have he2 : e2 = e' := by rw [hdk'] at hd2; exact (Option.some.inj hd2).symm
  subst he2
  have hm'm : m' < m := by
    by_contra hcon
    push_neg at hcon
    rcases Nat.eq_or_lt_of_le hcon with heq | hlt3
    · rw [← heq] at hdm'
      rw [hdm] at hdm'
      have : e = e2 := Option.some.inj hdm'
      omega
    · have hdd := hdeep' m hlt3 (by omega) hmmark
      obtain ⟨e3, hd3, hlt4⟩ := markerDeeper_spec lines e2 m
        (markerDeeper_of_deeperThanAt lines k' m e2 hdk' hdd)
      rw [hdm] at hd3
      have : e = e3 := Option.some.inj hd3
      omega
  exact ⟨m', hm'm, hk'm', hm'mark, hsame', hform', hdeep'⟩

end SVD

namespace SVD

/-! #### Minimality: the child loop stops at the designated terminator -/

mutual

/-- Under the well-nestedness side conditions, `parse_register_or_cluster`
started strictly before the designated terminator `j0` advances, but never
beyond `j0`. -/
theorem parse_rc_min (lines : List Str) :
    ∀ (fuel lo j0 d index : Nat) (el : Option RegisterCluster) (i2 : Nat),
      markersDeeper lines lo j0 d →
      clusterTerminated lines lo j0 →
      isMarkerAt lines j0 = true →
      formOK lines j0 = true →
      j0 < lines.length →
      lo < index → index < j0 →
      SVDConvParser.parse_register_or_cluster lines fuel index = .ok (el, i2) →
      index < i2 ∧ i2 ≤ j0
  | 0, _, _, _, _, _, _, _, _, _, _, _, _, _, h => Except.noConfusion h
  | fuel + 1, lo, j0, d, index, el, i2, H1, H2, hmj, hform, hjlen, hlo, hij, h => by
    have hlt : index < lines.length := by omega
    unfold SVDConvParser.parse_register_or_cluster at h
    rw [dif_pos hlt] at h
    obtain ⟨hnf0, hnc0⟩ := formOK_spec lines j0 hform
    rw [lineAt_eq_getElem lines j0 hjlen] at hnf0 hnc0
    have hmarkj : startsWithL (S "===") (pyStrip lines[j0]) = true := by
      have hx := hmj
      unfold isMarkerAt at hx
      rw [lineAt_eq_getElem lines j0 hjlen] at hx
      exact hx
    by_cases hreg : startsWithL (S "=== Register") (pyStrip lines[index]) = true
    · rw [if_pos hreg] at h
      cases hpr : SVDConvParser.parse_register lines fuel index with
      | error e => rw [hpr] at h; exact Except.noConfusion h
      | ok reg_i =>
      rw [hpr] at h
      cases reg_i with
      | mk reg i1 =>
      dsimp only [except_bind_ok] at h
      obtain ⟨-, hji⟩ := Prod.mk.inj (Except.ok.inj h)
      subst hji
      have hg := parse_register_ge lines fuel index reg i1 hpr
      have hl := parse_register_le lines j0 hjlen hmarkj hnf0 hnc0 fuel index reg i1 hij hpr
      omega
    · rw [if_neg hreg] at h
      by_cases hcl : startsWithL (S "=== Cluster") (pyStrip lines[index]) = true
      · rw [if_pos hcl] at h
        cases hpc : SVDConvParser.parse_cluster lines fuel index with
        | error e => rw [hpc] at h; exact Except.noConfusion h
        | ok c_i =>
        rw [hpc] at h
        cases c_i with
        | mk c i1 =>
        dsimp only [except_bind_ok] at h
        obtain ⟨-, hji⟩ := Prod.mk.inj (Except.ok.inj h)
        subst hji
        have hch : isClusterHeaderAt lines index = true := by
          unfold isClusterHeaderAt
          rw [lineAt_eq_getElem lines index hlt]
          exact hcl
        obtain ⟨m, hmj0, himm, hmmark, hsame, hformm, hdeep⟩ := H2 index hij hlo hch
        obtain ⟨e, hdk, hdm⟩ := sameDepth_spec lines index m hsame
        have hinner1 : markersDeeper lines index m e := by
          intro k2 h1 h2 h3
          exact markerDeeper_of_deeperThanAt lines index k2 e hdk (hdeep k2 h1 h2 h3)
        have hinner2 : clusterTerminated lines index m :=
          clusterTerminated_inner lines lo j0 index m e H2 hlo himm hmj0 hdk hdm hmmark hdeep
        have hjm := parse_cluster_min lines fuel index e m c i1 hdk hinner1 hinner2 hmmark hdm
          hformm himm (by omega) hpc
        omega
      · rw [if_neg hcl] at h
        obtain ⟨-, hji⟩ := Prod.mk.inj (Except.ok.inj h)
        omega
termination_by structural fuel => fuel

/-- Under the well-nestedness side conditions, a successful `parse_cluster`
run started at header `i` returns exactly the designated terminator `j0`:
the first marker after `i` at the cluster's own depth. -/
theorem parse_cluster_min (lines : List Str) :
    ∀ (fuel i e j0 : Nat) (rc : RegisterCluster) (j : Nat),
      depthAt? lines i = some e →
      markersDeeper lines i j0 e →
      clusterTerminated lines i j0 →
      isMarkerAt lines j0 = true →
      depthAt? lines j0 = some e →
      formOK lines j0 = true →
      i < j0 → j0 < lines.length →
      SVDConvParser.parse_cluster lines fuel i = .ok (rc, j) →
      j = j0
  | 0, _, _, _, _, _, _, _, _, _, _, _, _, _, h => Except.noConfusion h
  | fuel + 1, i, e, j0, rc, j, hdi, H1, H2, hmj, hdj, hform, hij, hjlen, h => by
    obtain ⟨hlt, d0, i1, rcs, hd0, hi1, hcl⟩ := parse_cluster_shape lines fuel i rc j h
    have hd0e : d0 = e := by
      have hx := depthAt?_of_get_depth lines i d0 hd0
      rw [hdi] at hx
      exact (Option.some.inj hx).symm
    subst hd0e
    have hmarkj : startsWithL (S "===") (pyStrip lines[j0]) = true := by
      have hx := hmj
      unfold isMarkerAt at hx
      rw [lineAt_eq_getElem lines j0 hjlen] at hx
      exact hx
    have hi1' : (collect_kv stop_marker lines fuel (i + 1) []).2 = i1 := hi1
    have hge : i + 1 ≤ i1 := by
      have hx := collect_kv_ge stop_marker lines fuel (i + 1) []
      rw [hi1'] at hx
      exact hx
    have hle : i1 ≤ j0 := by
      have hx := collect_kv_le stop_marker lines j0 hjlen hmarkj fuel (i + 1) [] (by omega)
      rw [hi1'] at hx
      exact hx
    exact cluster_children_loop_min lines fuel i1 i d0 j0 [] rcs j H1 H2 hmj hdj hform
      (by omega) hle hjlen hcl
termination_by structural fuel => fuel

/-- Under the well-nestedness side conditions, the cluster child loop stops
exactly at the designated terminator `j0`. -/
theorem cluster_children_loop_min (lines : List Str) :
    ∀ (fuel index lo d j0 : Nat) (acc rcs : List RegisterCluster) (j : Nat),
      markersDeeper lines lo j0 d →
      clusterTerminated lines lo j0 →
      isMarkerAt lines j0 = true →
      depthAt? lines j0 = some d →
      formOK lines j0 = true →
      lo < index → index ≤ j0 → j0 < lines.length →
      SVDConvParser.cluster_children_loop lines fuel index d acc = .ok (rcs, j) →
      j = j0
  | 0, _, _, _, _, _, _, _, _, _, _, _, _, _, _, _, h => Except.noConfusion h
  | fuel + 1, index, lo, d, j0, acc, rcs, j, H1, H2, hmj, hdj, hform, hlo, hle, hjlen, h => by
    have hlt : index < lines.length := by omega
    unfold SVDConvParser.cluster_children_loop at h
    rw [dif_pos hlt] at h
    by_cases hm : startsWithL (S "===") (pyStrip lines[index]) = true
    case neg =>
      rw [if_neg hm] at h
      have hne : index ≠ j0 := by
        intro hx
        subst hx
        have hx2 := hmj
        unfold isMarkerAt at hx2
        rw [lineAt_eq_getElem lines index hlt] at hx2
        exact hm hx2
      exact cluster_children_loop_min lines fuel (index + 1) lo d j0 acc rcs j H1 H2 hmj hdj
        hform (by omega) (by omega) hjlen h
    rw [if_pos hm] at h
    cases hd : SVDConvParser.get_current_depth lines[index] with
    | error e => rw [hd] at h; exact Except.noConfusion h
    | ok e =>
    rw [hd, except_bind_ok] at h
    have hdx : depthAt? lines index = some e :=
      depthAt?_of_get_depth lines index e
        (by rw [lineAt_eq_getElem lines index hlt]; exact hd)
    by_cases hij : index = j0
    · subst hij
      have hed : e = d := by
        rw [hdj] at hdx
        exact (Option.some.inj hdx).symm
      rw [if_pos hed] at h
      obtain ⟨-, hj⟩ := Prod.mk.inj (Except.ok.inj h)
      omega
    · have hij' : index < j0 := by omega
      have hmark : isMarkerAt lines index = true := by
        unfold isMarkerAt
        rw [lineAt_eq_getElem lines index hlt]
        exact hm
      obtain ⟨e2, hd2, hgt⟩ := markerDeeper_spec lines d index (H1 index hij' hlo hmark)
      have hee : e2 = e := by
        have hx := hdx
        rw [hd2] at hx
        exact Option.some.inj hx
      subst hee
      have hed : ¬ (e2 = d) := by omega
      rw [if_neg hed] at h
      cases hrc : SVDConvParser.parse_register_or_cluster lines fuel index with
      | error e3 => rw [hrc] at h; exact Except.noConfusion h
      | ok el_i =>
      rw [hrc] at h
      cases el_i with
      | mk el i1 =>
      dsimp only [except_bind_ok] at h
      obtain ⟨hp1, hp2⟩ := parse_rc_min lines fuel lo j0 d index el i1 H1 H2 hmj hform hjlen
        hlo hij' hrc
      cases el with
      | some e4 =>
        exact cluster_children_loop_min lines fuel i1 lo d j0 (acc ++ [e4]) rcs j H1 H2 hmj
          hdj hform (by omega) hp2 hjlen h
      | none =>
        exact cluster_children_loop_min lines fuel i1 lo d j0 acc rcs j H1 H2 hmj hdj hform
          (by omega) hp2 hjlen h
termination_by structural fuel => fuel

end

end SVD

namespace SVD

instance (lines : List Str) (lo j0 d : Nat) : Decidable (markersDeeper lines lo j0 d) :=
  inferInstanceAs (Decidable (∀ k, k < j0 → lo < k → isMarkerAt lines k = true →
    markerDeeper lines d k = true))

instance (lines : List Str) (lo j0 : Nat) : Decidable (clusterTerminated lines lo j0) :=
  decidable_of_iff
    (∀ k ∈ List.range j0, lo < k → isClusterHeaderAt lines k = true →
      ∃ m ∈ List.range j0, k < m ∧ isMarkerAt lines m = true ∧ sameDepth lines k m = true ∧
        formOK lines m = true ∧
        ∀ k2 ∈ List.range m, k < k2 → isMarkerAt lines k2 = true →
          deeperThanAt lines k k2 = true)
    (by unfold clusterTerminated; simp only [List.mem_range])

/-- C6: For every well-indented free-text input, parsing a Cluster
consumes its own attribute lines and all child Register/Cluster sections
at strictly greater indentation depth, and terminates exactly at a section
marker line (`===`) at the same indentation depth as the cluster's own
header; that same-depth marker is not consumed as a child of the cluster.
Part one (every input): a successful `parse_cluster` run returns either
the end of the input or the position of a yet-unconsumed `===` marker
whose depth equals the cluster's own header depth.  Part two
(well-indented input): when the markers strictly between the header `i`
and a designated same-depth marker `j0` are all well indented and
strictly deeper, every inner cluster block is itself terminated before
`j0`, and `j0` is not a `=== Field` or `=== Enum Container:` header, the
run stops exactly at `j0`, consuming every line of the cluster's block
and nothing beyond it. -/
theorem claim_C6 :
    (∀ (lines : List Str) (fuel i : Nat) (rc : RegisterCluster) (j : Nat),
        SVDConvParser.parse_cluster lines fuel i = .ok (rc, j) →
        ∃ d, i < lines.length ∧
          SVDConvParser.get_current_depth (lineAt lines i) = .ok d ∧
          (lines.length ≤ j ∨
            (j < lines.length ∧ isMarkerAt lines j = true ∧
              SVDConvParser.get_current_depth (lineAt lines j) = .ok d))) ∧
    (∀ (lines : List Str) (fuel i d j0 : Nat) (rc : RegisterCluster) (j : Nat),
        depthAt? lines i = some d →
        markersDeeper lines i j0 d →
        clusterTerminated lines i j0 →
        isMarkerAt lines j0 = true →
        depthAt? lines j0 = some d →
        formOK lines j0 = true →
        i < j0 → j0 < lines.length →
        SVDConvParser.parse_cluster lines fuel i = .ok (rc, j) →
        j = j0) :=
  ⟨parse_cluster_exit, parse_cluster_min⟩

/-- A nested cluster block: cluster `A` (depth 0, header at line 0) with
children `R1` (depth 1, line 4), cluster `B` (depth 1, line 10, itself
containing `R2` at depth 2, line 14, and terminated by the depth-1 marker
at line 20) and `R3` (depth 1, line 20); line 26 is the next depth-0
section marker terminating `A`. -/
def c6_lines : List Str :=
  [S "=== Cluster A ===",
   S "addressOffset: 0x0",
   S "access: READ_WRITE",
   S "protection: UNDEF",
   S "    === Register R1 (with prepend & append: R1) ===",
   S "    addressOffset: 0x0",
   S "    access: READ_WRITE",
   S "    protection: UNDEF",
   S "    modifiedWriteValues: undefined",
   S "    readAction: UNDEF",
   S "    === Cluster B ===",
   S "    addressOffset: 0x4",
   S "    access: READ_WRITE",
   S "    protection: UNDEF",
   S "        === Register R2 (with prepend & append: R2) ===",
   S "        addressOffset: 0x0",
   S "        access: READ_WRITE",
   S "        protection: UNDEF",
   S "        modifiedWriteValues: undefined",
   S "        readAction: UNDEF",
   S "    === Register R3 (with prepend & append: R3) ===",
   S "    addressOffset: 0x8",
   S "    access: READ_WRITE",
   S "    protection: UNDEF",
   S "    modifiedWriteValues: undefined",
   S "    readAction: UNDEF",
   S "=== Register R4 (with prepend & append: R4) ==="]

theorem claim_C6_witness :
    (SVDConvParser.parse_cluster c6_lines 40 0).map Prod.snd = Except.ok 26 := by
  cases hpc : SVDConvParser.parse_cluster c6_lines 40 0 with
  | error e =>
    have hsome : (SVDConvParser.parse_cluster c6_lines 40 0).toOption.isSome = true := by
      decide
    rw [hpc] at hsome
    exact Bool.noConfusion hsome
  | ok p =>
    cases p with
    | mk rc j =>
    have hj := claim_C6.2 c6_lines 40 0 0 26 rc j (by decide) (by decide) (by decide)
      (by decide) (by decide) (by decide) (by decide) (by decide) hpc
    exact congrArg Except.ok hj

end SVD
